import Mathlib

/-! Gateway request pipeline and token manager: a shallow embedding.

Go strings are modelled by `String` and compared through their character lists.
The gin context is modelled by an explicit record (`Context`) that is passed through
every handler; effects on external collaborators (request header reads, token
parsing, counter-store commands, upstream calls, log lines) are appended to
`Context.trace`, so that statements of the form "without doing X" are statements
about the trace.
-/

namespace Gateway

/-! ## Go `strings` helpers -/

/-- Go `strings.HasPrefix(s, pre)`. -/
def HasPrefix (s pre : String) : Bool :=
  pre.data.isPrefixOf s.data

/-- Go `strings.TrimPrefix(s, pre)`: `s` without one leading `pre`, or `s` itself. -/
def TrimPrefix (s pre : String) : String :=
  if HasPrefix s pre then String.mk (s.data.drop pre.data.length) else s

/-- Helper for `strings.Split(s, " ")`: `cur` is the part being read, reversed. -/
def splitOnSpaceAux : List Char → List Char → List String
  | [], cur => [String.mk cur.reverse]
  | c :: cs, cur =>
    if c = ' ' then String.mk cur.reverse :: splitOnSpaceAux cs []
    else splitOnSpaceAux cs (c :: cur)

/-- Go `strings.Split(s, " ")`. -/
def SplitOnSpace (s : String) : List String :=
  splitOnSpaceAux s.data []

/-- The process environment: `os.Getenv`, the empty string standing for an unset variable. -/
abbrev Environ := String → String

/-! ## HTTP headers (`http.Header`, a map from names to value lists) -/

abbrev Header := List (String × List String)

/-- Go `Header.Get`: the first value stored under `name`, or the empty string. -/
def Header.Get (h : Header) (name : String) : String :=
  match h.lookup name with
  | some (v :: _) => v
  | _ => ""

/-- Go `Header.Add`: append `value` to the values stored under `name`. -/
def Header.Add : Header → String → String → Header
  | [], name, value => [(name, [value])]
  | (k, vs) :: rest, name, value =>
    if k = name then (k, vs ++ [value]) :: rest
    else (k, vs) :: Header.Add rest name value

/-- Store `values` under `name`, replacing what was there. -/
def Header.SetValues : Header → String → List String → Header
  | [], name, values => [(name, values)]
  | (k, vs) :: rest, name, values =>
    if k = name then (k, values) :: rest
    else (k, vs) :: Header.SetValues rest name values

/-- The values stored under `name` (empty when the name is absent). -/
def Header.Values (h : Header) (name : String) : List String :=
  (h.lookup name).getD []

/-! ## JSON values and tokens (external library `golang-jwt/jwt/v5`, modelled symbolically) -/

/-- A decoded JSON value, as far as claims use them. -/
inductive JValue where
  | null
  | str (s : String)
  | num (n : Int)
  | bool (b : Bool)
  deriving DecidableEq, Repr

/-- Go `jwt.MapClaims`: the decoded JSON object of a token payload. -/
abbrev MapClaims := List (String × JValue)

/-- Go map indexing `claims[key]`: `nil` when the key is absent. -/
def MapClaims.index (m : MapClaims) (key : String) : JValue :=
  (m.lookup key).getD JValue.null

/-- A decoded compact token. The signature segment is symbolic: `macKey` is the key
under which the signature verifies for the algorithm named in the header, if any
(an ideal MAC verifies under the key it was computed with and no other). -/
structure JWS where
  alg : String
  payload : MapClaims
  macKey : Option String
  deriving DecidableEq, Repr

/-! ## Counter store (Redis), modelled from its command contract -/

/-- One live key of the counter store. -/
structure RedisEntry where
  key : String
  value : Int
  /-- Absolute expiry instant in nanoseconds, if a time to live was set. -/
  deadline : Option Nat
  deriving DecidableEq, Repr

/-- The counter store. `faults` is the outcome oracle for the commands to come:
each command consumes one flag, `true` meaning that this command fails
(an exhausted oracle means success). -/
structure Redis where
  entries : List RedisEntry
  faults : List Bool
  deriving DecidableEq, Repr

/-- The entry of `key` that is still alive at instant `now`. -/
def Redis.live (r : Redis) (now : Nat) (key : String) : Option RedisEntry :=
  r.entries.find? (fun e => decide (e.key = key) && (match e.deadline with
    | none => true
    | some d => decide (now < d)))

/-- Command `INCR key` at instant `now`: the new count, or `none` on failure.
An absent or expired key counts from zero; a time to live already set is kept. -/
def Redis.Incr (r : Redis) (now : Nat) (key : String) : Option Int × Redis :=
  let failed := r.faults.headD false
  let r1 : Redis := { r with faults := r.faults.tail }
  if failed then (none, r1)
  else
    match r.live now key with
    | some e =>
      if e.value ≥ 2 ^ 63 - 1 then (none, r1)
      else
        (some (e.value + 1),
          { r1 with entries :=
              { e with value := e.value + 1 } :: r.entries.filter (fun x => x.key ≠ key) })
    | none =>
      (some 1,
        { r1 with entries :=
            { key := key, value := 1, deadline := none } ::
              r.entries.filter (fun x => x.key ≠ key) })

/-- Command `EXPIRE key window` at instant `now`; the flag tells whether it succeeded. -/
def Redis.Expire (r : Redis) (now : Nat) (key : String) (window : Nat) : Bool × Redis :=
  let failed := r.faults.headD false
  let r1 : Redis := { r with faults := r.faults.tail }
  if failed then (false, r1)
  else
    match r.live now key with
    | some e =>
      (true,
        { r1 with entries :=
            { e with deadline := some (now + window) } ::
              r.entries.filter (fun x => x.key ≠ key) })
    | none => (true, r1)

/-! ## Requests, responses and the gin context -/

/-- Go `url.URL`, the fields this program touches. -/
structure URL where
  scheme : String
  host : String
  path : String
  rawQuery : String
  fragment : String
  deriving DecidableEq, Repr

/-- The outbound request handed to `client.Do`. -/
structure OutRequest where
  method : String
  url : URL
  header : Header
  body : String
  deriving DecidableEq, Repr

/-- What a backend answered. -/
structure UpstreamResponse where
  statusCode : Nat
  header : Header
  contentLength : Int
  body : String
  deriving DecidableEq, Repr

/-- The handlers that the gateway `main` registers. -/
inductive Stage where
  | cors
  | accessLog
  | authGate
  | addressLimit
  | metrics
  | identityLimit
  | proxy
  | health
  deriving DecidableEq, Repr

/-- Effects on the outside world, in the order they happen. `enter` is written by the
engine each time it calls a handler of the chain. -/
inductive Event where
  | getHeader (name : String)
  | jwtParse (tokenString : String)
  | redisIncr (key : String)
  | redisExpire (key : String) (window : Nat)
  | upstream (req : OutRequest)
  | logWarn (msg : String)
  | logError (msg : String)
  | enter (stage : Stage)
  | logInfo (msg : String) (fields : List (String × String))
  | counterInc (name : String) (labels : List String)
  | observe (name : String) (labels : List String) (value : Nat)
  deriving DecidableEq, Repr

/-- The inbound request (`c.Request` and `c.ClientIP()`). -/
structure Request where
  method : String
  path : String
  rawQuery : String
  header : Header
  /-- The request body; `none` when reading it fails. -/
  body : Option String
  clientIP : String
  deriving DecidableEq, Repr

/-- The gin context of one request, together with the world it runs in. -/
structure Context where
  request : Request
  /-- Values stored with `c.Set`. -/
  keys : List (String × JValue)
  aborted : Bool
  /-- Status code held by the response writer (gin starts from 200). -/
  status : Nat
  /-- Whether the response header has been sent. -/
  written : Bool
  respHeader : Header
  respBody : String
  redis : Redis
  /-- Current instant, in nanoseconds. -/
  now : Nat
  trace : List Event
  /-- Gin `c.FullPath()`: the pattern of the matched route, empty when none matched. -/
  fullPath : String := ""
  deriving DecidableEq, Repr

/-- A gin handler; the first argument is `c.Next`, the rest of the chain. -/
abbrev HandlerFunc := (Context → Context) → Context → Context

/-- Number of upstream calls recorded in a trace. -/
def upstreamCalls (t : List Event) : Nat :=
  t.countP (fun e => match e with
    | Event.upstream _ => true
    | _ => false)

/-- Gin `c.GetHeader(name)`: reads the request header. -/
def Context.GetHeader (c : Context) (name : String) : String × Context :=
  (c.request.header.Get name, { c with trace := c.trace ++ [Event.getHeader name] })

/-- Gin `ResponseWriter.WriteHeader(code)`: the status can change until it is sent. -/
def Context.WriteHeader (c : Context) (code : Nat) : Context :=
  if code > 0 ∧ c.status ≠ code then
    if c.written then c else { c with status := code }
  else c

/-- Gin `bodyAllowedForStatus`. -/
def bodyAllowedForStatus (status : Nat) : Bool :=
  if 100 ≤ status ∧ status ≤ 199 then false
  else if status = 204 then false
  else if status = 304 then false
  else true

/-- Gin `writeContentType`: set `Content-Type` unless one is already there. -/
def Context.writeContentType (c : Context) (value : List String) : Context :=
  if (c.respHeader.Values "Content-Type").length = 0 then
    { c with respHeader := c.respHeader.SetValues "Content-Type" value }
  else c

/-- Gin `ResponseWriter.Write`: send the header if needed, then the bytes. -/
def Context.Write (c : Context) (data : String) : Context :=
  { c with written := true, respBody := c.respBody ++ data }

/-- Gin `c.JSON(code, obj)`, with `body` the JSON text of `obj`. -/
def Context.JSON (c : Context) (code : Nat) (body : String) : Context :=
  let c1 := c.WriteHeader code
  if bodyAllowedForStatus code then
    (c1.writeContentType ["application/json; charset=utf-8"]).Write body
  else
    { c1.writeContentType ["application/json; charset=utf-8"] with written := true }

/-- Gin `c.Abort()`. -/
def Context.Abort (c : Context) : Context :=
  { c with aborted := true }

/-- Gin `c.Set(key, value)`. -/
def Context.Set (c : Context) (key : String) (value : JValue) : Context :=
  { c with keys := (key, value) :: c.keys.filter (fun kv => kv.1 ≠ key) }

/-- Gin `c.Get(key)`. -/
def Context.Get (c : Context) (key : String) : Option JValue :=
  c.keys.lookup key

/-- The JSON text gin renders for `gin.H{"error": msg}` (for messages that need no escaping). -/
def errorJSON (msg : String) : String :=
  "\x7b\"error\":\"" ++ msg ++ "\"\x7d"

/-- Gin `c.DataFromReader(code, contentLength, contentType, reader, nil)`, with `body`
the content of the reader. -/
def Context.DataFromReader (c : Context) (code : Nat) (contentLength : Int)
    (contentType : String) (body : String) : Context :=
  let c1 := c.WriteHeader code
  if bodyAllowedForStatus code then
    let c2 := c1.writeContentType [contentType]
    let c3 : Context :=
      if contentLength ≥ 0 ∧ c2.respHeader.Get "Content-Length" = "" then
        { c2 with respHeader :=
            c2.respHeader.SetValues "Content-Length" [toString contentLength] }
      else c2
    if body = "" then c3 else c3.Write body
  else
    { c1.writeContentType [contentType] with written := true }

/-! ## Reverse proxy (`api-gateway/internal/proxy/proxy.go`) -/

/-- The backend base URLs held by the proxy. -/
structure Proxy where
  authServiceURL : String
  businessServiceURL : String
  inventoryServiceURL : String
  transactionServiceURL : String
  fileServiceURL : String
  menuServiceURL : String
  orderServiceURL : String
  tableServiceURL : String
  deriving DecidableEq, Repr

/-- The standard library calls of the proxy (`net/url`, `net/http`), taken as parameters. -/
structure Net where
  /-- Go `url.Parse`; `none` is a parse error. -/
  urlParse : String → Option URL
  /-- Go `(*URL).String`. -/
  urlString : URL → String
  /-- Go `http.NewRequest(method, url, body)`: the URL of the new request, `none` on error. -/
  newRequestURL : String → String → Option URL
  /-- Go `client.Do` with the 10 second timeout; `none` is a transport error or a timeout. -/
  clientDo : OutRequest → Option UpstreamResponse

/-- The nested header loops of `proxyRequest`: every value of `src` is added to `dst`. -/
def copyHeader (src : Header) (dst : Header) : Header :=
  src.foldl (fun acc kv => kv.2.foldl (fun acc2 v => Header.Add acc2 kv.1 v) acc) dst

/-- The `switch` of `Proxy.HandleRequest`: the backend chosen for a stripped path,
`none` standing for the `default` branch. -/
def Proxy.targetURL (p : Proxy) (servicePath : String) : Option String :=
  if HasPrefix servicePath "/auth" then some p.authServiceURL
  else if HasPrefix servicePath "/business" || HasPrefix servicePath "/branches" then
    some p.businessServiceURL
  else if HasPrefix servicePath "/products" || HasPrefix servicePath "/stock" then
    some p.inventoryServiceURL
  else if HasPrefix servicePath "/transactions" then some p.transactionServiceURL
  else if HasPrefix servicePath "/files" then some p.fileServiceURL
  else if HasPrefix servicePath "/menu" || HasPrefix servicePath "/categories"
      || HasPrefix servicePath "/items" then
    some p.menuServiceURL
  else if HasPrefix servicePath "/orders" then some p.orderServiceURL
  else if HasPrefix servicePath "/tables" then some p.tableServiceURL
  else none

/-- Go `proxyRequest(c, target, method)`. -/
def proxyRequest (net : Net) (c : Context) (target : URL) (method : String) : Context :=
  match c.request.body with
  | none => c.JSON 500 (errorJSON "failed to read request body")
  | some body =>
    match net.newRequestURL method (net.urlString target) with
    | none => c.JSON 500 (errorJSON "failed to create request")
    | some u =>
      let req : OutRequest :=
        { method := method
          url := { u with rawQuery := c.request.rawQuery }
          header := copyHeader c.request.header []
          body := body }
      let c1 : Context := { c with trace := c.trace ++ [Event.upstream req] }
      match net.clientDo req with
      | none => c1.JSON 502 (errorJSON "failed to forward request")
      | some resp =>
        let c2 : Context := { c1 with respHeader := copyHeader resp.header c1.respHeader }
        let c3 := c2.WriteHeader resp.statusCode
        c3.DataFromReader resp.statusCode resp.contentLength
          (resp.header.Get "Content-Type") resp.body

/-- The tail of `Proxy.HandleRequest` once the `switch` has chosen `targetURL`
(building the target URL and forwarding). -/
def forwardTo (net : Net) (c : Context) (targetURL servicePath : String) : Context :=
  match net.urlParse (targetURL ++ servicePath) with
  | none =>
    let c1 : Context := { c with trace := c.trace ++ [Event.logError "Invalid target URL"] }
    c1.JSON 500 (errorJSON "invalid target URL")
  | some target => proxyRequest net c target c.request.method

/-- Go `(*Proxy).HandleRequest`. -/
def Proxy.HandleRequest (net : Net) (p : Proxy) (c : Context) : Context :=
  let path := c.request.path
  let servicePath := TrimPrefix path "/api/v1"
  match p.targetURL servicePath with
  | none =>
    let c1 : Context := { c with trace := c.trace ++ [Event.logWarn "Service not found"] }
    c1.JSON 404 (errorJSON "service not found")
  | some targetURL => forwardTo net c targetURL servicePath

/-- `HandleRequest` takes the `switch` branch of the backend `u` for the request of `c`. -/
def Proxy.Selects (net : Net) (p : Proxy) (c : Context) (u : String) : Prop :=
  p.targetURL (TrimPrefix c.request.path "/api/v1") = some u ∧
    p.HandleRequest net c = forwardTo net c u (TrimPrefix c.request.path "/api/v1")

/-- The prefix rules of the route resolver in declaration order, as the specification
words them: each rule lists its prefixes and its backend. -/
def Proxy.rules (p : Proxy) : List (List String × String) :=
  [ (["/auth"], p.authServiceURL),
    (["/business", "/branches"], p.businessServiceURL),
    (["/products", "/stock"], p.inventoryServiceURL),
    (["/transactions"], p.transactionServiceURL),
    (["/files"], p.fileServiceURL),
    (["/menu", "/categories", "/items"], p.menuServiceURL),
    (["/orders"], p.orderServiceURL),
    (["/tables"], p.tableServiceURL) ]

/-- Whether a rule has at least one prefix matching the stripped path. -/
def ruleMatches (servicePath : String) (rule : List String × String) : Bool :=
  rule.1.any (fun pre => HasPrefix servicePath pre)

/-- First-match resolution as the specification words it: the backend of the earliest
rule that matches. -/
def resolveFirstMatch (rules : List (List String × String)) (servicePath : String) :
    Option String :=
  (rules.find? (ruleMatches servicePath)).map (fun rule => rule.2)

/-- The twelve configured prefixes. -/
def routePrefixes : List String :=
  ["/auth", "/business", "/branches", "/products", "/stock", "/transactions", "/files",
    "/menu", "/categories", "/items", "/orders", "/tables"]

/-! ## Token parsing (external library `golang-jwt/jwt/v5`, default parser options) -/

/-- The wire format of compact tokens (base64url segments holding JSON), taken as
parameters: `encode` writes a token, `decode` reads one and is `none` on malformed input. -/
structure JWTCodec where
  encode : JWS → String
  decode : String → Option JWS

/-- One second, one minute and one hour of `time.Duration`, in nanoseconds. -/
def Second : Nat := 1000000000

def Minute : Nat := 60 * Second

def Hour : Nat := 60 * Minute

/-- The signing methods that accept a byte-slice key; every other method rejects it. -/
def hmacAlg (alg : String) : Bool :=
  alg = "HS256" || alg = "HS384" || alg = "HS512"

/-- Library `MapClaims.parseNumericDate`: an absent key or the number zero is no date,
a number is a date in seconds, anything else is an error. -/
def MapClaims.parseNumericDate (m : MapClaims) (key : String) : Except String (Option Int) :=
  match m.lookup key with
  | none => Except.ok none
  | some (JValue.num n) => if n = 0 then Except.ok none else Except.ok (some n)
  | some _ => Except.error (key ++ " is invalid")

/-- Library `verifyExpiresAt` with no leeway: `now` is before the expiry, if there is one. -/
def verifyExpiresAt (exp : Option Int) (now : Nat) : Bool :=
  match exp with
  | none => true
  | some e => decide ((now : Int) < e * (Second : Int))

/-- Library `verifyNotBefore` with no leeway: `now` is not before the date, if there is one. -/
def verifyNotBefore (nbf : Option Int) (now : Nat) : Bool :=
  match nbf with
  | none => true
  | some n => decide (¬ ((now : Int) < n * (Second : Int)))

/-- Library `Validator.Validate` on map claims, default options (`exp` and `nbf` checked
when present, `iat` not verified). -/
def validateMapClaims (m : MapClaims) (now : Nat) : Bool :=
  match m.parseNumericDate "exp", m.parseNumericDate "nbf" with
  | Except.ok exp, Except.ok nbf => verifyExpiresAt exp now && verifyNotBefore nbf now
  | _, _ => false

/-- Library `jwt.Parse(tokenString, keyFunc)` with a key function that returns the byte
slice `key`: the parsed token, or an error. -/
def jwtParse (codec : JWTCodec) (tokenString key : String) (now : Nat) : Except String JWS :=
  match codec.decode tokenString with
  | none => Except.error "token is malformed"
  | some t =>
    if hmacAlg t.alg = false then Except.error "token is unverifiable"
    else if t.macKey ≠ some key then Except.error "token signature is invalid"
    else if validateMapClaims t.payload now = false then
      Except.error "token has invalid claims"
    else Except.ok t

/-- The codec reads the string `tok` back as the token that was written into it. -/
def JWTCodec.ReadsBack (codec : JWTCodec) (tok : String) : Prop :=
  ∀ t : JWS, codec.encode t = tok → codec.decode tok = some t

/-! ## Gateway configuration (`api-gateway/internal/config/config.go`) -/

structure Config where
  Port : String
  JWTSecret : String
  RedisURL : String
  AuthServiceURL : String
  BusinessServiceURL : String
  InventoryServiceURL : String
  TransactionServiceURL : String
  FileServiceURL : String
  MenuServiceURL : String
  OrderServiceURL : String
  TableServiceURL : String
  deriving DecidableEq, Repr

/-- Go `getEnvOrDefault` of the gateway. -/
def getEnvOrDefault (env : Environ) (key defaultValue : String) : String :=
  if env key ≠ "" then env key else defaultValue

/-- Go `(*Config).validate`: the first required variable that is not set, if any. -/
def Config.validate (env : Environ) : Option String :=
  (["JWT_SECRET", "REDIS_URL"].find? (fun name => env name = "")).map
    (fun name => "required environment variable " ++ name ++ " is not set")

/-- Go `config.New` of the gateway. -/
def Config.New (env : Environ) : Except String Config :=
  let cfg : Config :=
    { Port := getEnvOrDefault env "PORT" "8080"
      JWTSecret := getEnvOrDefault env "JWT_SECRET" "your-secret-key"
      RedisURL := getEnvOrDefault env "REDIS_URL" "redis://localhost:6379"
      AuthServiceURL := getEnvOrDefault env "AUTH_SERVICE_URL" "http://localhost:8081"
      BusinessServiceURL := getEnvOrDefault env "BUSINESS_SERVICE_URL" "http://localhost:8082"
      InventoryServiceURL := getEnvOrDefault env "INVENTORY_SERVICE_URL" "http://localhost:8083"
      TransactionServiceURL :=
        getEnvOrDefault env "TRANSACTION_SERVICE_URL" "http://localhost:8084"
      FileServiceURL := getEnvOrDefault env "FILE_SERVICE_URL" "http://localhost:8085"
      MenuServiceURL := getEnvOrDefault env "MENU_SERVICE_URL" "http://localhost:8086"
      OrderServiceURL := getEnvOrDefault env "ORDER_SERVICE_URL" "http://localhost:8087"
      TableServiceURL := getEnvOrDefault env "TABLE_SERVICE_URL" "http://localhost:8088" }
  match Config.validate env with
  | some err => Except.error err
  | none => Except.ok cfg

/-! ## Authentication gate (`api-gateway/internal/middleware/auth.go`) -/

structure AuthMiddleware where
  jwtSecret : String
  deriving DecidableEq, Repr

/-- Go `NewAuthMiddleware`. -/
def NewAuthMiddleware (jwtSecret : String) : AuthMiddleware :=
  { jwtSecret := jwtSecret }

/-- The `publicEndpoints` list of `Authenticate`. -/
def authPublicEndpoints : List String :=
  [ "/api/v1/auth/register",
    "/api/v1/auth/login",
    "/api/v1/auth/refresh",
    "/api/v1/auth/password/reset/request",
    "/api/v1/auth/password/reset",
    "/api/v1/auth/verify",
    "/health",
    "/metrics" ]

/-- Go `(*AuthMiddleware).validateToken`. -/
def AuthMiddleware.validateToken (codec : JWTCodec) (m : AuthMiddleware) (c : Context)
    (tokenString : String) : Except String JWS × Context :=
  (jwtParse codec tokenString m.jwtSecret c.now,
    { c with trace := c.trace ++ [Event.jwtParse tokenString] })

/-- Go `(*AuthMiddleware).Authenticate`. -/
def AuthMiddleware.Authenticate (codec : JWTCodec) (m : AuthMiddleware) : HandlerFunc :=
  fun next c =>
    if authPublicEndpoints.any (fun endpoint => HasPrefix c.request.path endpoint) then next c
    else
      let (authHeader, c1) := c.GetHeader "Authorization"
      if authHeader = "" then
        (c1.JSON 401 (errorJSON "authorization header required")).Abort
      else
        let parts := SplitOnSpace authHeader
        if parts.length ≠ 2 ∨ parts.head? ≠ some "Bearer" then
          (c1.JSON 401 (errorJSON "invalid authorization header format")).Abort
        else
          match m.validateToken codec c1 (parts.getD 1 "") with
          | (Except.error _, c2) => (c2.JSON 401 (errorJSON "invalid token")).Abort
          | (Except.ok token, c2) =>
            let c3 := c2.Set "userID" (token.payload.index "user_id")
            let c4 := c3.Set "businessID" (token.payload.index "business_id")
            let c5 := c4.Set "userRole" (token.payload.index "role")
            next c5

/-! ## Rate limiter (`api-gateway/internal/middleware/rate_limiter.go`) and its wrapper -/

/-- Go `RateLimiter`: the handle of the counter-store client. The store it talks to is
`Context.redis`. -/
structure RateLimiter where
  redisURL : String
  deriving DecidableEq, Repr

/-- Go `(*RateLimiter).RateLimit(limit, window)`. -/
def RateLimiter.RateLimit (_rl : RateLimiter) (limit : Int) (window : Nat) : HandlerFunc :=
  fun next c =>
    let key := "rate_limit:" ++ c.request.clientIP
    let (count, redis1) := c.redis.Incr c.now key
    let c1 : Context := { c with redis := redis1, trace := c.trace ++ [Event.redisIncr key] }
    match count with
    | none => (c1.JSON 500 (errorJSON "failed to process rate limit")).Abort
    | some count =>
      let c2 : Context :=
        if count = 1 then
          { c1 with
            redis := (c1.redis.Expire c1.now key window).2
            trace := c1.trace ++ [Event.redisExpire key window] }
        else c1
      if count > limit then (c2.JSON 429 (errorJSON "rate limit exceeded")).Abort
      else next c2

/-- The `publicEndpoints` list of the rate-limit wrapper in the gateway `main`. -/
def mainPublicEndpoints : List String :=
  [ "/api/v1/auth/register",
    "/api/v1/auth/login",
    "/api/v1/auth/refresh",
    "/api/v1/auth/password/reset/request",
    "/api/v1/auth/password/reset",
    "/api/v1/auth/verify",
    "/health",
    "/metrics" ]

/-- The anonymous handler of the gateway `main` that applies the address-scope limit
to every route but the public ones. -/
def addressRateLimit (rateLimiter : RateLimiter) : HandlerFunc :=
  fun next c =>
    if mainPublicEndpoints.any (fun endpoint => HasPrefix c.request.path endpoint) then next c
    else rateLimiter.RateLimit 100 (1 * Minute) next c

/-! ### `fmt.Sprintf("%v", v)` for the values a context key can hold -/

/-- The digits of a number without its trailing zeros. -/
def stripTrailingZeros (ds : List Char) : List Char :=
  (ds.reverse.dropWhile (fun d => d = '0')).reverse

/-- Go `%v` of a `float64` holding the integral value `n` (JSON numbers are decoded to
`float64`), for magnitudes that `float64` holds exactly: plain digits below `1e+06`,
otherwise the shortest mantissa and a two-digit exponent. -/
def formatIntegralFloat (n : Int) : String :=
  let ds := Nat.toDigits 10 n.natAbs
  let sign := if n < 0 then "-" else ""
  let exp := ds.length - 1
  if exp < 6 then sign ++ String.mk ds
  else
    let mant : List Char :=
      match stripTrailingZeros ds with
      | [] => []
      | [d] => [d]
      | d :: rest => d :: '.' :: rest
    sign ++ String.mk mant ++ "e+" ++ (if exp < 10 then "0" else "") ++ toString exp

/-- Go `fmt.Sprintf("%v", v)`. -/
def JValue.format : JValue → String
  | JValue.null => "<nil>"
  | JValue.str s => s
  | JValue.num n => formatIntegralFloat n
  | JValue.bool b => if b then "true" else "false"

/-- Go `(*RateLimiter).UserRateLimit(limit, window)`. -/
def RateLimiter.UserRateLimit (_rl : RateLimiter) (limit : Int) (window : Nat) : HandlerFunc :=
  fun next c =>
    match c.Get "userID" with
    | none => (c.JSON 401 (errorJSON "user not authenticated")).Abort
    | some userID =>
      let key := "user_rate_limit:" ++ userID.format
      let (count, redis1) := c.redis.Incr c.now key
      let c1 : Context := { c with redis := redis1, trace := c.trace ++ [Event.redisIncr key] }
      match count with
      | none => (c1.JSON 500 (errorJSON "failed to process rate limit")).Abort
      | some count =>
        let c2 : Context :=
          if count = 1 then
            { c1 with
              redis := (c1.redis.Expire c1.now key window).2
              trace := c1.trace ++ [Event.redisExpire key window] }
          else c1
        if count > limit then (c2.JSON 429 (errorJSON "rate limit exceeded")).Abort
        else next c2

/-! ## Access log and metrics (`api-gateway/internal/middleware/logger.go`, `metrics.go`) -/

/-- Go `LoggerMiddleware(logger)`. -/
def LoggerMiddleware : HandlerFunc :=
  fun next c =>
    let start := c.now
    let path := c.request.path
    let query := c.request.rawQuery
    let c1 := next c
    { c1 with trace := c1.trace ++
        [Event.logInfo "Request processed"
          [ ("method", c1.request.method),
            ("path", path),
            ("query", query),
            ("status", toString c1.status),
            ("latency", toString (c1.now - start)),
            ("client_ip", c1.request.clientIP),
            ("user_agent", c1.request.header.Get "User-Agent") ]] }

/-- Go `getStatusCategory`. -/
def getStatusCategory (status : Int) : String :=
  if status ≥ 500 then "server_error"
  else if status ≥ 400 then "client_error"
  else if status ≥ 300 then "redirect"
  else if status ≥ 200 then "success"
  else if status ≥ 100 then "informational"
  else "unknown"

/-- Go `getErrorType`. -/
def getErrorType (status : Int) : String :=
  if status ≥ 500 then "server_error"
  else if status ≥ 400 then "client_error"
  else "unknown"

/-- Go `MetricsMiddleware(service)`. -/
def MetricsMiddleware (service : String) : HandlerFunc :=
  fun next c =>
    let start := c.now
    let path := if c.fullPath = "" then "undefined" else c.fullPath
    let c1 := next c
    let status := c1.status
    let statusStr := toString status
    let duration := c1.now - start
    let recorded : List Event :=
      [ Event.counterInc "http_requests_total" [service, c1.request.method, path, statusStr],
        Event.observe "http_request_duration_seconds" [service, c1.request.method, path]
          duration,
        Event.counterInc "http_requests_by_method_total" [service, c1.request.method],
        Event.counterInc "http_requests_by_status_total" [service, getStatusCategory status] ]
    let errors : List Event :=
      if status ≥ 400 then
        [Event.counterInc "http_request_errors_total" [service, getErrorType status]]
      else []
    { c1 with trace := c1.trace ++ recorded ++ errors }

/-- Modelled from the spec: `middleware.CORSMiddleware` is called by the gateway `main`
but its source is not part of the repository files at hand. The specification words it as
"CORS header injection (always runs, never rejects)": the handler sets its response
headers, here the parameter `headers`, and continues the chain. -/
def CORSMiddleware (headers : List (String × String)) : HandlerFunc :=
  fun next c =>
    next { c with respHeader :=
      headers.foldl (fun acc kv => Header.SetValues acc kv.1 [kv.2]) c.respHeader }

/-! ## Handler chains (`api-gateway/cmd/server/main.go`) -/

/-- What the gateway `main` builds before it registers its routes. -/
structure App where
  codec : JWTCodec
  net : Net
  corsHeaders : List (String × String)
  authMiddleware : AuthMiddleware
  rateLimiter : RateLimiter
  proxy : Proxy

/-- The engine runs a chain: it calls the first handler, and `c.Next()` inside a handler
runs the handlers after it. Every middleware of this program ends each of its paths with
`c.Next()` or with `c.Abort()`, so running a chain is nesting its handlers. -/
def runChain : List (Stage × HandlerFunc) → Context → Context
  | [], c => c
  | (stage, h) :: rest, c =>
    h (runChain rest) { c with trace := c.trace ++ [Event.enter stage] }

/-- The handlers registered with `router.Use`, in the order of the calls. -/
def App.globalChain (app : App) : List (Stage × HandlerFunc) :=
  [ (Stage.cors, CORSMiddleware app.corsHeaders),
    (Stage.accessLog, LoggerMiddleware),
    (Stage.authGate, app.authMiddleware.Authenticate app.codec),
    (Stage.addressLimit, addressRateLimit app.rateLimiter),
    (Stage.metrics, MetricsMiddleware "api-gateway") ]

/-- The route handler `proxy.HandleRequest`. -/
def App.proxyHandler (app : App) : HandlerFunc :=
  fun _ c => app.proxy.HandleRequest app.net c

/-- The chain of the six public routes `POST /api/v1/auth/...`. -/
def App.publicChain (app : App) : List (Stage × HandlerFunc) :=
  app.globalChain ++ [(Stage.proxy, app.proxyHandler)]

/-- The chain of the routes of the `protected` group, `/api/v1/:service/*path`:
the group adds `UserRateLimit(1000, 1*time.Minute)` after the global handlers. -/
def App.protectedChain (app : App) : List (Stage × HandlerFunc) :=
  app.globalChain ++
    [ (Stage.identityLimit, app.rateLimiter.UserRateLimit 1000 (1 * Minute)),
      (Stage.proxy, app.proxyHandler) ]

/-- The chain of `GET /health`. -/
def App.healthChain (app : App) : List (Stage × HandlerFunc) :=
  app.globalChain ++
    [(Stage.health, fun _ c => c.JSON 200 "\x7b\"status\":\"ok\"\x7d")]

/-- The stages entered, in order, as recorded in a trace. -/
def stagesEntered (t : List Event) : List Stage :=
  t.filterMap (fun e => match e with
    | Event.enter stage => some stage
    | _ => none)

/-- The part that `RateLimit` and `UserRateLimit` have in common (the source repeats it
in both): from the increment of the counter `key` on. -/
def checkCounter (key : String) (limit : Int) (window : Nat) : HandlerFunc :=
  fun next c =>
    let (count, redis1) := c.redis.Incr c.now key
    let c1 : Context := { c with redis := redis1, trace := c.trace ++ [Event.redisIncr key] }
    match count with
    | none => (c1.JSON 500 (errorJSON "failed to process rate limit")).Abort
    | some count =>
      let c2 : Context :=
        if count = 1 then
          { c1 with
            redis := (c1.redis.Expire c1.now key window).2
            trace := c1.trace ++ [Event.redisExpire key window] }
        else c1
      if count > limit then (c2.JSON 429 (errorJSON "rate limit exceeded")).Abort
      else next c2

/-! ## Sequences of limiter calls on the shared counter store -/

/-- A response writer and context as the engine hands them to the first handler. -/
def Context.Fresh (c : Context) : Prop :=
  c.aborted = false ∧ c.written = false ∧ c.respBody = "" ∧ c.status = 200

/-- One call of a limiter: which of the two limiters, its parameters, and the context of
the request that reaches it (with its own instant and its own response writer). -/
structure LimiterCall where
  /-- `true` for `UserRateLimit`, `false` for `RateLimit`. -/
  identity : Bool
  limit : Int
  window : Nat
  ctx : Context

/-- The counter key of a call, `none` when `UserRateLimit` finds no `userID`. -/
def LimiterCall.key (call : LimiterCall) : Option String :=
  if call.identity then
    (call.ctx.Get "userID").map (fun userID => "user_rate_limit:" ++ userID.format)
  else some ("rate_limit:" ++ call.ctx.request.clientIP)

/-- Whether a call is for the counter key `K`. -/
def LimiterCall.isFor (call : LimiterCall) (K : String) : Bool :=
  decide (call.key = some K)

/-- The outcome of a call on the store `r`, the rest of the chain being empty. -/
def LimiterCall.run (rl : RateLimiter) (call : LimiterCall) (r : Redis) : Context :=
  if call.identity then
    rl.UserRateLimit call.limit call.window id { call.ctx with redis := r }
  else rl.RateLimit call.limit call.window id { call.ctx with redis := r }

/-- The store after a sequence of calls, each call working on the store the previous
one left. -/
def storeAfter (rl : RateLimiter) : Redis → List LimiterCall → Redis
  | r, [] => r
  | r, call :: rest => storeAfter rl (call.run rl r).redis rest

/-- Number of calls for the key `K` in a sequence. -/
def callsFor (K : String) (calls : List LimiterCall) : Nat :=
  calls.countP (fun call => call.isFor K)

/-- The expiry instant that the first call for `K` of a sequence arms. -/
def armedDeadline (K : String) (calls : List LimiterCall) : Option Nat :=
  (calls.find? (fun call => call.isFor K)).map (fun call => call.ctx.now + call.window)

/-- The calls for `K` of a sequence all fall in one window: each of them happens before
the expiry instant that the first one arms. -/
def withinOneWindow (K : String) (calls : List LimiterCall) : Bool :=
  match armedDeadline K calls with
  | none => true
  | some d => calls.all (fun call => !call.isFor K || decide (call.ctx.now < d))

/-- The entries that the store keeps under the key `K`. -/
def Redis.slot (r : Redis) (K : String) : List RedisEntry :=
  r.entries.filter (fun e => decide (e.key = K))

/-- The count that the store holds for `K` at instant `t` (zero when the key is absent
or expired). -/
def Redis.count (r : Redis) (t : Nat) (K : String) : Int :=
  ((r.live t K).map (fun e => e.value)).getD 0

/-! ## A model of `net/url` for plain absolute URLs -/

/-- Go `strings.Cut(s, sep)` for a one-character separator: the text before the first
`sep` and the text after it. -/
def cutAt (sep : Char) (s : List Char) : List Char × List Char :=
  (s.takeWhile (fun ch => ch ≠ sep), (s.dropWhile (fun ch => ch ≠ sep)).drop 1)

/-- Go `stringContainsCTLByte`, per character. -/
def isCTL (ch : Char) : Bool :=
  ch.toNat < 32 || ch.toNat = 127

/-- Go `getScheme`: the scheme and the rest, with an empty scheme when the text does not
start with one; `none` is the error `missing protocol scheme`. `seen` is the text read
so far, reversed. -/
def getSchemeAux : List Char → List Char → Option (List Char × List Char)
  | [], seen => some ([], seen.reverse)
  | ch :: rest, seen =>
    if ch.isAlpha then getSchemeAux rest (ch :: seen)
    else if ch.isDigit || ch = '+' || ch = '-' || ch = '.' then
      if seen = [] then some ([], ch :: rest) else getSchemeAux rest (ch :: seen)
    else if ch = ':' then
      if seen = [] then none else some (seen.reverse, rest)
    else some ([], seen.reverse ++ ch :: rest)

/-- Go `url.Parse`, for URLs of the form `scheme://host/path?query#fragment`: the
fragment is what follows the first `#`, the query what follows the first `?`, a control
character or a missing scheme before `:` is an error. Percent escapes, user information
and the checks on the host are not modelled. -/
def goURLParse (raw : String) : Option URL :=
  let (u, frag) := cutAt '#' raw.data
  if u.any isCTL then none
  else
    match getSchemeAux u [] with
    | none => none
    | some (scheme, rest0) =>
      let (rest, query) := cutAt '?' rest0
      if rest.take 2 = ['/', '/'] then
        some
          { scheme := String.mk (scheme.map Char.toLower)
            host := String.mk ((rest.drop 2).takeWhile (fun ch => ch ≠ '/'))
            path := String.mk ((rest.drop 2).dropWhile (fun ch => ch ≠ '/'))
            rawQuery := String.mk query
            fragment := String.mk frag }
      else
        some
          { scheme := String.mk (scheme.map Char.toLower)
            host := ""
            path := String.mk rest
            rawQuery := String.mk query
            fragment := String.mk frag }

/-- Go `(*URL).String`, for the URLs that `goURLParse` yields. -/
def goURLString (u : URL) : String :=
  (if u.scheme ≠ "" then u.scheme ++ ":" else "") ++
  (if u.host ≠ "" then "//" ++ u.host else "") ++
  u.path ++
  (if u.rawQuery ≠ "" then "?" ++ u.rawQuery else "") ++
  (if u.fragment ≠ "" then "#" ++ u.fragment else "")

/-- The standard library behind the proxy, with `backend` the answer of the network to
an outbound request (`none` when the call fails or times out). -/
def stdNet (backend : OutRequest → Option UpstreamResponse) : Net :=
  { urlParse := goURLParse
    urlString := goURLString
    newRequestURL := fun _ target => goURLParse target
    clientDo := backend }

/-- The upstream requests recorded in a trace, in order. -/
def upstreamRequests (t : List Event) : List OutRequest :=
  t.filterMap (fun e => match e with
    | Event.upstream req => some req
    | _ => none)

/-- The metric records of a trace (counter increments and histogram observations), in
order. -/
def metricRecords (t : List Event) : List Event :=
  t.filter (fun e => match e with
    | Event.counterInc _ _ => true
    | Event.observe _ _ _ => true
    | _ => false)

/-- The context `c0` is `c` up to the store, the context keys and trace entries that are
neither handler calls nor upstream requests nor metric records: the request, the response
writer, the abort flag, the clock and the route pattern are the same. -/
structure SameResponse (c c0 : Context) : Prop where
  request : c0.request = c.request
  aborted : c0.aborted = c.aborted
  status : c0.status = c.status
  written : c0.written = c.written
  respHeader : c0.respHeader = c.respHeader
  respBody : c0.respBody = c.respBody
  now : c0.now = c.now
  fullPath : c0.fullPath = c.fullPath
  stages : stagesEntered c0.trace = stagesEntered c.trace
  upstream : upstreamCalls c0.trace = upstreamCalls c.trace
  metrics : metricRecords c0.trace = metricRecords c.trace

/-- The terminal response `c.JSON(status, gin.H{"error": msg})` followed by `c.Abort()`. -/
def rejection (c : Context) (status : Nat) (msg : String) : Context :=
  (c.JSON status (errorJSON msg)).Abort

/-- The handler `h` is a gate with the rejections `rs`: at every context it either hands
a context with the same response to the rest of the chain, or writes one of the
rejections `rs` and aborts, whatever the rest of the chain is. -/
def IsGate (h : HandlerFunc) (rs : List (Nat × String)) : Prop :=
  ∀ c : Context, ∃ c0 : Context, SameResponse c c0 ∧
    ((∀ next, h next c = next c0) ∨
      (∃ status msg, (status, msg) ∈ rs ∧ ∀ next, h next c = rejection c0 status msg))

/-- The handler `h` keeps the order of the chain: at every context it either runs the rest
of the chain once, entering no handler and making no upstream request itself and leaving
the abort flag alone, or it ends the chain with the abort flag set. -/
def Orderly (h : HandlerFunc) : Prop :=
  ∀ c : Context,
    (∃ (c0 : Context) (post : Context → Context),
      stagesEntered c0.trace = stagesEntered c.trace ∧
      upstreamCalls c0.trace = upstreamCalls c.trace ∧
      c0.aborted = c.aborted ∧
      (∀ next, h next c = post (next c0)) ∧
      (∀ x, stagesEntered (post x).trace = stagesEntered x.trace ∧
        upstreamCalls (post x).trace = upstreamCalls x.trace ∧
        (post x).aborted = x.aborted)) ∨
    (∃ out : Context, (∀ next, h next c = out) ∧
      stagesEntered out.trace = stagesEntered c.trace ∧
      upstreamCalls out.trace = upstreamCalls c.trace ∧
      out.aborted = true)

/-- The handler `h` is a route handler: it does not call the rest of the chain, enters
no handler and leaves the abort flag alone. -/
def Terminal (h : HandlerFunc) : Prop :=
  ∃ run : Context → Context, (∀ next c, h next c = run c) ∧
    ∀ c, stagesEntered (run c).trace = stagesEntered c.trace ∧ (run c).aborted = c.aborted

/-- The handler `h` rejects at `c` with one of the responses `rs`: its outcome does not
depend on the rest of the chain, carries that status and the JSON error body, and
records no handler call and no upstream request. -/
def RejectsWith (h : HandlerFunc) (rs : List (Nat × String)) (c : Context) : Prop :=
  ∃ status msg, (status, msg) ∈ rs ∧
    (∀ next, h next c = h id c) ∧
    (h id c).status = status ∧
    (h id c).respBody = errorJSON msg ∧
    (h id c).aborted = true ∧
    stagesEntered (h id c).trace = stagesEntered c.trace ∧
    upstreamCalls (h id c).trace = upstreamCalls c.trace

/-- The status codes and messages with which the authentication gate rejects. -/
def authRejections : List (Nat × String) :=
  [ (401, "authorization header required"),
    (401, "invalid authorization header format"),
    (401, "invalid token") ]

/-- The status codes and messages with which the address-scope limiter rejects. -/
def addressRejections : List (Nat × String) :=
  [ (500, "failed to process rate limit"),
    (429, "rate limit exceeded") ]

/-- The status codes and messages with which the identity-scope limiter rejects. -/
def identityRejections : List (Nat × String) :=
  [ (401, "user not authenticated"),
    (500, "failed to process rate limit"),
    (429, "rate limit exceeded") ]

/-- The status codes and messages of the error responses of the proxy. -/
def proxyErrors : List (Nat × String) :=
  [ (404, "service not found"),
    (500, "invalid target URL"),
    (500, "failed to read request body"),
    (500, "failed to create request"),
    (502, "failed to forward request") ]

/-- The target URL that `HandleRequest` builds for the request of `c` is accepted by
`url.Parse` and by `http.NewRequest`. -/
def Proxy.TargetAccepted (net : Net) (p : Proxy) (c : Context) : Prop :=
  ∀ u, p.targetURL (TrimPrefix c.request.path "/api/v1") = some u →
    ∃ target v, net.urlParse (u ++ TrimPrefix c.request.path "/api/v1") = some target ∧
      net.newRequestURL c.request.method (net.urlString target) = some v

/-- No upstream request recorded in the trace was answered by a backend. -/
def Net.Unanswered (net : Net) (t : List Event) : Prop :=
  ∀ req ∈ upstreamRequests t, net.clientDo req = none

/-- The records that `MetricsMiddleware` writes after the rest of the chain has returned:
`c` is the context in which the handler was called and `out` what the rest of the chain
returned. -/
def recordedMetrics (service : String) (c out : Context) : List Event :=
  [ Event.counterInc "http_requests_total"
      [service, out.request.method, if c.fullPath = "" then "undefined" else c.fullPath,
        toString out.status],
    Event.observe "http_request_duration_seconds"
      [service, out.request.method, if c.fullPath = "" then "undefined" else c.fullPath]
      (out.now - c.now),
    Event.counterInc "http_requests_by_method_total" [service, out.request.method],
    Event.counterInc "http_requests_by_status_total"
      [service, getStatusCategory out.status] ] ++
  (if out.status ≥ 400 then
    [Event.counterInc "http_request_errors_total" [service, getErrorType out.status]]
  else [])

/-- The line that `LoggerMiddleware` writes after the rest of the chain has returned: `c`
is the context in which the handler was called and `out` what the rest of the chain
returned. -/
def accessLogLine (c out : Context) : Event :=
  Event.logInfo "Request processed"
    [ ("method", out.request.method),
      ("path", c.request.path),
      ("query", c.request.rawQuery),
      ("status", toString out.status),
      ("latency", toString (out.now - c.now)),
      ("client_ip", out.request.clientIP),
      ("user_agent", out.request.header.Get "User-Agent") ]

/-- The handlers that `main` registers before `MetricsMiddleware`. -/
def App.gateChain (app : App) : List (Stage × HandlerFunc) :=
  app.globalChain.take 4

/-- The handlers of the protected routes from `MetricsMiddleware` on. -/
def App.protectedTail (app : App) : List (Stage × HandlerFunc) :=
  app.protectedChain.drop 4

/-- The handlers of the public routes from `MetricsMiddleware` on. -/
def App.publicTail (app : App) : List (Stage × HandlerFunc) :=
  app.publicChain.drop 4

/-- Library `Parser.ParseUnverified`: a compact token is three base64url segments joined
by dots, so a string that holds a space is refused as malformed (the library answers a
string starting with `Bearer ` with `tokenstring should not contain 'bearer '`). -/
def JWTCodec.Compact (codec : JWTCodec) : Prop :=
  ∀ s : String, ' ' ∈ s.data → codec.decode s = none

/-- What one run of a chain of `main` looks like: `c` is the context that the engine
hands to the first handler, `out` what the chain returned, and `stages` the labels of the
handlers of the chain, which start with CORS, access logging, authentication gate,
address-scope limiting and metrics. The first `k` handlers are entered, in the order of
the chain, and `k` is at least 3; if the last handler is not reached the abort flag is
set, otherwise it is as it was. If `MetricsMiddleware` is not reached (`k < 5`) the trace
holds no new metric record. If it is reached, the handler after it (if the chain has one)
is entered too, and the trace of `out` ends with the records of `MetricsMiddleware`
followed by the access log line: every handler entry and every upstream request lies
before them, and no metric record does. -/
def ChainShape (stages : List Stage) (c out : Context) : Prop :=
  ∃ k, 3 ≤ k ∧ k ≤ stages.length ∧
    stagesEntered out.trace = stagesEntered c.trace ++ stages.take k ∧
    (k < stages.length → out.aborted = true) ∧
    (k = stages.length → out.aborted = c.aborted) ∧
    (k < 5 → metricRecords out.trace = metricRecords c.trace) ∧
    (5 ≤ k →
      (5 < stages.length → 6 ≤ k) ∧
      ∃ before : List Event,
        out.trace = before ++ recordedMetrics "api-gateway" c out ++ [accessLogLine c out] ∧
        metricRecords before = metricRecords c.trace ∧
        stagesEntered before = stagesEntered out.trace ∧
        upstreamRequests before = upstreamRequests out.trace)

/-- The handlers `rest` that a route adds after the global ones: run on their own, a
first part of them is entered in order (at least one if there is one), the abort flag is
set if the last one is not reached and left alone otherwise, and they write no metric
record. -/
def RouteTail (rest : List (Stage × HandlerFunc)) : Prop :=
  ∀ c : Context, ∃ j, j ≤ rest.length ∧ (rest ≠ [] → 1 ≤ j) ∧
    stagesEntered (runChain rest c).trace =
      stagesEntered c.trace ++ (rest.map Prod.fst).take j ∧
    (j < rest.length → (runChain rest c).aborted = true) ∧
    (j = rest.length → (runChain rest c).aborted = c.aborted) ∧
    metricRecords (runChain rest c).trace = metricRecords c.trace

/-- Number of counter-store commands recorded in a trace. -/
def storeCommands (t : List Event) : Nat :=
  t.countP (fun e => match e with
    | Event.redisIncr _ => true
    | Event.redisExpire _ _ => true
    | _ => false)

/-- Number of reads of the request header `name` recorded in a trace. -/
def headerReads (name : String) (t : List Event) : Nat :=
  t.countP (fun e => match e with
    | Event.getHeader n => decide (n = name)
    | _ => false)

/-- Number of token validator calls recorded in a trace. -/
def validatorCalls (t : List Event) : Nat :=
  t.countP (fun e => match e with
    | Event.jwtParse _ => true
    | _ => false)

end Gateway

/-! ## Token manager (`auth-service/internal/auth/token.go`) -/

namespace AuthService

open Gateway

abbrev TokenType := String

def AccessToken : TokenType := "access"

def RefreshToken : TokenType := "refresh"

/-- Go `uuid.UUID`, identified with its canonical text form (the form `MarshalText` writes
and `UnmarshalText` reads back). -/
structure UUID where
  text : String
  deriving DecidableEq, Repr

/-- Go `TokenClaims`; the registered dates are in seconds (`jwt.NumericDate`, `nil` as `none`). -/
structure TokenClaims where
  ExpiresAt : Option Int
  IssuedAt : Option Int
  NotBefore : Option Int
  UserID : UUID
  BusinessID : UUID
  Role : String
  TokenType : TokenType
  deriving DecidableEq, Repr

structure TokenPair where
  AccessToken : String
  RefreshToken : String
  deriving DecidableEq, Repr

structure TokenManager where
  accessSecret : String
  refreshSecret : String
  accessTTL : Nat
  refreshTTL : Nat
  deriving DecidableEq, Repr

/-- Go `NewTokenManager`. -/
def NewTokenManager (accessSecret refreshSecret : String) : TokenManager :=
  { accessSecret := accessSecret
    refreshSecret := refreshSecret
    accessTTL := 15 * Minute
    refreshTTL := 14 * 24 * Hour }

/-- Library `jwt.NewNumericDate`: the instant truncated to whole seconds. -/
def NewNumericDate (t : Nat) : Int :=
  ((t / Second : Nat) : Int)

/-- The JSON object `encoding/json` writes for a `TokenClaims` (date fields are `omitempty`). -/
def TokenClaims.toPayload (cl : TokenClaims) : MapClaims :=
  (match cl.ExpiresAt with
    | some e => [("exp", JValue.num e)]
    | none => []) ++
  (match cl.NotBefore with
    | some n => [("nbf", JValue.num n)]
    | none => []) ++
  (match cl.IssuedAt with
    | some i => [("iat", JValue.num i)]
    | none => []) ++
  [ ("user_id", JValue.str cl.UserID.text),
    ("business_id", JValue.str cl.BusinessID.text),
    ("role", JValue.str cl.Role),
    ("token_type", JValue.str cl.TokenType) ]

/-- Reading a date field of a JSON object into a `*jwt.NumericDate`. -/
def dateField (m : MapClaims) (key : String) : Option (Option Int) :=
  match m.lookup key with
  | none => some none
  | some JValue.null => some none
  | some (JValue.num n) => some (some n)
  | some _ => none

/-- Reading a string field of a JSON object (absent or `null` leaves the zero value). -/
def stringField (m : MapClaims) (key : String) (zero : String) : Option String :=
  match m.lookup key with
  | none => some zero
  | some JValue.null => some zero
  | some (JValue.str s) => some s
  | some _ => none

/-- The text of `uuid.Nil`. -/
def nilUUIDText : String := "00000000-0000-0000-0000-000000000000"

/-- What `encoding/json` reads from a JSON object into a `TokenClaims`; `none` is an
unmarshalling error. -/
def TokenClaims.ofPayload (m : MapClaims) : Option TokenClaims :=
  match dateField m "exp", dateField m "iat", dateField m "nbf",
      stringField m "user_id" nilUUIDText, stringField m "business_id" nilUUIDText,
      stringField m "role" "", stringField m "token_type" "" with
  | some exp, some iat, some nbf, some uid, some bid, some role, some tt =>
    some
      { ExpiresAt := exp, IssuedAt := iat, NotBefore := nbf,
        UserID := { text := uid }, BusinessID := { text := bid },
        Role := role, TokenType := tt }
  | _, _, _, _, _, _, _ => none

/-- Library `jwt.Token` after `ParseWithClaims` into a `TokenClaims`. -/
structure Token where
  Claims : TokenClaims
  Valid : Bool
  deriving DecidableEq, Repr

/-- The token that `jwt.NewWithClaims(jwt.SigningMethodHS256, claims)` holds once it is
signed with `secret`. -/
def signedJWS (claims : TokenClaims) (secret : String) : JWS :=
  { alg := "HS256", payload := claims.toPayload, macKey := some secret }

/-- Library `jwt.NewWithClaims(jwt.SigningMethodHS256, claims)` followed by
`SignedString(secret)`. -/
def SignedString (codec : JWTCodec) (claims : TokenClaims) (secret : String) :
    Except String String :=
  Except.ok (codec.encode (signedJWS claims secret))

/-- Library `jwt.ParseWithClaims(tokenString, &TokenClaims{}, keyFunc)` with a key
function that returns `key`. -/
def jwtParseWithClaims (codec : JWTCodec) (tokenString key : String) (now : Nat) :
    Except String Token :=
  match codec.decode tokenString with
  | none => Except.error "token is malformed"
  | some t =>
    match TokenClaims.ofPayload t.payload with
    | none => Except.error "token is malformed"
    | some claims =>
      if hmacAlg t.alg = false then Except.error "token is unverifiable"
      else if t.macKey ≠ some key then Except.error "token signature is invalid"
      else if (verifyExpiresAt claims.ExpiresAt now && verifyNotBefore claims.NotBefore now)
          = false then
        Except.error "token has invalid claims"
      else Except.ok { Claims := claims, Valid := true }

/-- The `claims` value built in `generateToken`, with `now` the reading of `time.Now()`. -/
def issuedClaims (now : Nat) (userID businessID : UUID) (role : String)
    (tokenType : TokenType) (ttl : Nat) : TokenClaims :=
  { ExpiresAt := some (NewNumericDate (now + ttl))
    IssuedAt := some (NewNumericDate now)
    NotBefore := some (NewNumericDate now)
    UserID := userID
    BusinessID := businessID
    Role := role
    TokenType := tokenType }

/-- Go `(*TokenManager).generateToken`, with `now` the reading of `time.Now()`. -/
def TokenManager.generateToken (codec : JWTCodec) (now : Nat) (_tm : TokenManager)
    (userID businessID : UUID) (role : String) (tokenType : TokenType) (secret : String)
    (ttl : Nat) : Except String String :=
  let claims := issuedClaims now userID businessID role tokenType ttl
  SignedString codec claims secret

/-- Go `(*TokenManager).GenerateTokenPair`; `now1` and `now2` are the clock readings of the
two `generateToken` calls. -/
def TokenManager.GenerateTokenPair (codec : JWTCodec) (now1 now2 : Nat) (tm : TokenManager)
    (userID businessID : UUID) (role : String) : Except String TokenPair :=
  match tm.generateToken codec now1 userID businessID role AccessToken tm.accessSecret
      tm.accessTTL with
  | Except.error err => Except.error err
  | Except.ok accessToken =>
    match tm.generateToken codec now2 userID businessID role RefreshToken tm.refreshSecret
        tm.refreshTTL with
    | Except.error err => Except.error err
    | Except.ok refreshToken =>
      Except.ok { AccessToken := accessToken, RefreshToken := refreshToken }

/-- Go `(*TokenManager).ValidateToken`, with `now` the reading of the clock. -/
def TokenManager.ValidateToken (codec : JWTCodec) (now : Nat) (tm : TokenManager)
    (tokenString : String) (tokenType : TokenType) : Except String TokenClaims :=
  let secret := if tokenType = AccessToken then tm.accessSecret else tm.refreshSecret
  match jwtParseWithClaims codec tokenString secret now with
  | Except.error err => Except.error err
  | Except.ok token =>
    if token.Valid then
      if token.Claims.TokenType ≠ tokenType then Except.error "invalid token type"
      else Except.ok token.Claims
    else Except.error "invalid token"

/-! ## Configuration and construction (`auth-service/internal/config`, `handlers`, `main`) -/

/-- Go `getEnvOrDefault`. -/
def getEnvOrDefault (env : Environ) (key defaultValue : String) : String :=
  if env key ≠ "" then env key else defaultValue

/-- The token settings of the auth-service `Config`. -/
structure Config where
  JWTSecret : String
  JWTRefreshSecret : String
  deriving DecidableEq, Repr

/-- Go `config.New` of the auth service, the token settings. -/
def Config.New (env : Environ) : Config :=
  { JWTSecret := getEnvOrDefault env "JWT_SECRET" "your-secret-key"
    JWTRefreshSecret := getEnvOrDefault env "JWT_REFRESH_SECRET" "your-refresh-secret-key" }

structure AuthHandler where
  config : Config
  tokenManager : TokenManager
  deriving DecidableEq, Repr

/-- Go `NewAuthHandler` (the repository is not part of the model). -/
def NewAuthHandler (cfg : Config) : AuthHandler :=
  { config := cfg
    tokenManager := NewTokenManager cfg.JWTSecret cfg.JWTSecret }

/-- The token manager built in the auth-service `main`. -/
def mainTokenManager (cfg : Config) : TokenManager :=
  NewTokenManager cfg.JWTSecret cfg.JWTRefreshSecret

/-! ## Models (`auth-service/internal/models/auth.go`, `role.go`) -/

abbrev UserRole := String

def RoleAdmin : UserRole := "admin"

def RoleManager : UserRole := "manager"

def RoleStaff : UserRole := "staff"

def RoleCustomer : UserRole := "customer"

def RoleClerk : UserRole := "clerk"

def RoleTeamLead : UserRole := "teamlead"

def RoleFinanceClerk : UserRole := "financeclerk"

/-- Go `models.User`, the fields that the modelled code reads; `DeletedAt` is the soft
delete mark of the ORM (`none` while the row is live). -/
structure User where
  ID : UUID
  Email : String
  Password : String
  Role : UserRole
  IsActive : Bool
  DeletedAt : Option Nat
  deriving DecidableEq, Repr

/-- The map literal `roleHierarchy` of `User.HasPermission`. -/
def roleHierarchy : List (UserRole × Int) :=
  [ (RoleAdmin, 7),
    (RoleManager, 6),
    (RoleTeamLead, 5),
    (RoleFinanceClerk, 4),
    (RoleClerk, 3),
    (RoleStaff, 2),
    (RoleCustomer, 1) ]

/-- Go map indexing `roleHierarchy[role]`: the zero value for a key that is absent. -/
def roleRank (role : UserRole) : Int :=
  (roleHierarchy.lookup role).getD 0

/-- Go `(*User).HasPermission`. -/
def User.HasPermission (u : User) (requiredRole : UserRole) : Bool :=
  decide (roleRank u.Role ≥ roleRank requiredRole)

/-- The hierarchy written out in words: admin 7, manager 6, teamlead 5, financeclerk 4,
clerk 3, staff 2, customer 1, and 0 for every other role. -/
def claimedRank (role : UserRole) : Int :=
  if role = "admin" then 7
  else if role = "manager" then 6
  else if role = "teamlead" then 5
  else if role = "financeclerk" then 4
  else if role = "clerk" then 3
  else if role = "staff" then 2
  else if role = "customer" then 1
  else 0

/-- The seven roles that the hierarchy knows. -/
def knownRoles : List UserRole :=
  ["admin", "manager", "teamlead", "financeclerk", "clerk", "staff", "customer"]

abbrev Permission := String

/-- Go `models.Role`. -/
structure Role where
  ID : String
  Name : String
  Description : String
  Permissions : List Permission
  IsActive : Bool
  deriving DecidableEq, Repr

/-- Go `(*Role).HasPermission`: the scan of the slice. -/
def Role.HasPermission (r : Role) (permission : Permission) : Bool :=
  r.Permissions.any (fun p => p = permission)

/-- Go `(*Role).AddPermission`. -/
def Role.AddPermission (r : Role) (permission : Permission) : Role :=
  if !r.HasPermission permission then
    { r with Permissions := r.Permissions ++ [permission] }
  else r

/-- Go `(*Role).RemovePermission`: the slice without its element at the first index `i`
that holds `permission` (`append(Permissions[:i], Permissions[i+1:]...)`), unchanged when
there is none. -/
def Role.RemovePermission (r : Role) (permission : Permission) : Role :=
  match r.Permissions.findIdx? (fun p => p = permission) with
  | some i => { r with Permissions := r.Permissions.take i ++ r.Permissions.drop (i + 1) }
  | none => r

/-! ## Repository (`auth-service/internal/repository/auth.go`) over the rows of its tables -/

/-- Go `models.Session`, without the timestamps that the ORM hooks maintain. -/
structure Session where
  ID : UUID
  UserID : UUID
  Token : String
  RefreshToken : String
  ExpiresAt : Nat
  deriving DecidableEq, Repr

/-- Go `models.PasswordReset` as `RequestPasswordReset` fills it (the primary key is
given by the database). -/
structure PasswordReset where
  UserID : UUID
  Token : String
  ExpiresAt : Nat
  Used : Bool
  deriving DecidableEq, Repr

/-- The database behind `AuthRepository`: the rows of three tables and the outcome oracle
for the statements to come. Each statement consumes one entry of `faults`; `some text`
means that the statement fails with that error text, `none` (or an exhausted oracle)
that the database runs it. -/
structure Repo where
  users : List User
  sessions : List Session
  passwordResets : List PasswordReset
  faults : List (Option String)
  deriving DecidableEq, Repr

/-- Go `(*AuthRepository).GetUserByEmail`: `First` with `email = ?` on the rows that are
not soft-deleted; no row is the error `record not found`. -/
def Repo.GetUserByEmail (r : Repo) (email : String) : Except String User × Repo :=
  let r1 : Repo := { r with faults := r.faults.tail }
  match r.faults.headD none with
  | some err => (Except.error err, r1)
  | none =>
    match r.users.find? (fun u => decide (u.Email = email) && u.DeletedAt.isNone) with
    | some u => (Except.ok u, r1)
    | none => (Except.error "record not found", r1)

/-- Go `(*AuthRepository).CreatePasswordReset`: `Create`, refused when the token is
already stored (the column has a unique index); the result is the error, if any. -/
def Repo.CreatePasswordReset (r : Repo) (reset : PasswordReset) : Option String × Repo :=
  let r1 : Repo := { r with faults := r.faults.tail }
  match r.faults.headD none with
  | some err => (some err, r1)
  | none =>
    if r.passwordResets.any (fun x => decide (x.Token = reset.Token)) then
      (some "duplicate key value violates unique constraint", r1)
    else (none, { r1 with passwordResets := r.passwordResets ++ [reset] })

/-- Go `(*AuthRepository).GetSessionByToken`. -/
def Repo.GetSessionByToken (r : Repo) (token : String) : Except String Session × Repo :=
  let r1 : Repo := { r with faults := r.faults.tail }
  match r.faults.headD none with
  | some err => (Except.error err, r1)
  | none =>
    match r.sessions.find? (fun x => decide (x.Token = token)) with
    | some x => (Except.ok x, r1)
    | none => (Except.error "record not found", r1)

/-- Go `(*AuthRepository).DeleteSession`: the result is the error, if any. -/
def Repo.DeleteSession (r : Repo) (id : UUID) : Option String × Repo :=
  let r1 : Repo := { r with faults := r.faults.tail }
  match r.faults.headD none with
  | some err => (some err, r1)
  | none => (none, { r1 with sessions := r.sessions.filter (fun x => decide (x.ID ≠ id)) })

/-! ## Handlers and middleware of the auth service
(`auth-service/internal/handlers/auth.go`, `middleware/auth.go`, `cmd/server/main.go`) -/

/-- One request in the auth service: its gin context and the database. -/
structure State where
  ctx : Context
  db : Repo
  deriving DecidableEq, Repr

/-- A gin handler of the auth service; for a middleware the first argument is `c.Next`. -/
abbrev Handler := State → State

abbrev Middleware := Handler → Handler

/-- The library calls of the handlers, taken as parameters. -/
structure Lib where
  /-- Gin `c.ShouldBindJSON(&request)` for the request type with the one field
  `Email string` tagged `binding:"required,email"`, applied to the request body: the
  error text, or the bound email. -/
  bindEmail : Option String → Except String String
  /-- What `encoding/json` writes between the quotes for a Go string. -/
  jsonText : String → String

/-- The body of `c.JSON(code, gin.H{"message": msg})`. -/
def messageJSON (msg : String) : String :=
  "\x7b\"message\":\"" ++ msg ++ "\"\x7d"

/-- The body of `c.JSON(code, gin.H{"message": msg, "token": token})`; `encoding/json`
writes the keys of a map in sorted order. -/
def messageTokenJSON (msg token : String) : String :=
  "\x7b\"message\":\"" ++ msg ++ "\",\"token\":\"" ++ token ++ "\"\x7d"

/-- Go `(*AuthHandler).RequestPasswordReset`; `newUUID` is the value of `uuid.New()`. -/
def AuthHandler.RequestPasswordReset (lib : Lib) (newUUID : UUID) (_h : AuthHandler) :
    Handler :=
  fun s =>
    match lib.bindEmail s.ctx.request.body with
    | Except.error err => { s with ctx := s.ctx.JSON 400 (errorJSON (lib.jsonText err)) }
    | Except.ok email =>
      match s.db.GetUserByEmail email with
      | (Except.error _, db1) =>
        { ctx := s.ctx.JSON 200 (messageJSON "if the email exists, a reset link will be sent")
          db := db1 }
      | (Except.ok user, db1) =>
        let token := newUUID.text
        let reset : PasswordReset :=
          { UserID := user.ID, Token := token, ExpiresAt := s.ctx.now + 24 * Hour,
            Used := false }
        match db1.CreatePasswordReset reset with
        | (some _, db2) =>
          { ctx := s.ctx.JSON 500 (errorJSON "failed to create reset token"), db := db2 }
        | (none, db2) =>
          { ctx := s.ctx.JSON 200
              (messageTokenJSON "reset token generated" (lib.jsonText token))
            db := db2 }

/-- Go `middleware.AuthMiddleware(tokenManager)` of the auth service. The identifiers
stored with `c.Set` are kept by their text. -/
def AuthMiddleware (codec : JWTCodec) (tokenManager : TokenManager) : Middleware :=
  fun next s =>
    let (authHeader, c1) := s.ctx.GetHeader "Authorization"
    if authHeader = "" then
      { s with ctx := (c1.JSON 401 (errorJSON "No authorization header")).Abort }
    else
      let parts := SplitOnSpace authHeader
      if parts.length ≠ 2 ∨ parts.head? ≠ some "Bearer" then
        { s with ctx := (c1.JSON 401 (errorJSON "Invalid authorization header format")).Abort }
      else
        let token := parts.getD 1 ""
        match tokenManager.ValidateToken codec c1.now token AccessToken with
        | Except.error _ =>
          { s with ctx := (c1.JSON 401 (errorJSON "Invalid token")).Abort }
        | Except.ok claims =>
          let c2 := c1.Set "user_id" (JValue.str claims.UserID.text)
          let c3 := c2.Set "business_id" (JValue.str claims.BusinessID.text)
          let c4 := c3.Set "role" (JValue.str claims.Role)
          next { s with ctx := c4 }

/-- Go `(*AuthHandler).Logout`. -/
def AuthHandler.Logout (codec : JWTCodec) (lib : Lib) (h : AuthHandler) : Handler :=
  fun s =>
    let (token, c1) := s.ctx.GetHeader "Authorization"
    if token = "" then { s with ctx := c1.JSON 400 (errorJSON "No token provided") }
    else
      match h.tokenManager.ValidateToken codec c1.now token AccessToken with
      | Except.error _ => { s with ctx := c1.JSON 401 (errorJSON "Invalid token") }
      | Except.ok _ =>
        match s.db.GetSessionByToken token with
        | (Except.error _, db1) =>
          { ctx := c1.JSON 401 (errorJSON "Invalid token"), db := db1 }
        | (Except.ok session, db1) =>
          match db1.DeleteSession session.ID with
          | (some err, db2) =>
            { ctx := c1.JSON 500 (errorJSON (lib.jsonText err)), db := db2 }
          | (none, db2) =>
            { ctx := c1.JSON 200 (messageJSON "Logged out successfully"), db := db2 }

/-- The route `POST /auth/logout` of the auth-service `main`: the `protected` group runs
`AuthMiddleware(tokenManager)` before `handler.Logout`. -/
def logoutRoute (codec : JWTCodec) (lib : Lib) (tokenManager : TokenManager)
    (h : AuthHandler) : Handler :=
  AuthMiddleware codec tokenManager (h.Logout codec lib)

end AuthService

namespace Gateway

/-! ## Sample values used to instantiate the statements -/

/-- A proxy configured with the default backend addresses of `config.New`. -/
def sampleProxy : Proxy :=
  { authServiceURL := "http://localhost:8081"
    businessServiceURL := "http://localhost:8082"
    inventoryServiceURL := "http://localhost:8083"
    transactionServiceURL := "http://localhost:8084"
    fileServiceURL := "http://localhost:8085"
    menuServiceURL := "http://localhost:8086"
    orderServiceURL := "http://localhost:8087"
    tableServiceURL := "http://localhost:8088" }

/-- A network in which every URL parses and every backend answers `200 ok`. -/
def sampleNet : Net :=
  { urlParse := fun s =>
      some { scheme := "http", host := "", path := s, rawQuery := "", fragment := "" }
    urlString := fun u => u.path
    newRequestURL := fun _ s =>
      some { scheme := "http", host := "", path := s, rawQuery := "", fragment := "" }
    clientDo := fun _ =>
      some { statusCode := 200, header := [], contentLength := 2, body := "ok" } }

/-- A fresh context for a `GET` of `path` carrying the given request header. -/
def sampleContext (path : String) (header : Header) : Context :=
  { request :=
      { method := "GET", path := path, rawQuery := "", header := header,
        body := some "", clientIP := "10.0.0.1" }
    keys := []
    aborted := false
    status := 200
    written := false
    respHeader := []
    respBody := ""
    redis := { entries := [], faults := [] }
    now := 0
    trace := [] }

/-- An environment that sets the shared signing secret and the counter-store address. -/
def sampleEnv : Environ := fun name =>
  if name = "JWT_SECRET" then "topsecret"
  else if name = "REDIS_URL" then "redis://localhost:6379"
  else ""

/-- The instant at which the sample tokens are issued and presented. -/
def sampleNow : Nat := 5 * Second + 7

def sampleUser : AuthService.UUID := { text := "11111111-1111-1111-1111-111111111111" }

def sampleBusiness : AuthService.UUID := { text := "22222222-2222-2222-2222-222222222222" }

/-- The access token the login handler issues for the sample user at `sampleNow`. -/
def sampleAccessJWS : JWS :=
  AuthService.signedJWS
    (AuthService.issuedClaims sampleNow sampleUser sampleBusiness "clerk"
      AuthService.AccessToken (15 * Minute))
    "topsecret"

/-- The refresh token the login handler issues for the sample user at `sampleNow`. -/
def sampleRefreshJWS : JWS :=
  AuthService.signedJWS
    (AuthService.issuedClaims sampleNow sampleUser sampleBusiness "clerk"
      AuthService.RefreshToken (14 * 24 * Hour))
    "topsecret"

/-- A wire format that knows the two sample tokens. -/
def sampleCodec : JWTCodec :=
  { encode := fun t =>
      if t = sampleAccessJWS then "access.jws"
      else if t = sampleRefreshJWS then "refresh.jws"
      else "other.jws"
    decode := fun s =>
      if s = "access.jws" then some sampleAccessJWS
      else if s = "refresh.jws" then some sampleRefreshJWS
      else none }

/-- The limiter handle of the sample gateway. -/
def sampleRateLimiter : RateLimiter := { redisURL := "redis://localhost:6379" }

/-- The sample context at instant `sampleNow`. -/
def sampleContextAt (path : String) (header : Header) : Context :=
  { sampleContext path header with now := sampleNow }

/-- The sample gateway: the shared secret, the default backends, one CORS header. -/
def sampleApp : App :=
  { codec := sampleCodec
    net := sampleNet
    corsHeaders := [("Access-Control-Allow-Origin", "*")]
    authMiddleware := NewAuthMiddleware "topsecret"
    rateLimiter := sampleRateLimiter
    proxy := sampleProxy }

/-- A store without keys in which no command fails. -/
def emptyStore : Redis := { entries := [], faults := [] }

/-- A store in which the next command fails. -/
def failingStore : Redis := { entries := [], faults := [true] }

/-- A fresh context for a `GET` of `path` with the raw query string `query`. -/
def sampleQueryContext (path query : String) : Context :=
  { sampleContext path [] with
    request :=
      { method := "GET", path := path, rawQuery := query, header := [], body := some "",
        clientIP := "10.0.0.1" } }

/-- A backend that answers `200 ok` with an `Access-Control-Allow-Origin` header and
two cookies. -/
def sampleBackend : OutRequest → Option UpstreamResponse := fun _ =>
  some
    { statusCode := 200
      header :=
        [ ("Access-Control-Allow-Origin", ["https://app.example"]),
          ("Set-Cookie", ["a=1", "b=2"]) ]
      contentLength := 2
      body := "ok" }

/-- A fresh context on whose response writer an earlier handler has set the header
`Access-Control-Allow-Origin: *`. -/
def sampleCorsContext (path : String) : Context :=
  { sampleContext path [] with respHeader := [("Access-Control-Allow-Origin", ["*"])] }

/-- A request for a protected route that carries the sample access token. -/
def sampleProtectedRequest : Context :=
  sampleContextAt "/api/v1/orders/1" [("Authorization", ["Bearer access.jws"])]

/-- The sample proxy with an order backend address that `url.Parse` refuses
(`missing protocol scheme`). -/
def sampleProxyBadURL : Proxy :=
  { sampleProxy with orderServiceURL := ":8087" }

/-- The sample proxy with another address for the order backend. -/
def sampleProxyMoved : Proxy :=
  { sampleProxy with orderServiceURL := "http://orders.internal:9000" }

/-- The standard library with a network in which no backend answers. -/
def deadNet : Net := stdNet (fun _ => none)

/-- A call of the address-scope limiter with the given limit and the window of one
minute, made at instant `now` for a request from the sample address. -/
def sampleCall (limit : Int) (now : Nat) : LimiterCall :=
  { identity := false
    limit := limit
    window := Minute
    ctx := { sampleContext "/api/v1/orders/1" [] with now := now } }

/-- An environment in which no variable is set. -/
def emptyEnv : Environ := fun _ => ""

/-- An environment that sets only the counter-store address and one backend. -/
def sparseEnv : Environ := fun name =>
  if name = "REDIS_URL" then "redis://cache:6379"
  else if name = "ORDER_SERVICE_URL" then "http://orders:9000"
  else ""

/-- A store without keys in which the next command succeeds and the one after it
fails. -/
def expireFailingStore : Redis := { entries := [], faults := [false, true] }

/-- The sample request from the sample address on a store whose second command fails,
with the identity of the sample user in the context. -/
def sampleExpireFailure : Context :=
  { (sampleContext "/api/v1/orders/1" []).Set "userID" (JValue.str "u-1") with
    redis := expireFailingStore }

/-- A manager and a user whose role is not one of the seven known roles. -/
def sampleManager : AuthService.User :=
  { ID := sampleUser, Email := "alice@example.com", Password := "x", Role := "manager",
    IsActive := true, DeletedAt := none }

def sampleGuest : AuthService.User :=
  { ID := sampleUser, Email := "guest@example.com", Password := "x", Role := "guest",
    IsActive := true, DeletedAt := none }

/-- A role with three permissions. -/
def sampleRole : AuthService.Role :=
  { ID := "r-1", Name := "waiter", Description := "",
    Permissions := ["create_order", "view_order", "view_item"], IsActive := true }

/-- The library of the samples: the one body it binds is that of the sample reset
request, and the strings at hand need no escaping. -/
def sampleLib : AuthService.Lib :=
  { bindEmail := fun body =>
      if body = some "\x7b\"email\":\"alice@example.com\"\x7d" then
        Except.ok "alice@example.com"
      else Except.error "EOF"
    jsonText := fun s => s }

/-- A database without rows, and the same database with the one user
`alice@example.com`. -/
def repoWithout : AuthService.Repo :=
  { users := [], sessions := [], passwordResets := [], faults := [] }

def repoWith : AuthService.Repo :=
  { users := [sampleManager], sessions := [], passwordResets := [], faults := [] }

/-- The sample reset request `POST /auth/password/reset/request`. -/
def sampleResetRequest : Context :=
  { sampleContext "/auth/password/reset/request" [] with
    request :=
      { method := "POST", path := "/auth/password/reset/request", rawQuery := "",
        header := [("Content-Type", ["application/json"])],
        body := some "\x7b\"email\":\"alice@example.com\"\x7d", clientIP := "10.0.0.1" } }

def sampleResetToken : AuthService.UUID :=
  { text := "22222222-2222-2222-2222-222222222222" }

/-- A database that holds one session, stored under the sample access token. -/
def repoSession : AuthService.Repo :=
  { users := [sampleManager]
    sessions :=
      [{ ID := sampleResetToken, UserID := sampleUser, Token := "access.jws",
         RefreshToken := "refresh.jws", ExpiresAt := 14 * 24 * Hour }]
    passwordResets := []
    faults := [] }

/-! # Theorems -/

/-! ## Lemmas on prefixes -/

theorem HasPrefix_iff (s pre : String) :
    HasPrefix s pre = true ↔ pre.data <+: s.data := by
  unfold HasPrefix
  exact List.isPrefixOf_iff_prefix

/-- Two incomparable prefixes never match the same string. -/
theorem HasPrefix_excl (s a b : String) (ha : HasPrefix s a = true)
    (hab : HasPrefix a b = false) (hba : HasPrefix b a = false) :
    HasPrefix s b = false := by
  cases hb : HasPrefix s b with
  | false => rfl
  | true =>
    rw [HasPrefix_iff] at ha hb
    rcases List.prefix_or_prefix_of_prefix ha hb with h | h
    · rw [← HasPrefix_iff] at h
      rw [h] at hba
      exact absurd hba (by decide)
    · rw [← HasPrefix_iff] at h
      rw [h] at hab
      exact absurd hab (by decide)

theorem HasPrefix_append (pre s : String) : HasPrefix (pre ++ s) pre = true := by
  rw [HasPrefix_iff, String.data_append]
  exact List.prefix_append _ _

theorem TrimPrefix_append (pre s : String) : TrimPrefix (pre ++ s) pre = s := by
  unfold TrimPrefix
  rw [if_pos (HasPrefix_append pre s), String.data_append, List.drop_left]

/-! ## Lemmas on the response writer -/

theorem WriteHeader_trace (c : Context) (code : Nat) : (c.WriteHeader code).trace = c.trace := by
  unfold Context.WriteHeader
  split_ifs <;> rfl

theorem WriteHeader_status (c : Context) (code : Nat) (hw : c.written = false)
    (hc : 0 < code) : (c.WriteHeader code).status = code := by
  unfold Context.WriteHeader
  by_cases h : c.status = code
  · simp [h]
  · simp [h, hw, hc]

theorem WriteHeader_respBody (c : Context) (code : Nat) :
    (c.WriteHeader code).respBody = c.respBody := by
  unfold Context.WriteHeader
  split_ifs <;> rfl

theorem WriteHeader_aborted (c : Context) (code : Nat) :
    (c.WriteHeader code).aborted = c.aborted := by
  unfold Context.WriteHeader
  split_ifs <;> rfl

theorem WriteHeader_keys (c : Context) (code : Nat) :
    (c.WriteHeader code).keys = c.keys := by
  unfold Context.WriteHeader
  split_ifs <;> rfl

theorem WriteHeader_redis (c : Context) (code : Nat) :
    (c.WriteHeader code).redis = c.redis := by
  unfold Context.WriteHeader
  split_ifs <;> rfl

theorem JSON_trace (c : Context) (code : Nat) (body : String) :
    (c.JSON code body).trace = c.trace := by
  unfold Context.JSON Context.writeContentType Context.Write
  simp only
  split_ifs <;> simp [WriteHeader_trace]

theorem JSON_status (c : Context) (code : Nat) (body : String) (hw : c.written = false)
    (hc : 0 < code) : (c.JSON code body).status = code := by
  unfold Context.JSON Context.writeContentType Context.Write
  simp only
  split_ifs <;> simp [WriteHeader_status c code hw hc]

theorem JSON_respBody (c : Context) (code : Nat) (body : String)
    (hc : bodyAllowedForStatus code = true) :
    (c.JSON code body).respBody = c.respBody ++ body := by
  unfold Context.JSON Context.writeContentType Context.Write
  simp only [hc, if_true]
  split_ifs <;> simp [WriteHeader_respBody]

theorem JSON_aborted (c : Context) (code : Nat) (body : String) :
    (c.JSON code body).aborted = c.aborted := by
  unfold Context.JSON Context.writeContentType Context.Write
  simp only
  split_ifs <;> simp [WriteHeader_aborted]

theorem JSON_keys (c : Context) (code : Nat) (body : String) :
    (c.JSON code body).keys = c.keys := by
  unfold Context.JSON Context.writeContentType Context.Write
  simp only
  split_ifs <;> simp [WriteHeader_keys]

theorem JSON_redis (c : Context) (code : Nat) (body : String) :
    (c.JSON code body).redis = c.redis := by
  unfold Context.JSON Context.writeContentType Context.Write
  simp only
  split_ifs <;> simp [WriteHeader_redis]

theorem DataFromReader_trace (c : Context) (code : Nat) (len : Int) (ct body : String) :
    (c.DataFromReader code len ct body).trace = c.trace := by
  unfold Context.DataFromReader Context.writeContentType Context.Write
  simp only
  split_ifs <;> simp [WriteHeader_trace]

/-! ## Route resolution -/

/-- The `switch` written as the scan of the prefix rules in declaration order. -/
theorem targetURL_eq_firstMatch (p : Proxy) (r : String) :
    p.targetURL r = resolveFirstMatch p.rules r := by
  unfold Proxy.targetURL resolveFirstMatch Proxy.rules ruleMatches
  simp only [List.find?, List.any, Bool.or_false]
  split_ifs with h1 h2 h3 h4 h5 h6 h7 h8
  · simp_all
  · rcases Bool.or_eq_true _ _ ▸ h2 with h | h <;> simp_all
  · rcases Bool.or_eq_true _ _ ▸ h3 with h | h <;> simp_all
  · simp_all
  · simp_all
  · simp only [Bool.or_eq_true] at h6
    rcases h6 with (h | h) | h <;> simp_all
  · simp_all
  · simp_all
  · simp_all

/-- The `default` branch is taken exactly when none of the twelve prefixes matches. -/
theorem targetURL_eq_none_iff (p : Proxy) (r : String) :
    p.targetURL r = none ↔ ∀ pre ∈ routePrefixes, HasPrefix r pre = false := by
  unfold Proxy.targetURL routePrefixes
  simp only [List.mem_cons, List.mem_singleton, List.not_mem_nil, or_false, forall_eq_or_imp,
    forall_eq]
  split_ifs with h1 h2 h3 h4 h5 h6 h7 h8
  · simp_all
  · rcases Bool.or_eq_true _ _ ▸ h2 with h | h <;> simp_all
  · rcases Bool.or_eq_true _ _ ▸ h3 with h | h <;> simp_all
  · simp_all
  · simp_all
  · simp only [Bool.or_eq_true] at h6
    rcases h6 with (h | h) | h <;> simp_all
  · simp_all
  · simp_all
  · simp_all

/-- The twelve configured prefixes are pairwise incomparable. -/
theorem routePrefixes_incomparable :
    ∀ a ∈ routePrefixes, ∀ b ∈ routePrefixes, a ≠ b → HasPrefix a b = false := by
  decide

/-- A path matching one configured prefix matches no other one. -/
theorem HasPrefix_unique (r a : String) (ha : HasPrefix r a = true) (hmem : a ∈ routePrefixes) :
    ∀ b ∈ routePrefixes, b ≠ a → HasPrefix r b = false := by
  intro b hb hne
  exact HasPrefix_excl r a b ha
    (routePrefixes_incomparable a hmem b hb (fun h => hne h.symm))
    (routePrefixes_incomparable b hb a hmem hne)

/-- Once the `switch` yields `u`, `HandleRequest` forwards to `u`. -/
theorem selects_of_targetURL (net : Net) (p : Proxy) (c : Context) (u : String)
    (h : p.targetURL (TrimPrefix c.request.path "/api/v1") = some u) :
    p.Selects net c u := by
  refine ⟨h, ?_⟩
  unfold Proxy.HandleRequest
  simp only [h]

/-- A stripped path that starts with a configured prefix gets the backend of that prefix. -/
theorem targetURL_of_matching (p : Proxy) (r a : String) (ha : HasPrefix r a = true)
    (hmem : a ∈ routePrefixes) :
    p.targetURL r = p.targetURL a := by
  have hx := HasPrefix_unique r a ha hmem
  unfold routePrefixes at hmem hx
  simp only [List.mem_cons, List.mem_singleton, List.not_mem_nil, or_false] at hmem
  simp only [List.mem_cons, List.mem_singleton, List.not_mem_nil, or_false, forall_eq_or_imp,
    forall_eq] at hx
  rcases hmem with h | h | h | h | h | h | h | h | h | h | h | h <;> subst h
  · exact (show p.targetURL r = some p.authServiceURL by
      unfold Proxy.targetURL; simp_all).trans rfl
  · exact (show p.targetURL r = some p.businessServiceURL by
      unfold Proxy.targetURL; simp_all).trans rfl
  · exact (show p.targetURL r = some p.businessServiceURL by
      unfold Proxy.targetURL; simp_all).trans rfl
  · exact (show p.targetURL r = some p.inventoryServiceURL by
      unfold Proxy.targetURL; simp_all).trans rfl
  · exact (show p.targetURL r = some p.inventoryServiceURL by
      unfold Proxy.targetURL; simp_all).trans rfl
  · exact (show p.targetURL r = some p.transactionServiceURL by
      unfold Proxy.targetURL; simp_all).trans rfl
  · exact (show p.targetURL r = some p.fileServiceURL by
      unfold Proxy.targetURL; simp_all).trans rfl
  · exact (show p.targetURL r = some p.menuServiceURL by
      unfold Proxy.targetURL; simp_all).trans rfl
  · exact (show p.targetURL r = some p.menuServiceURL by
      unfold Proxy.targetURL; simp_all).trans rfl
  · exact (show p.targetURL r = some p.menuServiceURL by
      unfold Proxy.targetURL; simp_all).trans rfl
  · exact (show p.targetURL r = some p.orderServiceURL by
      unfold Proxy.targetURL; simp_all).trans rfl
  · exact (show p.targetURL r = some p.tableServiceURL by
      unfold Proxy.targetURL; simp_all).trans rfl

/-- C1: with `r` the request path without one leading `/api/v1`, `HandleRequest` selects
the backend by the prefix table: `/auth` the auth URL, `/business` or `/branches` the
business URL, `/products` or `/stock` the inventory URL, `/transactions` the transaction
URL, `/files` the file URL, `/menu`, `/categories` or `/items` the menu URL, `/orders` the
order URL, `/tables` the table URL; every path `/api/v1/orders` followed by anything
resolves to the order backend. -/
theorem C1_prefix_table (net : Net) (p : Proxy) (c : Context) :
    (HasPrefix (TrimPrefix c.request.path "/api/v1") "/auth" = true →
      p.Selects net c p.authServiceURL) ∧
    (HasPrefix (TrimPrefix c.request.path "/api/v1") "/business" = true ∨
        HasPrefix (TrimPrefix c.request.path "/api/v1") "/branches" = true →
      p.Selects net c p.businessServiceURL) ∧
    (HasPrefix (TrimPrefix c.request.path "/api/v1") "/products" = true ∨
        HasPrefix (TrimPrefix c.request.path "/api/v1") "/stock" = true →
      p.Selects net c p.inventoryServiceURL) ∧
    (HasPrefix (TrimPrefix c.request.path "/api/v1") "/transactions" = true →
      p.Selects net c p.transactionServiceURL) ∧
    (HasPrefix (TrimPrefix c.request.path "/api/v1") "/files" = true →
      p.Selects net c p.fileServiceURL) ∧
    (HasPrefix (TrimPrefix c.request.path "/api/v1") "/menu" = true ∨
        HasPrefix (TrimPrefix c.request.path "/api/v1") "/categories" = true ∨
        HasPrefix (TrimPrefix c.request.path "/api/v1") "/items" = true →
      p.Selects net c p.menuServiceURL) ∧
    (HasPrefix (TrimPrefix c.request.path "/api/v1") "/orders" = true →
      p.Selects net c p.orderServiceURL) ∧
    (HasPrefix (TrimPrefix c.request.path "/api/v1") "/tables" = true →
      p.Selects net c p.tableServiceURL) ∧
    (∀ s : String, c.request.path = "/api/v1/orders" ++ s →
      p.Selects net c p.orderServiceURL) := by
  have key : ∀ a ∈ routePrefixes, HasPrefix (TrimPrefix c.request.path "/api/v1") a = true →
      p.Selects net c ((p.targetURL a).getD "") := by
    intro a hmem ha
    apply selects_of_targetURL
    rw [targetURL_of_matching p _ a ha hmem]
    unfold routePrefixes at hmem
    simp only [List.mem_cons, List.mem_singleton, List.not_mem_nil, or_false] at hmem
    rcases hmem with h | h | h | h | h | h | h | h | h | h | h | h <;> subst h <;> rfl
  refine ⟨?_, ?_, ?_, ?_, ?_, ?_, ?_, ?_, ?_⟩
  · exact fun h => key "/auth" (by decide) h
  · rintro (h | h)
    · exact key "/business" (by decide) h
    · exact key "/branches" (by decide) h
  · rintro (h | h)
    · exact key "/products" (by decide) h
    · exact key "/stock" (by decide) h
  · exact fun h => key "/transactions" (by decide) h
  · exact fun h => key "/files" (by decide) h
  · rintro (h | h | h)
    · exact key "/menu" (by decide) h
    · exact key "/categories" (by decide) h
    · exact key "/items" (by decide) h
  · exact fun h => key "/orders" (by decide) h
  · exact fun h => key "/tables" (by decide) h
  · intro s hs
    refine key "/orders" (by decide) ?_
    rw [hs, show ("/api/v1/orders" : String) = "/api/v1" ++ "/orders" by decide,
      String.append_assoc, TrimPrefix_append]
    exact HasPrefix_append _ _

/-- C1 at the path `/api/v1/orders/42`: the order backend is selected. -/
theorem C1_prefix_table_witness :
    HasPrefix (TrimPrefix "/api/v1/orders/42" "/api/v1") "/orders" = true ∧
      sampleProxy.Selects sampleNet (sampleContext "/api/v1/orders/42" [])
        "http://localhost:8087" :=
  ⟨by decide,
    (C1_prefix_table sampleNet sampleProxy (sampleContext "/api/v1/orders/42" [])).2.2.2.2.2.2.1
      (by decide)⟩

/-- A forwarded request either ends in a 500 response or records one more upstream call. -/
theorem forwardTo_cases (net : Net) (c : Context) (u r : String) (hw : c.written = false) :
    (forwardTo net c u r).status = 500 ∨
      upstreamCalls (forwardTo net c u r).trace = upstreamCalls c.trace + 1 := by
  unfold forwardTo
  cases net.urlParse (u ++ r) with
  | none =>
    left
    exact JSON_status _ _ _ hw (by decide)
  | some target =>
    simp only
    unfold proxyRequest
    cases c.request.body with
    | none =>
      left
      exact JSON_status _ _ _ hw (by decide)
    | some body =>
      simp only
      cases net.newRequestURL c.request.method (net.urlString target) with
      | none =>
        left
        exact JSON_status _ _ _ hw (by decide)
      | some v =>
        right
        simp only
        split
        · rw [JSON_trace]
          simp [upstreamCalls, List.countP_append]
        · rw [DataFromReader_trace, WriteHeader_trace]
          simp [upstreamCalls, List.countP_append]

/-- C2: on a fresh response writer, `HandleRequest` answers 404 with body
`{"error":"service not found"}` and makes no upstream request exactly when the path
without `/api/v1` starts with none of the twelve configured prefixes. -/
theorem C2_not_found_iff (net : Net) (p : Proxy) (c : Context)
    (hw : c.written = false) (hb : c.respBody = "") :
    (∀ pre ∈ routePrefixes, HasPrefix (TrimPrefix c.request.path "/api/v1") pre = false) ↔
      ((p.HandleRequest net c).status = 404 ∧
        (p.HandleRequest net c).respBody = "\x7b\"error\":\"service not found\"\x7d" ∧
        upstreamCalls (p.HandleRequest net c).trace = upstreamCalls c.trace) := by
  rw [← targetURL_eq_none_iff p]
  constructor
  · intro h
    unfold Proxy.HandleRequest
    simp only [h]
    refine ⟨JSON_status _ _ _ hw (by decide), ?_, ?_⟩
    · rw [JSON_respBody _ _ _ (by decide)]
      simp only [hb]
      decide
    · rw [JSON_trace]
      simp [upstreamCalls, List.countP_append]
  · rintro ⟨hs, -, ht⟩
    cases htu : p.targetURL (TrimPrefix c.request.path "/api/v1") with
    | none => rfl
    | some u =>
      exfalso
      have hsel := (selects_of_targetURL net p c u htu).2
      rw [hsel] at hs ht
      rcases forwardTo_cases net c u (TrimPrefix c.request.path "/api/v1") hw with h | h
      · rw [h] at hs
        exact absurd hs (by decide)
      · omega

/-- C2 at the path `/api/v1/unknown/x`: 404, the error body, no upstream call. -/
theorem C2_not_found_iff_witness :
    (sampleProxy.HandleRequest sampleNet (sampleContext "/api/v1/unknown/x" [])).status = 404 ∧
      (sampleProxy.HandleRequest sampleNet (sampleContext "/api/v1/unknown/x" [])).respBody =
        "\x7b\"error\":\"service not found\"\x7d" ∧
      upstreamCalls (sampleProxy.HandleRequest sampleNet
        (sampleContext "/api/v1/unknown/x" [])).trace = 0 :=
  (C2_not_found_iff sampleNet sampleProxy (sampleContext "/api/v1/unknown/x" []) rfl rfl).mp
    (by decide)

/-- C3: route resolution is first-match in declaration order: the target chosen by
`HandleRequest` is that of the earliest rule (auth, business, inventory, transaction,
file, menu, order, table) with a prefix matching the stripped path; a rule is chosen
only if no rule before it matches. -/
theorem C3_first_match (net : Net) (p : Proxy) (c : Context) :
    p.targetURL (TrimPrefix c.request.path "/api/v1") =
        resolveFirstMatch p.rules (TrimPrefix c.request.path "/api/v1") ∧
    (∀ (i : Nat) (hi : i < p.rules.length),
      ruleMatches (TrimPrefix c.request.path "/api/v1") (p.rules.get ⟨i, hi⟩) = true →
      (∀ (j : Nat) (hj : j < i),
        ruleMatches (TrimPrefix c.request.path "/api/v1")
          (p.rules.get ⟨j, Nat.lt_trans hj hi⟩) = false) →
      p.Selects net c (p.rules.get ⟨i, hi⟩).2) := by
  refine ⟨targetURL_eq_firstMatch p _, ?_⟩
  intro i hi hm hbefore
  apply selects_of_targetURL
  rw [targetURL_eq_firstMatch]
  unfold resolveFirstMatch
  have hfind : p.rules.find? (ruleMatches (TrimPrefix c.request.path "/api/v1")) =
      some (p.rules.get ⟨i, hi⟩) := by
    rw [List.find?_eq_some_iff_getElem]
    refine ⟨hm, i, hi, rfl, ?_⟩
    intro j hj
    have := hbefore j hj
    simpa using this
  rw [hfind]
  rfl

/-- C3 at the path `/api/v1/orders/42`: the seventh rule is the earliest that matches. -/
theorem C3_first_match_witness :
    sampleProxy.Selects sampleNet (sampleContext "/api/v1/orders/42" [])
      "http://localhost:8087" :=
  (C3_first_match sampleNet sampleProxy (sampleContext "/api/v1/orders/42" [])).2 6
    (by decide) (by decide) (by decide)

/-! ## Authentication gate -/

theorem any_eq_false_of_forall (l : List String) (path : String)
    (h : ∀ e ∈ l, HasPrefix path e = false) :
    l.any (fun endpoint => HasPrefix path endpoint) = false := by
  rw [List.any_eq_false]
  intro e he
  simp [h e he]

theorem any_eq_true_of_exists (l : List String) (path : String)
    (h : ∃ e ∈ l, HasPrefix path e = true) :
    l.any (fun endpoint => HasPrefix path endpoint) = true := by
  rw [List.any_eq_true]
  exact h

theorem Abort_status (c : Context) : c.Abort.status = c.status := rfl

theorem Abort_respBody (c : Context) : c.Abort.respBody = c.respBody := rfl

theorem Abort_trace (c : Context) : c.Abort.trace = c.trace := rfl

theorem Abort_keys (c : Context) : c.Abort.keys = c.keys := rfl

theorem Abort_aborted (c : Context) : c.Abort.aborted = true := rfl

/-- C8: on a path that matches no allow-list prefix, with no (or an empty)
`Authorization` header, `Authenticate` answers 401 with body
`{"error":"authorization header required"}` and aborts the chain: the rest of the chain
is not run and the token validator is not called. -/
theorem C8_header_required (codec : JWTCodec) (m : AuthMiddleware) (next : Context → Context)
    (c : Context)
    (hpub : ∀ e ∈ authPublicEndpoints, HasPrefix c.request.path e = false)
    (hh : c.request.header.Get "Authorization" = "")
    (hw : c.written = false) (hb : c.respBody = "") :
    m.Authenticate codec next c =
        ((c.GetHeader "Authorization").2.JSON 401
          (errorJSON "authorization header required")).Abort ∧
      (m.Authenticate codec next c).status = 401 ∧
      (m.Authenticate codec next c).respBody =
        "\x7b\"error\":\"authorization header required\"\x7d" ∧
      (m.Authenticate codec next c).aborted = true ∧
      validatorCalls (m.Authenticate codec next c).trace = validatorCalls c.trace := by
  have hany := any_eq_false_of_forall authPublicEndpoints c.request.path hpub
  have heq : m.Authenticate codec next c =
      ((c.GetHeader "Authorization").2.JSON 401
        (errorJSON "authorization header required")).Abort := by
    unfold AuthMiddleware.Authenticate
    simp [hany, Context.GetHeader, hh]
  refine ⟨heq, ?_, ?_, ?_, ?_⟩
  · rw [heq, Abort_status]
    exact JSON_status _ _ _ hw (by decide)
  · rw [heq, Abort_respBody, JSON_respBody _ _ _ (by decide)]
    simp only [Context.GetHeader, hb]
    decide
  · rw [heq]
    rfl
  · rw [heq, Abort_trace, JSON_trace]
    simp [Context.GetHeader, validatorCalls, List.countP_append]

/-- C8 at `/api/v1/orders/1` without any header. -/
theorem C8_header_required_witness :
    ((NewAuthMiddleware "topsecret").Authenticate sampleCodec id
        (sampleContextAt "/api/v1/orders/1" [])).status = 401 ∧
      ((NewAuthMiddleware "topsecret").Authenticate sampleCodec id
        (sampleContextAt "/api/v1/orders/1" [])).aborted = true :=
  have h := C8_header_required sampleCodec (NewAuthMiddleware "topsecret") id
    (sampleContextAt "/api/v1/orders/1" []) (by decide) (by decide) rfl rfl
  ⟨h.2.1, h.2.2.2.1⟩

/-- C10: on a path that has one of the eight allow-list entries as a prefix, the
authentication gate hands the unchanged context to the rest of the chain (the
`Authorization` header is not read), and so does the address-scope rate-limit stage
(no counter-store command is issued, the store is unchanged). -/
theorem C10_public_bypass (codec : JWTCodec) (m : AuthMiddleware) (rl : RateLimiter)
    (next : Context → Context) (c : Context)
    (h : ∃ e ∈ authPublicEndpoints, HasPrefix c.request.path e = true) :
    m.Authenticate codec next c = next c ∧
      addressRateLimit rl next c = next c ∧
      headerReads "Authorization" (m.Authenticate codec id c).trace =
        headerReads "Authorization" c.trace ∧
      storeCommands (addressRateLimit rl id c).trace = storeCommands c.trace ∧
      (addressRateLimit rl id c).redis = c.redis := by
  have hany := any_eq_true_of_exists authPublicEndpoints c.request.path h
  have hany2 : mainPublicEndpoints.any (fun endpoint => HasPrefix c.request.path endpoint)
      = true := hany
  have hauth : ∀ nx : Context → Context, m.Authenticate codec nx c = nx c := by
    intro nx
    unfold AuthMiddleware.Authenticate
    simp [hany]
  have hrate : ∀ nx : Context → Context, addressRateLimit rl nx c = nx c := by
    intro nx
    unfold addressRateLimit
    simp [hany2]
  refine ⟨hauth next, hrate next, ?_, ?_, ?_⟩
  · rw [hauth id]
    rfl
  · rw [hrate id]
    rfl
  · rw [hrate id]
    rfl

/-- C10 at `/api/v1/auth/login`, with the rest of the chain left empty. -/
theorem C10_public_bypass_witness :
    (NewAuthMiddleware "topsecret").Authenticate sampleCodec id
        (sampleContextAt "/api/v1/auth/login" []) = sampleContextAt "/api/v1/auth/login" [] ∧
      addressRateLimit sampleRateLimiter id (sampleContextAt "/api/v1/auth/login" []) =
        sampleContextAt "/api/v1/auth/login" [] :=
  have h := C10_public_bypass sampleCodec (NewAuthMiddleware "topsecret") sampleRateLimiter id
    (sampleContextAt "/api/v1/auth/login" []) ⟨"/api/v1/auth/login", by decide, by decide⟩
  ⟨h.1, h.2.1⟩

/-! ### Splitting the header value -/

theorem splitOnSpaceAux_no_space (t cur : List Char) (h : ' ' ∉ t) :
    splitOnSpaceAux t cur = [String.mk (cur.reverse ++ t)] := by
  induction t generalizing cur with
  | nil => simp [splitOnSpaceAux]
  | cons a rest ih =>
    have ha : a ≠ ' ' := fun e => h (by simp [e])
    have hrest : ' ' ∉ rest := fun e => h (List.mem_cons_of_mem _ e)
    simp [splitOnSpaceAux, ha, ih _ hrest]

/-- A header value `Bearer ` followed by a string without a space splits in two parts. -/
theorem SplitOnSpace_bearer (t : String) (h : ' ' ∉ t.data) :
    SplitOnSpace ("Bearer " ++ t) = ["Bearer", t] := by
  unfold SplitOnSpace
  rw [String.data_append]
  have hb : ("Bearer " : String).data = ['B', 'e', 'a', 'r', 'e', 'r', ' '] := rfl
  rw [hb]
  simp only [List.cons_append, List.nil_append, splitOnSpaceAux]
  simp [splitOnSpaceAux_no_space t.data [] h]

/-- A token whose signature does not verify under `key` is not accepted by `jwt.Parse`. -/
theorem jwtParse_wrong_key (codec : JWTCodec) (t key : String) (now : Nat) (jws : JWS)
    (hdec : codec.decode t = some jws) (hkey : jws.macKey ≠ some key) :
    ∀ tok, jwtParse codec t key now ≠ Except.ok tok := by
  intro tok
  unfold jwtParse
  simp only [hdec]
  split_ifs <;> simp

/-- C9 (amended): on a path that matches no allow-list prefix, with header
`Bearer <t>` where `t` contains no space character and validation of `t` against the
configured secret fails, `Authenticate` answers 401 with body
`{"error":"invalid token"}`, aborts the chain (the rest of the chain is not run) and
sets no identity key in the context. -/
theorem C9_invalid_token (codec : JWTCodec) (m : AuthMiddleware) (next : Context → Context)
    (c : Context) (t : String)
    (hpub : ∀ e ∈ authPublicEndpoints, HasPrefix c.request.path e = false)
    (hh : c.request.header.Get "Authorization" = "Bearer " ++ t)
    (hsp : ' ' ∉ t.data)
    (hfail : ∀ tok, jwtParse codec t m.jwtSecret c.now ≠ Except.ok tok)
    (hw : c.written = false) (hb : c.respBody = "") :
    m.Authenticate codec next c =
        ((m.validateToken codec (c.GetHeader "Authorization").2 t).2.JSON 401
          (errorJSON "invalid token")).Abort ∧
      (m.Authenticate codec next c).status = 401 ∧
      (m.Authenticate codec next c).respBody = "\x7b\"error\":\"invalid token\"\x7d" ∧
      (m.Authenticate codec next c).aborted = true ∧
      (m.Authenticate codec next c).keys = c.keys := by
  have hany := any_eq_false_of_forall authPublicEndpoints c.request.path hpub
  have hne : ("Bearer " ++ t : String) ≠ "" := by
    intro e
    have := congrArg String.data e
    rw [String.data_append] at this
    have hb : ("Bearer " : String).data = ['B', 'e', 'a', 'r', 'e', 'r', ' '] := rfl
    exact absurd this (by simp [hb])
  have heq : m.Authenticate codec next c =
      ((m.validateToken codec (c.GetHeader "Authorization").2 t).2.JSON 401
        (errorJSON "invalid token")).Abort := by
    unfold AuthMiddleware.Authenticate
    simp only [hany, Context.GetHeader, hh, SplitOnSpace_bearer t hsp]
    simp only [hne, if_false, Bool.false_eq_true]
    unfold AuthMiddleware.validateToken
    cases hp : jwtParse codec t m.jwtSecret c.now with
    | error e => simp [hp]
    | ok tok => exact absurd hp (hfail tok)
  refine ⟨heq, ?_, ?_, ?_, ?_⟩
  · rw [heq, Abort_status]
    exact JSON_status _ _ _ hw (by decide)
  · rw [heq, Abort_respBody, JSON_respBody _ _ _ (by decide)]
    simp only [AuthMiddleware.validateToken, Context.GetHeader, hb]
    decide
  · rw [heq]
    rfl
  · rw [heq, Abort_keys, JSON_keys]
    rfl

/-- C9 (amended) for a token signed with another secret than the configured one. -/
theorem C9_invalid_token_witness :
    ((NewAuthMiddleware "other").Authenticate sampleCodec id
        (sampleContextAt "/api/v1/orders/1"
          [("Authorization", ["Bearer access.jws"])])).status = 401 ∧
      ((NewAuthMiddleware "other").Authenticate sampleCodec id
        (sampleContextAt "/api/v1/orders/1"
          [("Authorization", ["Bearer access.jws"])])).respBody =
        "\x7b\"error\":\"invalid token\"\x7d" ∧
      ((NewAuthMiddleware "other").Authenticate sampleCodec id
        (sampleContextAt "/api/v1/orders/1"
          [("Authorization", ["Bearer access.jws"])])).keys = [] :=
  have h := C9_invalid_token sampleCodec (NewAuthMiddleware "other") id
    (sampleContextAt "/api/v1/orders/1" [("Authorization", ["Bearer access.jws"])])
    "access.jws" (by decide) (by decide) (by decide)
    (jwtParse_wrong_key sampleCodec "access.jws" "other" sampleNow sampleAccessJWS rfl
      (by decide))
    rfl rfl
  ⟨h.2.1, h.2.2.1, h.2.2.2.2⟩

/-- C9 as stated fails when the token part contains a space: for the header
`Bearer a b` the gate answers `invalid authorization header format`. -/
theorem C9_counterexample :
    ¬ (∀ (codec : JWTCodec) (m : AuthMiddleware) (next : Context → Context) (c : Context)
        (t : String),
        (∀ e ∈ authPublicEndpoints, HasPrefix c.request.path e = false) →
        c.request.header.Get "Authorization" = "Bearer " ++ t →
        (∀ tok, jwtParse codec t m.jwtSecret c.now ≠ Except.ok tok) →
        c.written = false → c.respBody = "" →
        (m.Authenticate codec next c).respBody = "\x7b\"error\":\"invalid token\"\x7d") := by
  intro h
  have h1 := h sampleCodec (NewAuthMiddleware "topsecret") id
    (sampleContextAt "/api/v1/orders/1" [("Authorization", ["Bearer a b"])]) "a b"
    (by decide) (by decide)
    (by
      intro tok
      have hm : jwtParse sampleCodec "a b" (NewAuthMiddleware "topsecret").jwtSecret
          (sampleContextAt "/api/v1/orders/1" [("Authorization", ["Bearer a b"])]).now =
          Except.error "token is malformed" := rfl
      rw [hm]
      simp)
    rfl rfl
  have h2 : ((NewAuthMiddleware "topsecret").Authenticate sampleCodec id
      (sampleContextAt "/api/v1/orders/1" [("Authorization", ["Bearer a b"])])).respBody =
      "\x7b\"error\":\"invalid authorization header format\"\x7d" := by decide
  rw [h2] at h1
  exact absurd h1 (by decide)

/-! ## The gate and the token kind -/

/-- The gate never looks at the kind of a token: every token with an HMAC algorithm that
is signed with the configured secret and is within its dates is accepted, the identity
keys are set from its payload and the rest of the chain runs. -/
theorem Authenticate_accepts_any_kind (codec : JWTCodec) (m : AuthMiddleware)
    (next : Context → Context) (c : Context) (t : String) (jws : JWS)
    (hpub : ∀ e ∈ authPublicEndpoints, HasPrefix c.request.path e = false)
    (hh : c.request.header.Get "Authorization" = "Bearer " ++ t)
    (hsp : ' ' ∉ t.data)
    (hdec : codec.decode t = some jws)
    (halg : hmacAlg jws.alg = true)
    (hkey : jws.macKey = some m.jwtSecret)
    (hdates : validateMapClaims jws.payload c.now = true) :
    m.Authenticate codec next c =
      next ((((m.validateToken codec (c.GetHeader "Authorization").2 t).2.Set "userID"
        (jws.payload.index "user_id")).Set "businessID"
        (jws.payload.index "business_id")).Set "userRole" (jws.payload.index "role")) := by
  have hany := any_eq_false_of_forall authPublicEndpoints c.request.path hpub
  have hne : ("Bearer " ++ t : String) ≠ "" := by
    intro e
    have := congrArg String.data e
    rw [String.data_append] at this
    have hb : ("Bearer " : String).data = ['B', 'e', 'a', 'r', 'e', 'r', ' '] := rfl
    exact absurd this (by simp [hb])
  have hp : jwtParse codec t m.jwtSecret c.now = Except.ok jws := by
    unfold jwtParse
    simp [hdec, halg, hkey, hdates]
  unfold AuthMiddleware.Authenticate
  simp only [hany, Context.GetHeader, hh, SplitOnSpace_bearer t hsp]
  simp only [hne, if_false, Bool.false_eq_true]
  unfold AuthMiddleware.validateToken
  simp [hp]

/-- C4, evaluated: with the signing secret shared through `JWT_SECRET`, the refresh token
that the login handler's token manager issues passes the gateway authentication gate on
`/api/v1/orders/1` (no 401, no abort, the identity keys are set), although the token
manager and the auth-service middleware reject it as an access token. -/
theorem C4_refresh_token_passes_gate :
    (AuthService.NewAuthHandler (AuthService.Config.New sampleEnv)).tokenManager.GenerateTokenPair
        sampleCodec sampleNow sampleNow sampleUser sampleBusiness "clerk" =
      Except.ok { AccessToken := "access.jws", RefreshToken := "refresh.jws" } ∧
    (sampleRefreshJWS.payload.index "token_type" = JValue.str "refresh" ∧
      sampleRefreshJWS.macKey = some "topsecret" ∧
      validateMapClaims sampleRefreshJWS.payload sampleNow = true) ∧
    Config.New sampleEnv =
      Except.ok
        { Port := "8080", JWTSecret := "topsecret", RedisURL := "redis://localhost:6379",
          AuthServiceURL := "http://localhost:8081",
          BusinessServiceURL := "http://localhost:8082",
          InventoryServiceURL := "http://localhost:8083",
          TransactionServiceURL := "http://localhost:8084",
          FileServiceURL := "http://localhost:8085",
          MenuServiceURL := "http://localhost:8086",
          OrderServiceURL := "http://localhost:8087",
          TableServiceURL := "http://localhost:8088" } ∧
    ((NewAuthMiddleware "topsecret").Authenticate sampleCodec id
        (sampleContextAt "/api/v1/orders/1"
          [("Authorization", ["Bearer refresh.jws"])])).aborted = false ∧
    ((NewAuthMiddleware "topsecret").Authenticate sampleCodec id
        (sampleContextAt "/api/v1/orders/1"
          [("Authorization", ["Bearer refresh.jws"])])).status = 200 ∧
    ((NewAuthMiddleware "topsecret").Authenticate sampleCodec id
        (sampleContextAt "/api/v1/orders/1"
          [("Authorization", ["Bearer refresh.jws"])])).written = false ∧
    ((NewAuthMiddleware "topsecret").Authenticate sampleCodec id
        (sampleContextAt "/api/v1/orders/1"
          [("Authorization", ["Bearer refresh.jws"])])).Get "userID" =
      some (JValue.str "11111111-1111-1111-1111-111111111111") ∧
    (AuthService.NewAuthHandler (AuthService.Config.New sampleEnv)).tokenManager.ValidateToken
        sampleCodec sampleNow "refresh.jws" AuthService.AccessToken =
      Except.error "invalid token type" := by
  refine ⟨rfl, ⟨by decide, by decide, by decide⟩, rfl, by decide, by decide, by decide,
    by decide, rfl⟩

end Gateway

namespace AuthService

open Gateway

/-! ## Token manager -/

/-- Reading back the JSON object written for a `TokenClaims` gives the same claims. -/
theorem ofPayload_toPayload (cl : TokenClaims) : TokenClaims.ofPayload cl.toPayload = some cl := by
  rcases cl with ⟨e, i, n, ⟨u⟩, ⟨b⟩, r, tt⟩
  cases e <;> cases i <;> cases n <;> rfl

/-- What `generateToken` returns. -/
theorem generateToken_eq (codec : JWTCodec) (now : Nat) (tm : TokenManager)
    (uid bid : UUID) (role : String) (k : TokenType) (secret : String) (ttl : Nat) :
    tm.generateToken codec now uid bid role k secret ttl =
      Except.ok (codec.encode (signedJWS (issuedClaims now uid bid role k ttl) secret)) := rfl

/-- Validation of an issued token that the codec reads back: the result is decided by
the secret, the dates and the kind. -/
theorem ValidateToken_issued (codec : JWTCodec) (tm : TokenManager) (cl : TokenClaims)
    (secret : String) (now : Nat) (k : TokenType)
    (hrt : codec.ReadsBack (codec.encode (signedJWS cl secret))) :
    tm.ValidateToken codec now (codec.encode (signedJWS cl secret)) k =
      if some secret ≠ some (if k = AccessToken then tm.accessSecret else tm.refreshSecret) then
        Except.error "token signature is invalid"
      else if (verifyExpiresAt cl.ExpiresAt now && verifyNotBefore cl.NotBefore now) = false then
        Except.error "token has invalid claims"
      else if cl.TokenType ≠ k then Except.error "invalid token type"
      else Except.ok cl := by
  have hdec := hrt _ rfl
  unfold TokenManager.ValidateToken jwtParseWithClaims
  have halg : hmacAlg "HS256" = true := by decide
  simp only [signedJWS] at hdec ⊢
  simp only [hdec, ofPayload_toPayload, halg]
  split_ifs <;> simp_all

theorem sampleCodec_readsBack_access : sampleCodec.ReadsBack "access.jws" := by
  intro t h
  by_cases h1 : t = sampleAccessJWS
  · subst h1
    rfl
  · by_cases h2 : t = sampleRefreshJWS
    · subst h2
      exact absurd h (by decide)
    · simp [sampleCodec, h1, h2] at h

theorem sampleCodec_readsBack_refresh : sampleCodec.ReadsBack "refresh.jws" := by
  intro t h
  by_cases h1 : t = sampleAccessJWS
  · subst h1
    exact absurd h (by decide)
  · by_cases h2 : t = sampleRefreshJWS
    · subst h2
      rfl
    · simp [sampleCodec, h1, h2] at h

/-- A token issued with kind `k` is rejected for every other expected kind. -/
theorem issued_kind_mismatch (codec : JWTCodec) (tm : TokenManager) (cl : TokenClaims)
    (secret : String) (now' : Nat) (k' : TokenType) (hk : cl.TokenType ≠ k')
    (hrt : codec.ReadsBack (codec.encode (signedJWS cl secret))) :
    ∃ err, tm.ValidateToken codec now' (codec.encode (signedJWS cl secret)) k' =
      Except.error err := by
  rw [ValidateToken_issued codec tm cl secret now' k' hrt]
  split_ifs <;> exact ⟨_, rfl⟩

/-- C5: a token produced by `generateToken` with kind `k` is rejected by
`ValidateToken` for every expected kind `k'` other than `k` (an error, no claims), in
both directions and whatever the secrets are, equal or not. -/
theorem C5_kind_mismatch (codec : JWTCodec) (tm : TokenManager) (uid bid : UUID)
    (role : String) (k k' : TokenType) (secret : String) (ttl now now' : Nat) (tok : String)
    (hk : k ≠ k')
    (hgen : tm.generateToken codec now uid bid role k secret ttl = Except.ok tok)
    (hrt : codec.ReadsBack tok) :
    ∃ err, tm.ValidateToken codec now' tok k' = Except.error err := by
  rw [generateToken_eq] at hgen
  injection hgen with hgen
  subst hgen
  exact issued_kind_mismatch codec tm _ secret now' k' hk hrt

/-- C5 for the sample tokens, in both directions, with equal secrets. -/
theorem C5_kind_mismatch_witness :
    (∃ err, (NewTokenManager "topsecret" "topsecret").ValidateToken sampleCodec sampleNow
        "refresh.jws" AccessToken = Except.error err) ∧
      (∃ err, (NewTokenManager "topsecret" "topsecret").ValidateToken sampleCodec sampleNow
        "access.jws" RefreshToken = Except.error err) :=
  ⟨C5_kind_mismatch sampleCodec (NewTokenManager "topsecret" "topsecret") sampleUser
      sampleBusiness "clerk" RefreshToken AccessToken "topsecret" (14 * 24 * Hour) sampleNow
      sampleNow "refresh.jws" (by decide) (by rfl) sampleCodec_readsBack_refresh,
    C5_kind_mismatch sampleCodec (NewTokenManager "topsecret" "topsecret") sampleUser
      sampleBusiness "clerk" AccessToken RefreshToken "topsecret" (15 * Minute) sampleNow
      sampleNow "access.jws" (by decide) (by rfl) sampleCodec_readsBack_access⟩

/-- What `GenerateTokenPair` returns. -/
theorem GenerateTokenPair_eq (codec : JWTCodec) (now1 now2 : Nat) (tm : TokenManager)
    (uid bid : UUID) (role : String) :
    tm.GenerateTokenPair codec now1 now2 uid bid role =
      Except.ok
        { AccessToken := codec.encode
            (signedJWS (issuedClaims now1 uid bid role AccessToken tm.accessTTL) tm.accessSecret)
          RefreshToken := codec.encode
            (signedJWS (issuedClaims now2 uid bid role RefreshToken tm.refreshTTL)
              tm.refreshSecret) } := rfl

/-- An issued token is within its dates from the instant of issue until one second
before the end of its time to live. -/
theorem issued_dates_valid (now now' ttl : Nat) (h1 : now ≤ now')
    (h2 : now' + Second ≤ now + ttl) :
    (verifyExpiresAt (some (NewNumericDate (now + ttl))) now' &&
      verifyNotBefore (some (NewNumericDate now)) now') = true := by
  unfold verifyExpiresAt verifyNotBefore NewNumericDate
  unfold Second at *
  simp only [Bool.and_eq_true, decide_eq_true_eq]
  constructor <;> push_cast <;> omega

/-- C6: the access token returned by `GenerateTokenPair`, validated as an access token
from the instant of issue on (and at least one second before its time to live ends),
yields claims whose `UserID`, `BusinessID` and `Role` equal the inputs and whose
`TokenType` is access; validated as a refresh token it is rejected. -/
theorem C6_round_trip (codec : JWTCodec) (tm : TokenManager) (uid bid : UUID) (role : String)
    (now1 now2 now' : Nat) (pair : TokenPair)
    (hgen : tm.GenerateTokenPair codec now1 now2 uid bid role = Except.ok pair)
    (hrt : codec.ReadsBack pair.AccessToken)
    (h1 : now1 ≤ now') (h2 : now' + Second ≤ now1 + tm.accessTTL) :
    (∃ claims, tm.ValidateToken codec now' pair.AccessToken AccessToken = Except.ok claims ∧
        claims.UserID = uid ∧ claims.BusinessID = bid ∧ claims.Role = role ∧
        claims.TokenType = AccessToken) ∧
      (∃ err, tm.ValidateToken codec now' pair.AccessToken RefreshToken = Except.error err) := by
  rw [GenerateTokenPair_eq] at hgen
  injection hgen with hgen
  subst hgen
  simp only at hrt ⊢
  constructor
  · refine ⟨issuedClaims now1 uid bid role AccessToken tm.accessTTL, ?_, rfl, rfl, rfl, rfl⟩
    rw [ValidateToken_issued codec tm _ tm.accessSecret now' AccessToken hrt]
    have hd := issued_dates_valid now1 now' tm.accessTTL h1 h2
    simp [issuedClaims, hd]
  · have hne : AccessToken ≠ RefreshToken := by decide
    exact issued_kind_mismatch codec tm _ tm.accessSecret now' RefreshToken hne hrt

/-- C6 for the sample user, validated at the instant of issue. -/
theorem C6_round_trip_witness :
    (∃ claims, (NewTokenManager "topsecret" "topsecret").ValidateToken sampleCodec sampleNow
        "access.jws" AccessToken = Except.ok claims ∧
        claims.UserID = sampleUser ∧ claims.BusinessID = sampleBusiness ∧
        claims.Role = "clerk" ∧ claims.TokenType = AccessToken) ∧
      (∃ err, (NewTokenManager "topsecret" "topsecret").ValidateToken sampleCodec sampleNow
        "access.jws" RefreshToken = Except.error err) :=
  C6_round_trip sampleCodec (NewTokenManager "topsecret" "topsecret") sampleUser sampleBusiness
    "clerk" sampleNow sampleNow sampleNow
    { AccessToken := "access.jws", RefreshToken := "refresh.jws" } (by rfl)
    sampleCodec_readsBack_access (by decide) (by decide)

/-! ## Secrets of the token managers -/

/-- C7, evaluated: the token manager built by `NewAuthHandler` signs access and refresh
tokens with the same secret, for every configuration and in particular for the default
one; the token manager built in `main` has distinct secrets exactly when the two
configured secrets differ, as the defaults do. -/
theorem C7_handler_secrets_equal :
    (∀ cfg : Config,
      (NewAuthHandler cfg).tokenManager.accessSecret =
        (NewAuthHandler cfg).tokenManager.refreshSecret) ∧
    (NewAuthHandler (Config.New (fun _ => ""))).tokenManager.accessSecret = "your-secret-key" ∧
    (NewAuthHandler (Config.New (fun _ => ""))).tokenManager.refreshSecret = "your-secret-key" ∧
    (∀ cfg : Config,
      (mainTokenManager cfg).accessSecret ≠ (mainTokenManager cfg).refreshSecret ↔
        cfg.JWTSecret ≠ cfg.JWTRefreshSecret) ∧
    (mainTokenManager (Config.New (fun _ => ""))).accessSecret ≠
      (mainTokenManager (Config.New (fun _ => ""))).refreshSecret := by
  refine ⟨fun _ => rfl, by decide, by decide, fun _ => Iff.rfl, by decide⟩

end AuthService

namespace Gateway

/-! ## Traces -/

theorem stagesEntered_append (t u : List Event) :
    stagesEntered (t ++ u) = stagesEntered t ++ stagesEntered u := by
  simp [stagesEntered, List.filterMap_append]

theorem upstreamCalls_append (t u : List Event) :
    upstreamCalls (t ++ u) = upstreamCalls t + upstreamCalls u := by
  simp [upstreamCalls, List.countP_append]

theorem metricRecords_append (t u : List Event) :
    metricRecords (t ++ u) = metricRecords t ++ metricRecords u := by
  simp [metricRecords, List.filter_append]

theorem SameResponse.refl (c : Context) : SameResponse c c :=
  ⟨rfl, rfl, rfl, rfl, rfl, rfl, rfl, rfl, rfl, rfl, rfl⟩

theorem SameResponse.trans {a b c : Context} (h1 : SameResponse a b) (h2 : SameResponse b c) :
    SameResponse a c :=
  ⟨h2.request.trans h1.request, h2.aborted.trans h1.aborted, h2.status.trans h1.status,
    h2.written.trans h1.written, h2.respHeader.trans h1.respHeader,
    h2.respBody.trans h1.respBody, h2.now.trans h1.now, h2.fullPath.trans h1.fullPath,
    h2.stages.trans h1.stages, h2.upstream.trans h1.upstream,
    h2.metrics.trans h1.metrics⟩

/-- What a rejection leaves: the status, the body, the abort flag, and nothing new in the
trace. -/
theorem rejection_facts (c : Context) (status : Nat) (msg : String)
    (hw : c.written = false) (hb : c.respBody = "") (hs : 0 < status)
    (hbody : bodyAllowedForStatus status = true) :
    (rejection c status msg).status = status ∧
      (rejection c status msg).respBody = errorJSON msg ∧
      (rejection c status msg).aborted = true ∧
      (rejection c status msg).trace = c.trace ∧
      (rejection c status msg).keys = c.keys ∧
      (rejection c status msg).redis = c.redis := by
  unfold rejection
  refine ⟨?_, ?_, rfl, ?_, ?_, ?_⟩
  · rw [Abort_status]
    exact JSON_status _ _ _ hw hs
  · rw [Abort_respBody, JSON_respBody _ _ _ hbody, hb]
    simp
  · rw [Abort_trace, JSON_trace]
  · rw [Abort_keys, JSON_keys]
  · show (c.JSON status (errorJSON msg)).redis = c.redis
    exact JSON_redis _ _ _

/-! ## The two limiters -/

theorem RateLimit_eq_checkCounter (rl : RateLimiter) (limit : Int) (window : Nat) :
    rl.RateLimit limit window =
      fun next c => checkCounter ("rate_limit:" ++ c.request.clientIP) limit window next c :=
  rfl

theorem UserRateLimit_eq_checkCounter (rl : RateLimiter) (limit : Int) (window : Nat)
    (next : Context → Context) (c : Context) (userID : JValue)
    (h : c.Get "userID" = some userID) :
    rl.UserRateLimit limit window next c =
      checkCounter ("user_rate_limit:" ++ userID.format) limit window next c := by
  unfold RateLimiter.UserRateLimit
  simp only [h]
  rfl

theorem UserRateLimit_no_user (rl : RateLimiter) (limit : Int) (window : Nat)
    (next : Context → Context) (c : Context) (h : c.Get "userID" = none) :
    rl.UserRateLimit limit window next c = rejection c 401 "user not authenticated" := by
  unfold RateLimiter.UserRateLimit
  simp only [h]
  rfl

/-- A context that differs by its store and by counter-store events in its trace. -/
theorem sameResponse_store (c : Context) (r : Redis) (t : List Event)
    (hs : stagesEntered t = []) (hu : upstreamCalls t = 0) (hm : metricRecords t = []) :
    SameResponse c { c with redis := r, trace := c.trace ++ t } :=
  ⟨rfl, rfl, rfl, rfl, rfl, rfl, rfl, rfl, by simp [stagesEntered_append, hs],
    by simp [upstreamCalls_append, hu], by simp [metricRecords_append, hm]⟩

/-- When the increment fails, the common part of the limiters rejects with 500. -/
theorem checkCounter_incr_failed (key : String) (limit : Int) (window : Nat)
    (next : Context → Context) (c : Context) (h : (c.redis.Incr c.now key).1 = none) :
    checkCounter key limit window next c =
      rejection
        { c with redis := (c.redis.Incr c.now key).2, trace := c.trace ++ [Event.redisIncr key] }
        500 "failed to process rate limit" := by
  unfold checkCounter rejection
  rcases hr : c.redis.Incr c.now key with ⟨count, r1⟩
  rw [hr] at h
  simp only at h
  subst h
  rfl

/-- When the increment returns `n`, the common part of the limiters sets the expiry if
`n` is one, then rejects with 429 if `n` exceeds the limit and continues otherwise. -/
theorem checkCounter_incr_ok (key : String) (limit : Int) (window : Nat)
    (next : Context → Context) (c : Context) (n : Int)
    (h : (c.redis.Incr c.now key).1 = some n) :
    checkCounter key limit window next c =
      if n > limit then
        rejection
          { c with
            redis :=
              if n = 1 then ((c.redis.Incr c.now key).2.Expire c.now key window).2
              else (c.redis.Incr c.now key).2
            trace := c.trace ++ Event.redisIncr key ::
              (if n = 1 then [Event.redisExpire key window] else []) }
          429 "rate limit exceeded"
      else
        next
          { c with
            redis :=
              if n = 1 then ((c.redis.Incr c.now key).2.Expire c.now key window).2
              else (c.redis.Incr c.now key).2
            trace := c.trace ++ Event.redisIncr key ::
              (if n = 1 then [Event.redisExpire key window] else []) } := by
  unfold checkCounter rejection
  rcases hr : c.redis.Incr c.now key with ⟨count, r1⟩
  rw [hr] at h
  simp only at h
  subst h
  by_cases h1 : n = 1 <;> by_cases h2 : n > limit <;> simp [h1, h2]

/-- The common part of the limiters either hands a context with the same response to the
rest of the chain, or rejects with 500 or 429 without running the rest of the chain. -/
theorem checkCounter_cases (key : String) (limit : Int) (window : Nat) (c : Context) :
    ∃ c0 : Context, SameResponse c c0 ∧ c0.keys = c.keys ∧
      ((∀ next, checkCounter key limit window next c = next c0) ∨
        (∃ status msg, (status, msg) ∈ addressRejections ∧
          ∀ next, checkCounter key limit window next c = rejection c0 status msg)) := by
  cases h : (c.redis.Incr c.now key).1 with
  | none =>
    refine ⟨_, sameResponse_store c (c.redis.Incr c.now key).2 [Event.redisIncr key] rfl rfl
        rfl,
      rfl, Or.inr ⟨500, "failed to process rate limit", by simp [addressRejections], ?_⟩⟩
    intro next
    exact checkCounter_incr_failed key limit window next c h
  | some n =>
    refine ⟨{ c with
        redis :=
          if n = 1 then ((c.redis.Incr c.now key).2.Expire c.now key window).2
          else (c.redis.Incr c.now key).2
        trace := c.trace ++ Event.redisIncr key ::
          (if n = 1 then [Event.redisExpire key window] else []) },
      sameResponse_store c _ _ ?_ ?_ ?_, rfl, ?_⟩
    · by_cases h1 : n = 1 <;> simp [h1, stagesEntered]
    · by_cases h1 : n = 1 <;> simp [h1, upstreamCalls]
    · by_cases h1 : n = 1 <;> simp [h1, metricRecords]
    · by_cases h2 : n > limit
      · refine Or.inr ⟨429, "rate limit exceeded", by simp [addressRejections], ?_⟩
        intro next
        rw [checkCounter_incr_ok key limit window next c n h, if_pos h2]
      · refine Or.inl ?_
        intro next
        rw [checkCounter_incr_ok key limit window next c n h, if_neg h2]

/-- A handler that ignores the rest of the chain at `c` ends the chain there. -/
theorem runChain_cons (stage : Stage) (h : HandlerFunc) (rest : List (Stage × HandlerFunc))
    (c : Context) :
    runChain ((stage, h) :: rest) c =
      h (runChain rest) { c with trace := c.trace ++ [Event.enter stage] } := rfl

/-- C13: whenever the increment of the counter store returns an error, `RateLimit` and
`UserRateLimit` answer 500 with body `{"error":"failed to process rate limit"}` and
abort; the outcome does not depend on the rest of the chain, so the request is not
admitted, no later handler is entered and no upstream request is made. -/
theorem C13_fail_closed (rl : RateLimiter) (limit : Int) (window : Nat)
    (next : Context → Context) (c : Context)
    (hw : c.written = false) (hb : c.respBody = "") :
    ((c.redis.Incr c.now ("rate_limit:" ++ c.request.clientIP)).1 = none →
      rl.RateLimit limit window next c = rl.RateLimit limit window id c ∧
      (rl.RateLimit limit window next c).status = 500 ∧
      (rl.RateLimit limit window next c).respBody =
        "\x7b\"error\":\"failed to process rate limit\"\x7d" ∧
      (rl.RateLimit limit window next c).aborted = true ∧
      stagesEntered (rl.RateLimit limit window next c).trace = stagesEntered c.trace ∧
      upstreamCalls (rl.RateLimit limit window next c).trace = upstreamCalls c.trace) ∧
    (∀ userID : JValue, c.Get "userID" = some userID →
      (c.redis.Incr c.now ("user_rate_limit:" ++ userID.format)).1 = none →
      rl.UserRateLimit limit window next c = rl.UserRateLimit limit window id c ∧
      (rl.UserRateLimit limit window next c).status = 500 ∧
      (rl.UserRateLimit limit window next c).respBody =
        "\x7b\"error\":\"failed to process rate limit\"\x7d" ∧
      (rl.UserRateLimit limit window next c).aborted = true ∧
      stagesEntered (rl.UserRateLimit limit window next c).trace = stagesEntered c.trace ∧
      upstreamCalls (rl.UserRateLimit limit window next c).trace = upstreamCalls c.trace) := by
  have key : ∀ (k : String) (nx : Context → Context), (c.redis.Incr c.now k).1 = none →
      checkCounter k limit window nx c = checkCounter k limit window id c ∧
      (checkCounter k limit window nx c).status = 500 ∧
      (checkCounter k limit window nx c).respBody =
        "\x7b\"error\":\"failed to process rate limit\"\x7d" ∧
      (checkCounter k limit window nx c).aborted = true ∧
      stagesEntered (checkCounter k limit window nx c).trace = stagesEntered c.trace ∧
      upstreamCalls (checkCounter k limit window nx c).trace = upstreamCalls c.trace := by
    intro k nx hk
    have hf := rejection_facts
      { c with redis := (c.redis.Incr c.now k).2, trace := c.trace ++ [Event.redisIncr k] }
      500 "failed to process rate limit" hw hb (by decide) (by decide)
    rw [checkCounter_incr_failed k limit window nx c hk,
      checkCounter_incr_failed k limit window id c hk]
    refine ⟨rfl, hf.1, ?_, hf.2.2.1, ?_, ?_⟩
    · rw [hf.2.1]
      decide
    · rw [hf.2.2.2.1]
      simp [stagesEntered_append, stagesEntered]
    · rw [hf.2.2.2.1]
      simp [upstreamCalls_append, upstreamCalls]
  constructor
  · intro h
    rw [RateLimit_eq_checkCounter]
    exact key _ next h
  · intro userID hu h
    rw [UserRateLimit_eq_checkCounter rl limit window next c userID hu,
      UserRateLimit_eq_checkCounter rl limit window id c userID hu]
    exact key _ next h

/-- C13 on a store whose next command fails, for both limiters. -/
theorem C13_fail_closed_witness :
    (sampleRateLimiter.RateLimit 100 Minute id
        { sampleContext "/api/v1/orders/1" [] with redis := failingStore }).status = 500 ∧
      (sampleRateLimiter.UserRateLimit 1000 Minute id
        { sampleContext "/api/v1/orders/1" [] with
          redis := failingStore, keys := [("userID", JValue.str "u1")] }).status = 500 :=
  ⟨((C13_fail_closed sampleRateLimiter 100 Minute id
      { sampleContext "/api/v1/orders/1" [] with redis := failingStore } rfl rfl).1
      (by decide)).2.1,
    ((C13_fail_closed sampleRateLimiter 1000 Minute id
      { sampleContext "/api/v1/orders/1" [] with
        redis := failingStore, keys := [("userID", JValue.str "u1")] } rfl rfl).2
      (JValue.str "u1") (by decide) (by decide)).2.1⟩

/-! ## Forwarding -/

theorem upstreamRequests_append (t u : List Event) :
    upstreamRequests (t ++ u) = upstreamRequests t ++ upstreamRequests u := by
  simp [upstreamRequests, List.filterMap_append]

/-- The request that `proxyRequest` hands to `client.Do`. -/
theorem proxyRequest_of_request (net : Net) (c : Context) (target : URL) (method body : String)
    (u : URL) (hbody : c.request.body = some body)
    (hreq : net.newRequestURL method (net.urlString target) = some u) :
    proxyRequest net c target method =
      match net.clientDo
          { method := method, url := { u with rawQuery := c.request.rawQuery },
            header := copyHeader c.request.header [], body := body } with
      | none =>
        ({ c with trace := c.trace ++
            [Event.upstream
              { method := method, url := { u with rawQuery := c.request.rawQuery },
                header := copyHeader c.request.header [], body := body }] } : Context).JSON 502
          (errorJSON "failed to forward request")
      | some resp =>
        (({ c with
            trace := c.trace ++
              [Event.upstream
                { method := method, url := { u with rawQuery := c.request.rawQuery },
                  header := copyHeader c.request.header [], body := body }]
            respHeader := copyHeader resp.header c.respHeader } : Context).WriteHeader
            resp.statusCode).DataFromReader resp.statusCode resp.contentLength
          (resp.header.Get "Content-Type") resp.body := by
  unfold proxyRequest
  simp only [hbody, hreq]

/-- C18: when the upstream call of a routed request fails, `proxyRequest` answers 502
with the JSON body `{"error":"failed to forward request"}` and has made exactly one
upstream attempt, the failed one. -/
theorem C18_bad_gateway (net : Net) (c : Context) (target : URL) (method body : String)
    (u : URL) (hw : c.written = false) (hb : c.respBody = "")
    (hbody : c.request.body = some body)
    (hreq : net.newRequestURL method (net.urlString target) = some u)
    (hdo : net.clientDo
        { method := method, url := { u with rawQuery := c.request.rawQuery },
          header := copyHeader c.request.header [], body := body } = none) :
    (proxyRequest net c target method).status = 502 ∧
      (proxyRequest net c target method).respBody =
        "\x7b\"error\":\"failed to forward request\"\x7d" ∧
      upstreamCalls (proxyRequest net c target method).trace = upstreamCalls c.trace + 1 ∧
      upstreamRequests (proxyRequest net c target method).trace =
        upstreamRequests c.trace ++
          [{ method := method, url := { u with rawQuery := c.request.rawQuery },
             header := copyHeader c.request.header [], body := body }] := by
  rw [proxyRequest_of_request net c target method body u hbody hreq]
  simp only [hdo]
  refine ⟨JSON_status _ _ _ hw (by decide), ?_, ?_, ?_⟩
  · rw [JSON_respBody _ _ _ (by decide)]
    simp only [hb]
    decide
  · rw [JSON_trace]
    simp [upstreamCalls_append, upstreamCalls]
  · rw [JSON_trace]
    simp [upstreamRequests_append, upstreamRequests]

/-- C18 for a backend that does not answer. -/
theorem C18_bad_gateway_witness :
    (proxyRequest (stdNet (fun _ => none)) (sampleContext "/api/v1/orders/1" [])
        { scheme := "http", host := "localhost:8087", path := "/orders/1", rawQuery := "",
          fragment := "" } "GET").status = 502 ∧
      upstreamCalls (proxyRequest (stdNet (fun _ => none))
        (sampleContext "/api/v1/orders/1" [])
        { scheme := "http", host := "localhost:8087", path := "/orders/1", rawQuery := "",
          fragment := "" } "GET").trace = 1 :=
  have h := C18_bad_gateway (stdNet (fun _ => none)) (sampleContext "/api/v1/orders/1" [])
    { scheme := "http", host := "localhost:8087", path := "/orders/1", rawQuery := "",
      fragment := "" } "GET" ""
    { scheme := "http", host := "localhost:8087", path := "/orders/1", rawQuery := "",
      fragment := "" } rfl rfl rfl (by decide) rfl
  ⟨h.1, h.2.2.1⟩

/-- C16, evaluated: for the inbound path `/api/v1/files/report?v2` (sent as
`report%3Fv2`) with query `x=1`, the stripped path is `/files/report?v2` and the file
backend is chosen, but the outbound URL is `http://localhost:8085/files/report?x=1`: the
target is parsed from the concatenated text, so `?v2` leaves the path and is then
overwritten by the inbound query. For `/api/v1/files/a#b` the outbound path is `/files/a`
and `b` has become a fragment. -/
theorem C16_reserved_characters_leave_path :
    TrimPrefix "/api/v1/files/report?v2" "/api/v1" = "/files/report?v2" ∧
    sampleProxy.targetURL "/files/report?v2" = some "http://localhost:8085" ∧
    upstreamRequests (sampleProxy.HandleRequest (stdNet (fun _ => none))
        (sampleQueryContext "/api/v1/files/report?v2" "x=1")).trace =
      [{ method := "GET",
         url := { scheme := "http", host := "localhost:8085", path := "/files/report",
                  rawQuery := "x=1", fragment := "" },
         header := [], body := "" }] ∧
    goURLString { scheme := "http", host := "localhost:8085", path := "/files/report",
                  rawQuery := "x=1", fragment := "" } =
      "http://localhost:8085/files/report?x=1" ∧
    "http://localhost:8085/files/report?x=1" ≠
      "http://localhost:8085" ++ "/files/report?v2" ++ "?" ++ "x=1" ∧
    upstreamRequests (sampleProxy.HandleRequest (stdNet (fun _ => none))
        (sampleQueryContext "/api/v1/files/a#b" "")).trace =
      [{ method := "GET",
         url := { scheme := "http", host := "localhost:8085", path := "/files/a",
                  rawQuery := "", fragment := "b" },
         header := [], body := "" }] := by
  refine ⟨by decide, by decide, by decide, by decide, by decide, by decide⟩

/-! ## Response headers -/

theorem Values_Add_same (h : Header) (k v : String) :
    (Header.Add h k v).Values k = h.Values k ++ [v] := by
  induction h with
  | nil => simp [Header.Add, Header.Values, List.lookup]
  | cons kv rest ih =>
    rcases kv with ⟨k0, vs⟩
    by_cases hk : k0 = k
    · subst hk
      simp [Header.Add, Header.Values, List.lookup]
    · have hk2 : (k == k0) = false := by simpa using fun e : k = k0 => hk e.symm
      simp only [Header.Values] at ih
      simp [Header.Add, Header.Values, List.lookup, hk, hk2, ih]

theorem Values_Add_other (h : Header) (k v name : String) (hne : name ≠ k) :
    (Header.Add h k v).Values name = h.Values name := by
  induction h with
  | nil =>
    have hk2 : (name == k) = false := by simpa using hne
    simp [Header.Add, Header.Values, List.lookup, hk2]
  | cons kv rest ih =>
    rcases kv with ⟨k0, vs⟩
    simp only [Header.Values] at ih
    by_cases hk : k0 = k
    · subst hk
      have hk2 : (name == k0) = false := by simpa using hne
      simp [Header.Add, Header.Values, List.lookup, hk2]
    · by_cases hn : name = k0
      · subst hn
        simp [Header.Add, Header.Values, List.lookup, hk]
      · have hk2 : (name == k0) = false := by simpa using hn
        simp [Header.Add, Header.Values, List.lookup, hk, hk2, ih]

theorem Values_SetValues_other (h : Header) (k name : String) (vs : List String)
    (hne : name ≠ k) :
    (Header.SetValues h k vs).Values name = h.Values name := by
  induction h with
  | nil =>
    have hk2 : (name == k) = false := by simpa using hne
    simp [Header.SetValues, Header.Values, List.lookup, hk2]
  | cons kv rest ih =>
    rcases kv with ⟨k0, ws⟩
    simp only [Header.Values] at ih
    by_cases hk : k0 = k
    · subst hk
      have hk2 : (name == k0) = false := by simpa using hne
      simp [Header.SetValues, Header.Values, List.lookup, hk2]
    · by_cases hn : name = k0
      · subst hn
        simp [Header.SetValues, Header.Values, List.lookup, hk]
      · have hk2 : (name == k0) = false := by simpa using hn
        simp [Header.SetValues, Header.Values, List.lookup, hk, hk2, ih]

/-- Adding all the values of one entry. -/
theorem Values_foldl_Add (vs : List String) (h : Header) (k name : String) :
    (vs.foldl (fun acc v => Header.Add acc k v) h).Values name =
      h.Values name ++ (if name = k then vs else []) := by
  induction vs generalizing h with
  | nil => simp
  | cons v rest ih =>
    rw [List.foldl_cons, ih]
    by_cases hn : name = k
    · subst hn
      simp [Values_Add_same]
    · simp [hn, Values_Add_other _ _ _ _ hn]

/-- The values under `name` after the header loops of the proxy: what the destination
held, followed by what the source holds (the source being a map). -/
theorem Values_copyHeader (src dst : Header) (name : String)
    (hmap : (src.map Prod.fst).Nodup) :
    (copyHeader src dst).Values name = dst.Values name ++ src.Values name := by
  unfold copyHeader
  induction src generalizing dst with
  | nil => simp [Header.Values, List.lookup]
  | cons kv rest ih =>
    rcases kv with ⟨k, vs⟩
    have hnd : (rest.map Prod.fst).Nodup := (List.nodup_cons.mp hmap).2
    have hk : k ∉ rest.map Prod.fst := (List.nodup_cons.mp hmap).1
    rw [List.foldl_cons, ih _ hnd, Values_foldl_Add]
    by_cases hn : name = k
    · subst hn
      have hl : List.lookup name rest = none := by
        rw [List.lookup_eq_none_iff]
        intro p hp
        have : p.1 ∈ rest.map Prod.fst := List.mem_map_of_mem Prod.fst hp
        simp only [bne_iff_ne, ne_eq]
        intro e
        exact hk (e ▸ this)
      simp [Header.Values, List.lookup, hl]
    · have hk2 : (name == k) = false := by simpa using hn
      simp [hn, Header.Values, List.lookup, hk2]

theorem WriteHeader_respHeader (c : Context) (code : Nat) :
    (c.WriteHeader code).respHeader = c.respHeader := by
  unfold Context.WriteHeader
  split_ifs <;> rfl

theorem WriteHeader_written (c : Context) (code : Nat) :
    (c.WriteHeader code).written = c.written := by
  unfold Context.WriteHeader
  split_ifs <;> rfl

theorem DataFromReader_status (c : Context) (code : Nat) (len : Int) (ct body : String)
    (hw : c.written = false) (hc : 0 < code) :
    (c.DataFromReader code len ct body).status = code := by
  unfold Context.DataFromReader Context.writeContentType Context.Write
  simp only
  split_ifs <;> simp [WriteHeader_status c code hw hc]

theorem DataFromReader_values_other (c : Context) (code : Nat) (len : Int)
    (ct body name : String) (h1 : name ≠ "Content-Type") (h2 : name ≠ "Content-Length") :
    (c.DataFromReader code len ct body).respHeader.Values name = c.respHeader.Values name := by
  unfold Context.DataFromReader Context.writeContentType Context.Write
  simp only
  split_ifs <;>
    simp [WriteHeader_respHeader, Values_SetValues_other _ _ _ _ h1,
      Values_SetValues_other _ _ _ _ h2]

/-- C17 (amended): for a successful upstream call on a response writer not yet sent,
the response has exactly the status code of the backend and, for every header name
other than `Content-Type` and `Content-Length`, the values that earlier handlers had
placed on the response writer followed by the values the backend returned, in order and
not collapsed; so exactly the list of the backend for a name no earlier handler had
set. -/
theorem C17_response_copied (net : Net) (c : Context) (target : URL) (method body : String)
    (u : URL) (resp : UpstreamResponse)
    (hw : c.written = false)
    (hbody : c.request.body = some body)
    (hreq : net.newRequestURL method (net.urlString target) = some u)
    (hdo : net.clientDo
        { method := method, url := { u with rawQuery := c.request.rawQuery },
          header := copyHeader c.request.header [], body := body } = some resp)
    (hcode : 0 < resp.statusCode)
    (hmap : (resp.header.map Prod.fst).Nodup) :
    (proxyRequest net c target method).status = resp.statusCode ∧
      (∀ name : String, name ≠ "Content-Type" → name ≠ "Content-Length" →
        (proxyRequest net c target method).respHeader.Values name =
          c.respHeader.Values name ++ resp.header.Values name) ∧
      (∀ name : String, name ≠ "Content-Type" → name ≠ "Content-Length" →
        c.respHeader.Values name = [] →
        (proxyRequest net c target method).respHeader.Values name =
          resp.header.Values name) := by
  rw [proxyRequest_of_request net c target method body u hbody hreq]
  simp only [hdo]
  have hval : ∀ name : String, name ≠ "Content-Type" → name ≠ "Content-Length" →
      ((({ c with
          trace := c.trace ++
            [Event.upstream
              { method := method, url := { u with rawQuery := c.request.rawQuery },
                header := copyHeader c.request.header [], body := body }]
          respHeader := copyHeader resp.header c.respHeader } : Context).WriteHeader
          resp.statusCode).DataFromReader resp.statusCode resp.contentLength
        (resp.header.Get "Content-Type") resp.body).respHeader.Values name =
        c.respHeader.Values name ++ resp.header.Values name := by
    intro name h1 h2
    rw [DataFromReader_values_other _ _ _ _ _ _ h1 h2, WriteHeader_respHeader]
    exact Values_copyHeader resp.header c.respHeader name hmap
  refine ⟨?_, hval, ?_⟩
  · apply DataFromReader_status _ _ _ _ _ _ hcode
    rw [WriteHeader_written]
    exact hw
  · intro name h1 h2 hnone
    rw [hval name h1 h2, hnone]
    rfl

/-- C17 (amended) for the sample backend: the two cookies arrive as two values. -/
theorem C17_response_copied_witness :
    (proxyRequest (stdNet sampleBackend) (sampleCorsContext "/api/v1/orders/1")
        { scheme := "http", host := "localhost:8087", path := "/orders/1", rawQuery := "",
          fragment := "" } "GET").status = 200 ∧
      (proxyRequest (stdNet sampleBackend) (sampleCorsContext "/api/v1/orders/1")
        { scheme := "http", host := "localhost:8087", path := "/orders/1", rawQuery := "",
          fragment := "" } "GET").respHeader.Values "Set-Cookie" = ["a=1", "b=2"] :=
  have h := C17_response_copied (stdNet sampleBackend) (sampleCorsContext "/api/v1/orders/1")
    { scheme := "http", host := "localhost:8087", path := "/orders/1", rawQuery := "",
      fragment := "" } "GET" ""
    { scheme := "http", host := "localhost:8087", path := "/orders/1", rawQuery := "",
      fragment := "" }
    { statusCode := 200
      header :=
        [ ("Access-Control-Allow-Origin", ["https://app.example"]),
          ("Set-Cookie", ["a=1", "b=2"]) ]
      contentLength := 2
      body := "ok" }
    rfl rfl (by decide) rfl (by decide) (by decide)
  ⟨h.1, h.2.2 "Set-Cookie" (by decide) (by decide) rfl⟩

/-- C17 as stated fails when an earlier handler has set a header that the backend
returns too: with `Access-Control-Allow-Origin: *` already on the response writer and a
backend that returns `https://app.example` for that name, the response carries both
values, not exactly the list of the backend. -/
theorem C17_counterexample :
    (sampleBackend
        { method := "GET",
          url := { scheme := "http", host := "localhost:8087", path := "/orders/1",
                   rawQuery := "", fragment := "" },
          header := [], body := "" }).map
        (fun resp => resp.header.Values "Access-Control-Allow-Origin") =
      some ["https://app.example"] ∧
    (sampleProxy.HandleRequest (stdNet sampleBackend)
        (sampleCorsContext "/api/v1/orders/1")).respHeader.Values
        "Access-Control-Allow-Origin" =
      ["*", "https://app.example"] ∧
    (sampleProxy.HandleRequest (stdNet sampleBackend)
        (sampleCorsContext "/api/v1/orders/1")).respHeader.Values
        "Access-Control-Allow-Origin" ≠
      ["https://app.example"] := by
  refine ⟨by decide, by decide, by decide⟩

/-! ## Each gate either continues or rejects -/

/-- A context that differs by its keys, its store and by trace entries that are neither
handler calls nor upstream requests. -/
theorem sameResponse_keys (c : Context) (ks : List (String × JValue)) (t : List Event)
    (hs : stagesEntered t = []) (hu : upstreamCalls t = 0) (hm : metricRecords t = []) :
    SameResponse c { c with keys := ks, trace := c.trace ++ t } :=
  ⟨rfl, rfl, rfl, rfl, rfl, rfl, rfl, rfl, by simp [stagesEntered_append, hs],
    by simp [upstreamCalls_append, hu], by simp [metricRecords_append, hm]⟩

/-- The authentication gate either hands a context with the same response to the rest of
the chain, or rejects with one of its three 401 responses without running the rest. -/
theorem Authenticate_cases (codec : JWTCodec) (m : AuthMiddleware) (c : Context) :
    ∃ c0 : Context, SameResponse c c0 ∧
      ((∀ next, m.Authenticate codec next c = next c0) ∨
        (c0.keys = c.keys ∧ ∃ status msg, (status, msg) ∈ authRejections ∧
          ∀ next, m.Authenticate codec next c = rejection c0 status msg)) := by
  by_cases hany : authPublicEndpoints.any (fun e => HasPrefix c.request.path e) = true
  · refine ⟨c, SameResponse.refl c, Or.inl ?_⟩
    intro next
    unfold AuthMiddleware.Authenticate
    simp [hany]
  · have hany2 : authPublicEndpoints.any (fun e => HasPrefix c.request.path e) = false := by
      simpa using hany
    by_cases hh : c.request.header.Get "Authorization" = ""
    · refine ⟨{ c with trace := c.trace ++ [Event.getHeader "Authorization"] },
        sameResponse_keys c c.keys _ rfl rfl rfl,
        Or.inr ⟨rfl, 401, "authorization header required", by simp [authRejections], ?_⟩⟩
      intro next
      unfold AuthMiddleware.Authenticate rejection
      simp [hany2, Context.GetHeader, hh]
    · by_cases hf : (SplitOnSpace (c.request.header.Get "Authorization")).length ≠ 2 ∨
          (SplitOnSpace (c.request.header.Get "Authorization")).head? ≠ some "Bearer"
      · refine ⟨{ c with trace := c.trace ++ [Event.getHeader "Authorization"] },
          sameResponse_keys c c.keys _ rfl rfl rfl,
          Or.inr ⟨rfl, 401, "invalid authorization header format",
            by simp [authRejections], ?_⟩⟩
        intro next
        unfold AuthMiddleware.Authenticate rejection
        simp only [hany2, Context.GetHeader, hh, if_false, Bool.false_eq_true]
        rw [if_pos hf]
      · cases hp : jwtParse codec
            ((SplitOnSpace (c.request.header.Get "Authorization")).getD 1 "")
            m.jwtSecret c.now with
        | error e =>
          refine ⟨{ c with trace := c.trace ++ [Event.getHeader "Authorization"] ++
              [Event.jwtParse
                ((SplitOnSpace (c.request.header.Get "Authorization")).getD 1 "")] },
            ?_, Or.inr ⟨rfl, 401, "invalid token", by simp [authRejections], ?_⟩⟩
          · have := sameResponse_keys c c.keys
              ([Event.getHeader "Authorization"] ++
                [Event.jwtParse
                  ((SplitOnSpace (c.request.header.Get "Authorization")).getD 1 "")])
              rfl rfl rfl
            simpa [List.append_assoc] using this
          · intro next
            unfold AuthMiddleware.Authenticate rejection AuthMiddleware.validateToken
            simp only [hany2, Context.GetHeader, hh, if_false, Bool.false_eq_true]
            rw [if_neg hf]
            simp only [hp]
        | ok token =>
          refine ⟨(((({ c with trace := c.trace ++ [Event.getHeader "Authorization"] ++
              [Event.jwtParse
                ((SplitOnSpace (c.request.header.Get "Authorization")).getD 1 "")] }
              : Context).Set "userID" (token.payload.index "user_id")).Set "businessID"
              (token.payload.index "business_id")).Set "userRole"
              (token.payload.index "role")), ?_, Or.inl ?_⟩
          · have := sameResponse_keys c
              ((((({ c with trace := c.trace ++ [Event.getHeader "Authorization"] ++
                [Event.jwtParse
                  ((SplitOnSpace (c.request.header.Get "Authorization")).getD 1 "")] }
                : Context).Set "userID" (token.payload.index "user_id")).Set "businessID"
                (token.payload.index "business_id")).Set "userRole"
                (token.payload.index "role"))).keys
              ([Event.getHeader "Authorization"] ++
                [Event.jwtParse
                  ((SplitOnSpace (c.request.header.Get "Authorization")).getD 1 "")])
              rfl rfl rfl
            simpa [Context.Set, List.append_assoc] using this
          · intro next
            unfold AuthMiddleware.Authenticate AuthMiddleware.validateToken
            simp only [hany2, Context.GetHeader, hh, if_false, Bool.false_eq_true]
            rw [if_neg hf]
            simp only [hp]

theorem checkCounter_isGate (key : Context → String) (limit : Int) (window : Nat) :
    IsGate (fun next c => checkCounter (key c) limit window next c) addressRejections := by
  intro c
  obtain ⟨c0, hs, -, h⟩ := checkCounter_cases (key c) limit window c
  exact ⟨c0, hs, h⟩

theorem RateLimit_isGate (rl : RateLimiter) (limit : Int) (window : Nat) :
    IsGate (rl.RateLimit limit window) addressRejections := by
  rw [RateLimit_eq_checkCounter]
  exact checkCounter_isGate _ limit window

theorem addressRateLimit_isGate (rl : RateLimiter) :
    IsGate (addressRateLimit rl) addressRejections := by
  intro c
  by_cases hany : mainPublicEndpoints.any (fun e => HasPrefix c.request.path e) = true
  · refine ⟨c, SameResponse.refl c, Or.inl ?_⟩
    intro next
    unfold addressRateLimit
    simp [hany]
  · obtain ⟨c0, hs, h⟩ := RateLimit_isGate rl 100 (1 * Minute) c
    refine ⟨c0, hs, ?_⟩
    have heq : ∀ next, addressRateLimit rl next c = rl.RateLimit 100 (1 * Minute) next c := by
      intro next
      unfold addressRateLimit
      simp [hany]
    rcases h with h | ⟨status, msg, hm, h⟩
    · exact Or.inl (fun next => (heq next).trans (h next))
    · exact Or.inr ⟨status, msg, hm, fun next => (heq next).trans (h next)⟩

theorem UserRateLimit_isGate (rl : RateLimiter) (limit : Int) (window : Nat) :
    IsGate (rl.UserRateLimit limit window) identityRejections := by
  intro c
  cases hu : c.Get "userID" with
  | none =>
    refine ⟨c, SameResponse.refl c,
      Or.inr ⟨401, "user not authenticated", by simp [identityRejections], ?_⟩⟩
    intro next
    exact UserRateLimit_no_user rl limit window next c hu
  | some userID =>
    obtain ⟨c0, hs, -, h⟩ :=
      checkCounter_cases ("user_rate_limit:" ++ userID.format) limit window c
    refine ⟨c0, hs, ?_⟩
    rcases h with h | ⟨status, msg, hm, h⟩
    · refine Or.inl (fun next => ?_)
      rw [UserRateLimit_eq_checkCounter rl limit window next c userID hu]
      exact h next
    · refine Or.inr ⟨status, msg, ?_, fun next => ?_⟩
      · simp only [addressRejections, List.mem_cons, List.mem_singleton, List.not_mem_nil,
          or_false] at hm
        rcases hm with hm | hm <;> simp [identityRejections, hm]
      · rw [UserRateLimit_eq_checkCounter rl limit window next c userID hu]
        exact h next

theorem Authenticate_isGate (codec : JWTCodec) (m : AuthMiddleware) :
    IsGate (m.Authenticate codec) authRejections := by
  intro c
  obtain ⟨c0, hs, h⟩ := Authenticate_cases codec m c
  refine ⟨c0, hs, ?_⟩
  rcases h with h | ⟨-, h⟩
  · exact Or.inl h
  · exact Or.inr h

/-! ## Order of the chain -/

theorem rejection_trace (c : Context) (status : Nat) (msg : String) :
    (rejection c status msg).trace = c.trace := by
  unfold rejection
  rw [Abort_trace, JSON_trace]

theorem rejection_aborted (c : Context) (status : Nat) (msg : String) :
    (rejection c status msg).aborted = true := rfl

theorem orderly_of_isGate (h : HandlerFunc) (rs : List (Nat × String)) (hg : IsGate h rs) :
    Orderly h := by
  intro c
  obtain ⟨c0, hs, hc⟩ := hg c
  rcases hc with hc | ⟨status, msg, -, hc⟩
  · exact Or.inl ⟨c0, id, hs.stages, hs.upstream, hs.aborted, hc,
      fun x => ⟨rfl, rfl, rfl⟩⟩
  · refine Or.inr ⟨rejection c0 status msg, hc, ?_, ?_, rfl⟩
    · rw [rejection_trace, hs.stages]
    · rw [rejection_trace, hs.upstream]

theorem CORSMiddleware_orderly (headers : List (String × String)) :
    Orderly (CORSMiddleware headers) := by
  intro c
  exact Or.inl
    ⟨{ c with respHeader :=
        headers.foldl (fun acc kv => Header.SetValues acc kv.1 [kv.2]) c.respHeader },
      id, rfl, rfl, rfl, fun next => rfl, fun x => ⟨rfl, rfl, rfl⟩⟩

theorem LoggerMiddleware_orderly : Orderly LoggerMiddleware := by
  intro c
  refine Or.inl ⟨c, fun x =>
    { x with trace := x.trace ++
        [Event.logInfo "Request processed"
          [ ("method", x.request.method),
            ("path", c.request.path),
            ("query", c.request.rawQuery),
            ("status", toString x.status),
            ("latency", toString (x.now - c.now)),
            ("client_ip", x.request.clientIP),
            ("user_agent", x.request.header.Get "User-Agent") ]] },
    rfl, rfl, rfl, fun next => rfl, fun x => ⟨?_, ?_, rfl⟩⟩
  · simp [stagesEntered_append, stagesEntered]
  · simp [upstreamCalls_append, upstreamCalls]

theorem MetricsMiddleware_orderly (service : String) : Orderly (MetricsMiddleware service) := by
  intro c
  refine Or.inl ⟨c, fun x =>
    { x with trace := x.trace ++
        [ Event.counterInc "http_requests_total"
            [service, x.request.method, if c.fullPath = "" then "undefined" else c.fullPath,
              toString x.status],
          Event.observe "http_request_duration_seconds"
            [service, x.request.method, if c.fullPath = "" then "undefined" else c.fullPath]
            (x.now - c.now),
          Event.counterInc "http_requests_by_method_total" [service, x.request.method],
          Event.counterInc "http_requests_by_status_total"
            [service, getStatusCategory x.status] ] ++
        (if x.status ≥ 400 then
          [Event.counterInc "http_request_errors_total" [service, getErrorType x.status]]
        else []) },
    rfl, rfl, rfl, fun next => rfl, fun x => ⟨?_, ?_, rfl⟩⟩
  · by_cases h : x.status ≥ 400 <;> simp [stagesEntered_append, stagesEntered, h]
  · by_cases h : x.status ≥ 400 <;> simp [upstreamCalls_append, upstreamCalls, h]

theorem DataFromReader_aborted (c : Context) (code : Nat) (len : Int) (ct body : String) :
    (c.DataFromReader code len ct body).aborted = c.aborted := by
  unfold Context.DataFromReader Context.writeContentType Context.Write
  simp only
  split_ifs <;> simp [WriteHeader_aborted]

/-- `HandleRequest` enters no handler and leaves the abort flag alone. -/
theorem HandleRequest_frame (net : Net) (p : Proxy) (c : Context) :
    stagesEntered (p.HandleRequest net c).trace = stagesEntered c.trace ∧
      (p.HandleRequest net c).aborted = c.aborted := by
  unfold Proxy.HandleRequest
  simp only
  cases p.targetURL (TrimPrefix c.request.path "/api/v1") with
  | none =>
    simp only
    rw [JSON_trace, JSON_aborted]
    simp [stagesEntered_append, stagesEntered]
  | some u =>
    simp only
    unfold forwardTo
    cases net.urlParse (u ++ TrimPrefix c.request.path "/api/v1") with
    | none =>
      simp only
      rw [JSON_trace, JSON_aborted]
      simp [stagesEntered_append, stagesEntered]
    | some target =>
      simp only
      unfold proxyRequest
      cases c.request.body with
      | none =>
        simp only
        rw [JSON_trace, JSON_aborted]
        exact ⟨rfl, rfl⟩
      | some body =>
        simp only
        cases net.newRequestURL c.request.method (net.urlString target) with
        | none =>
          simp only
          rw [JSON_trace, JSON_aborted]
          exact ⟨rfl, rfl⟩
        | some v =>
          simp only
          split
          · rw [JSON_trace, JSON_aborted]
            simp [stagesEntered_append, stagesEntered]
          · rw [DataFromReader_trace, DataFromReader_aborted, WriteHeader_trace,
              WriteHeader_aborted]
            simp [stagesEntered_append, stagesEntered]

theorem proxyHandler_terminal (app : App) : Terminal app.proxyHandler :=
  ⟨fun c => app.proxy.HandleRequest app.net c, fun _ _ => rfl,
    fun c => HandleRequest_frame app.net app.proxy c⟩

/-- The handlers of a chain of orderly handlers closed by a route handler are entered in
the order of the chain, up to a handler that ends the chain: `k` handlers are entered; if
the route handler is not among them the abort flag is set and no upstream request was
made, otherwise the abort flag is as it was. -/
theorem chain_order (mids : List (Stage × HandlerFunc)) (last : Stage × HandlerFunc)
    (hm : ∀ sh ∈ mids, Orderly sh.2) (ht : Terminal last.2) (c : Context) :
    ∃ k, 1 ≤ k ∧ k ≤ mids.length + 1 ∧
      stagesEntered (runChain (mids ++ [last]) c).trace =
        stagesEntered c.trace ++ ((mids ++ [last]).map Prod.fst).take k ∧
      (k ≤ mids.length →
        (runChain (mids ++ [last]) c).aborted = true ∧
        upstreamCalls (runChain (mids ++ [last]) c).trace = upstreamCalls c.trace) ∧
      (k = mids.length + 1 → (runChain (mids ++ [last]) c).aborted = c.aborted) := by
  induction mids generalizing c with
  | nil =>
    obtain ⟨run, hrun, hframe⟩ := ht
    refine ⟨1, le_refl 1, le_refl 1, ?_, ?_, ?_⟩
    · show stagesEntered (last.2 (runChain []) _).trace = _
      rw [hrun, (hframe _).1]
      simp [stagesEntered_append, stagesEntered]
    · intro h
      simp at h
    · intro _
      show (last.2 (runChain []) _).aborted = _
      rw [hrun, (hframe _).2]
  | cons sh rest ih =>
    rcases sh with ⟨s0, h0⟩
    have ho : Orderly h0 := hm (s0, h0) (List.mem_cons_self _ _)
    have hrest : ∀ sh ∈ rest, Orderly sh.2 := fun sh hsh => hm sh (List.mem_cons_of_mem _ hsh)
    have hrun : runChain ((s0, h0) :: (rest ++ [last])) c =
        h0 (runChain (rest ++ [last])) { c with trace := c.trace ++ [Event.enter s0] } := rfl
    have hst : stagesEntered (c.trace ++ [Event.enter s0]) = stagesEntered c.trace ++ [s0] := by
      simp [stagesEntered_append, stagesEntered]
    have hup : upstreamCalls (c.trace ++ [Event.enter s0]) = upstreamCalls c.trace := by
      simp [upstreamCalls_append, upstreamCalls]
    rcases ho { c with trace := c.trace ++ [Event.enter s0] } with
      ⟨c0, post, hs0, hu0, ha0, hnext, hpost⟩ | ⟨out, hout, hso, huo, hao⟩
    · obtain ⟨k, hk1, hk2, hstages, habort, hfull⟩ := ih hrest c0
      refine ⟨k + 1, by omega, by simp only [List.length_cons]; omega, ?_, ?_, ?_⟩
      · rw [List.cons_append, hrun, hnext, (hpost _).1, hstages, hs0, hst]
        simp
      · intro hle
        have hle2 : k ≤ rest.length := by
          simp only [List.length_cons] at hle
          omega
        rw [List.cons_append, hrun, hnext, (hpost _).2.2, (hpost _).2.1]
        refine ⟨(habort hle2).1, ?_⟩
        rw [(habort hle2).2, hu0, hup]
      · intro heq
        have heq2 : k = rest.length + 1 := by
          simp only [List.length_cons] at heq
          omega
        rw [List.cons_append, hrun, hnext, (hpost _).2.2, hfull heq2, ha0]
    · refine ⟨1, le_refl 1, by simp, ?_, ?_, ?_⟩
      · rw [List.cons_append, hrun, hout, hso, hst]
        simp
      · intro _
        rw [List.cons_append, hrun, hout]
        exact ⟨hao, huo.trans hup⟩
      · intro heq
        simp at heq

theorem globalChain_orderly (app : App) : ∀ sh ∈ app.globalChain, Orderly sh.2 := by
  intro sh hsh
  unfold App.globalChain at hsh
  simp only [List.mem_cons, List.mem_singleton, List.not_mem_nil, or_false] at hsh
  rcases hsh with h | h | h | h | h <;> subst h
  · exact CORSMiddleware_orderly _
  · exact LoggerMiddleware_orderly
  · exact orderly_of_isGate _ _ (Authenticate_isGate app.codec app.authMiddleware)
  · exact orderly_of_isGate _ _ (addressRateLimit_isGate app.rateLimiter)
  · exact MetricsMiddleware_orderly _

/-- The order in which the protected routes enter their handlers. -/
theorem protectedChain_order (app : App) (c : Context) :
    ∃ k, 1 ≤ k ∧ k ≤ 7 ∧
      stagesEntered (runChain app.protectedChain c).trace =
        stagesEntered c.trace ++
          [Stage.cors, Stage.accessLog, Stage.authGate, Stage.addressLimit, Stage.metrics,
            Stage.identityLimit, Stage.proxy].take k ∧
      (k < 7 →
        (runChain app.protectedChain c).aborted = true ∧
        upstreamCalls (runChain app.protectedChain c).trace = upstreamCalls c.trace) ∧
      (k = 7 → (runChain app.protectedChain c).aborted = c.aborted) := by
  have hm : ∀ sh ∈ app.globalChain ++
      [(Stage.identityLimit, app.rateLimiter.UserRateLimit 1000 (1 * Minute))],
      Orderly sh.2 := by
    intro sh hsh
    rcases List.mem_append.mp hsh with h | h
    · exact globalChain_orderly app sh h
    · simp only [List.mem_singleton] at h
      subst h
      exact orderly_of_isGate _ _ (UserRateLimit_isGate app.rateLimiter 1000 (1 * Minute))
  obtain ⟨k, hk1, hk2, hst, hab, hfull⟩ :=
    chain_order _ (Stage.proxy, app.proxyHandler) hm (proxyHandler_terminal app) c
  have hchain : app.protectedChain = (app.globalChain ++
      [(Stage.identityLimit, app.rateLimiter.UserRateLimit 1000 (1 * Minute))]) ++
      [(Stage.proxy, app.proxyHandler)] := by
    simp [App.protectedChain]
  rw [← hchain] at hst hab hfull
  have hlen : (app.globalChain ++
      [(Stage.identityLimit, app.rateLimiter.UserRateLimit 1000 (1 * Minute))]).length = 6 := rfl
  rw [hlen] at hk2 hab hfull
  refine ⟨k, hk1, hk2, ?_, fun h => hab (by omega), hfull⟩
  rw [hst]
  rfl

/-- The order in which the public routes enter their handlers. -/
theorem publicChain_order (app : App) (c : Context) :
    ∃ k, 1 ≤ k ∧ k ≤ 6 ∧
      stagesEntered (runChain app.publicChain c).trace =
        stagesEntered c.trace ++
          [Stage.cors, Stage.accessLog, Stage.authGate, Stage.addressLimit, Stage.metrics,
            Stage.proxy].take k ∧
      (k < 6 →
        (runChain app.publicChain c).aborted = true ∧
        upstreamCalls (runChain app.publicChain c).trace = upstreamCalls c.trace) ∧
      (k = 6 → (runChain app.publicChain c).aborted = c.aborted) := by
  obtain ⟨k, hk1, hk2, hst, hab, hfull⟩ :=
    chain_order _ (Stage.proxy, app.proxyHandler) (globalChain_orderly app)
      (proxyHandler_terminal app) c
  have hlen : app.globalChain.length = 5 := rfl
  rw [hlen] at hk2 hab hfull
  refine ⟨k, hk1, hk2, ?_, fun h => hab (by omega), hfull⟩
  unfold App.publicChain
  rw [hst]
  rfl

/-- C14 as stated fails: for a request with the sample access token on a protected
route, the identity-scope check is entered after the metrics handler, not before it, and
the metrics counters are written after the upstream request, not before the proxy. -/
theorem C14_counterexample :
    stagesEntered (runChain sampleApp.protectedChain sampleProtectedRequest).trace =
      [Stage.cors, Stage.accessLog, Stage.authGate, Stage.addressLimit, Stage.metrics,
        Stage.identityLimit, Stage.proxy] ∧
    stagesEntered (runChain sampleApp.protectedChain sampleProtectedRequest).trace ≠
      [Stage.cors, Stage.accessLog, Stage.authGate, Stage.addressLimit,
        Stage.identityLimit, Stage.metrics, Stage.proxy] ∧
    (runChain sampleApp.protectedChain sampleProtectedRequest).trace.indexOf
        (Event.enter Stage.metrics) <
      (runChain sampleApp.protectedChain sampleProtectedRequest).trace.indexOf
        (Event.enter Stage.identityLimit) ∧
    (runChain sampleApp.protectedChain sampleProtectedRequest).trace.indexOf
        (Event.enter Stage.proxy) <
      (runChain sampleApp.protectedChain sampleProtectedRequest).trace.indexOf
        (Event.counterInc "http_requests_by_status_total" ["api-gateway", "success"]) := by
  refine ⟨by decide, by decide, by decide, by decide⟩

/-! ## Short circuit -/

/-- A gate whose outcome carries the abort flag has rejected. -/
theorem gate_rejects (h : HandlerFunc) (rs : List (Nat × String)) (hg : IsGate h rs)
    (hrs : ∀ p ∈ rs, 0 < p.1 ∧ bodyAllowedForStatus p.1 = true) (c : Context)
    (ha : c.aborted = false) (hw : c.written = false) (hb : c.respBody = "")
    (hrej : (h id c).aborted = true) : RejectsWith h rs c := by
  obtain ⟨c0, hs, hc⟩ := hg c
  rcases hc with hc | ⟨status, msg, hmem, hc⟩
  · exfalso
    rw [hc id] at hrej
    have : c0.aborted = true := hrej
    rw [hs.aborted, ha] at this
    exact absurd this (by decide)
  · have hf := rejection_facts c0 status msg (hs.written.trans hw) (hs.respBody.trans hb)
      (hrs _ hmem).1 (hrs _ hmem).2
    refine ⟨status, msg, hmem, fun next => (hc next).trans (hc id).symm, ?_, ?_, ?_, ?_, ?_⟩
    · rw [hc id]
      exact hf.1
    · rw [hc id]
      exact hf.2.1
    · rw [hc id]
      exact hf.2.2.1
    · rw [hc id, hf.2.2.2.1]
      exact hs.stages
    · rw [hc id, hf.2.2.2.1]
      exact hs.upstream

/-- C15: whenever the authentication gate, the address-scope limiter or the
identity-scope limiter rejects a request, it writes its status (401; 500 or 429; 401,
500 or 429) with a JSON error body, and its outcome does not depend on the rest of the
chain: no later handler runs. In the chains of the program, a request that was rejected
has not entered the proxy and no upstream request was made for it. -/
theorem C15_short_circuit (app : App) (limit : Int) (window : Nat) (c : Context)
    (ha : c.aborted = false) (hw : c.written = false) (hb : c.respBody = "") :
    ((app.authMiddleware.Authenticate app.codec id c).aborted = true →
      RejectsWith (app.authMiddleware.Authenticate app.codec) authRejections c) ∧
    ((addressRateLimit app.rateLimiter id c).aborted = true →
      RejectsWith (addressRateLimit app.rateLimiter) addressRejections c) ∧
    ((app.rateLimiter.UserRateLimit limit window id c).aborted = true →
      RejectsWith (app.rateLimiter.UserRateLimit limit window) identityRejections c) ∧
    ((runChain app.protectedChain c).aborted = true →
      ∃ k, k < 7 ∧
        stagesEntered (runChain app.protectedChain c).trace =
          stagesEntered c.trace ++
            [Stage.cors, Stage.accessLog, Stage.authGate, Stage.addressLimit, Stage.metrics,
              Stage.identityLimit, Stage.proxy].take k ∧
        Stage.proxy ∉
          [Stage.cors, Stage.accessLog, Stage.authGate, Stage.addressLimit, Stage.metrics,
            Stage.identityLimit, Stage.proxy].take k ∧
        upstreamCalls (runChain app.protectedChain c).trace = upstreamCalls c.trace) ∧
    ((runChain app.publicChain c).aborted = true →
      ∃ k, k < 6 ∧
        stagesEntered (runChain app.publicChain c).trace =
          stagesEntered c.trace ++
            [Stage.cors, Stage.accessLog, Stage.authGate, Stage.addressLimit, Stage.metrics,
              Stage.proxy].take k ∧
        Stage.proxy ∉
          [Stage.cors, Stage.accessLog, Stage.authGate, Stage.addressLimit, Stage.metrics,
            Stage.proxy].take k ∧
        upstreamCalls (runChain app.publicChain c).trace = upstreamCalls c.trace) := by
  refine ⟨?_, ?_, ?_, ?_, ?_⟩
  · exact gate_rejects _ _ (Authenticate_isGate app.codec app.authMiddleware)
      (by decide) c ha hw hb
  · exact gate_rejects _ _ (addressRateLimit_isGate app.rateLimiter) (by decide) c ha hw hb
  · exact gate_rejects _ _ (UserRateLimit_isGate app.rateLimiter limit window)
      (by decide) c ha hw hb
  · intro hab
    obtain ⟨k, h1, h2, h3, h4, h5⟩ := protectedChain_order app c
    have hk : k < 7 := by
      rcases Nat.lt_or_ge k 7 with h | h
      · exact h
      · exfalso
        have := h5 (by omega)
        rw [hab, ha] at this
        exact absurd this (by decide)
    refine ⟨k, hk, h3, ?_, (h4 hk).2⟩
    interval_cases k <;> decide
  · intro hab
    obtain ⟨k, h1, h2, h3, h4, h5⟩ := publicChain_order app c
    have hk : k < 6 := by
      rcases Nat.lt_or_ge k 6 with h | h
      · exact h
      · exfalso
        have := h5 (by omega)
        rw [hab, ha] at this
        exact absurd this (by decide)
    refine ⟨k, hk, h3, ?_, (h4 hk).2⟩
    interval_cases k <;> decide

/-- C15 for a request without an `Authorization` header on a protected route of the
sample gateway. -/
theorem C15_short_circuit_witness :
    RejectsWith (sampleApp.authMiddleware.Authenticate sampleApp.codec) authRejections
        (sampleContextAt "/api/v1/orders/1" []) ∧
      (∃ k, k < 7 ∧
        stagesEntered (runChain sampleApp.protectedChain
            (sampleContextAt "/api/v1/orders/1" [])).trace =
          stagesEntered (sampleContextAt "/api/v1/orders/1" []).trace ++
            [Stage.cors, Stage.accessLog, Stage.authGate, Stage.addressLimit, Stage.metrics,
              Stage.identityLimit, Stage.proxy].take k ∧
        Stage.proxy ∉
          [Stage.cors, Stage.accessLog, Stage.authGate, Stage.addressLimit, Stage.metrics,
            Stage.identityLimit, Stage.proxy].take k ∧
        upstreamCalls (runChain sampleApp.protectedChain
            (sampleContextAt "/api/v1/orders/1" [])).trace =
          upstreamCalls (sampleContextAt "/api/v1/orders/1" []).trace) :=
  have h := C15_short_circuit sampleApp 1000 Minute (sampleContextAt "/api/v1/orders/1" [])
    rfl rfl rfl
  ⟨h.1 (by decide), h.2.2.2.1 (by decide)⟩

/-! ## Identity in the context -/

/-- The body with which the authentication gate rejects is chosen by the request header
alone: it does not depend on the secret, on the wire format or on the error of the
parser. -/
theorem Authenticate_reject_body (codec : JWTCodec) (m : AuthMiddleware) (c : Context)
    (ha : c.aborted = false) (hw : c.written = false) (hb : c.respBody = "")
    (hrej : (m.Authenticate codec id c).aborted = true) :
    (m.Authenticate codec id c).status = 401 ∧
      (m.Authenticate codec id c).respBody =
        errorJSON
          (if c.request.header.Get "Authorization" = "" then "authorization header required"
          else if (SplitOnSpace (c.request.header.Get "Authorization")).length ≠ 2 ∨
              (SplitOnSpace (c.request.header.Get "Authorization")).head? ≠ some "Bearer" then
            "invalid authorization header format"
          else "invalid token") := by
  by_cases hany : authPublicEndpoints.any (fun e => HasPrefix c.request.path e) = true
  · exfalso
    have : m.Authenticate codec id c = c := by
      unfold AuthMiddleware.Authenticate
      simp [hany]
    rw [this, ha] at hrej
    exact absurd hrej (by decide)
  · have hany2 : authPublicEndpoints.any (fun e => HasPrefix c.request.path e) = false := by
      simpa using hany
    by_cases hh : c.request.header.Get "Authorization" = ""
    · have heq : m.Authenticate codec id c =
          rejection { c with trace := c.trace ++ [Event.getHeader "Authorization"] } 401
            "authorization header required" := by
        unfold AuthMiddleware.Authenticate rejection
        simp [hany2, Context.GetHeader, hh]
      have hf := rejection_facts
        { c with trace := c.trace ++ [Event.getHeader "Authorization"] } 401
        "authorization header required" hw hb (by decide) (by decide)
      rw [heq, if_pos hh]
      exact ⟨hf.1, hf.2.1⟩
    · by_cases hf : (SplitOnSpace (c.request.header.Get "Authorization")).length ≠ 2 ∨
          (SplitOnSpace (c.request.header.Get "Authorization")).head? ≠ some "Bearer"
      · have heq : m.Authenticate codec id c =
            rejection { c with trace := c.trace ++ [Event.getHeader "Authorization"] } 401
              "invalid authorization header format" := by
          unfold AuthMiddleware.Authenticate rejection
          simp only [hany2, Context.GetHeader, hh, if_false, Bool.false_eq_true]
          rw [if_pos hf]
        have hfacts := rejection_facts
          { c with trace := c.trace ++ [Event.getHeader "Authorization"] } 401
          "invalid authorization header format" hw hb (by decide) (by decide)
        rw [heq, if_neg hh, if_pos hf]
        exact ⟨hfacts.1, hfacts.2.1⟩
      · cases hp : jwtParse codec
            ((SplitOnSpace (c.request.header.Get "Authorization")).getD 1 "")
            m.jwtSecret c.now with
        | error e =>
          have heq : m.Authenticate codec id c =
              rejection
                { c with trace := c.trace ++ [Event.getHeader "Authorization"] ++
                  [Event.jwtParse
                    ((SplitOnSpace (c.request.header.Get "Authorization")).getD 1 "")] }
                401 "invalid token" := by
            unfold AuthMiddleware.Authenticate rejection AuthMiddleware.validateToken
            simp only [hany2, Context.GetHeader, hh, if_false, Bool.false_eq_true]
            rw [if_neg hf]
            simp only [hp]
          have hfacts := rejection_facts
            { c with trace := c.trace ++ [Event.getHeader "Authorization"] ++
              [Event.jwtParse
                ((SplitOnSpace (c.request.header.Get "Authorization")).getD 1 "")] }
            401 "invalid token" hw hb (by decide) (by decide)
          rw [heq, if_neg hh, if_neg hf]
          exact ⟨hfacts.1, hfacts.2.1⟩
        | ok token =>
          exfalso
          have heq : (m.Authenticate codec id c).aborted = c.aborted := by
            unfold AuthMiddleware.Authenticate AuthMiddleware.validateToken
            simp only [hany2, Context.GetHeader, hh, if_false, Bool.false_eq_true]
            rw [if_neg hf]
            simp only [hp]
            rfl
          rw [heq, ha] at hrej
          exact absurd hrej (by decide)

/-- Status and body of a JSON error written on a response writer not yet used, whatever
the trace of the context. -/
theorem JSON_error_facts (c : Context) (t : List Event) (status : Nat) (msg : String)
    (hw : c.written = false) (hb : c.respBody = "") (hs : 0 < status)
    (hbody : bodyAllowedForStatus status = true) :
    (({ c with trace := t } : Context).JSON status (errorJSON msg)).status = status ∧
      (({ c with trace := t } : Context).JSON status (errorJSON msg)).respBody =
        errorJSON msg := by
  refine ⟨JSON_status _ _ _ hw hs, ?_⟩
  rw [JSON_respBody _ _ _ hbody]
  simp [hb]

/-- The outcome of `HandleRequest` on a response writer not yet used: one of its five
error responses, or an upstream request that the backend answered. -/
theorem HandleRequest_outcome (net : Net) (p : Proxy) (c : Context)
    (hw : c.written = false) (hb : c.respBody = "") :
    (∃ status msg, (status, msg) ∈ proxyErrors ∧
      (p.HandleRequest net c).status = status ∧
      (p.HandleRequest net c).respBody = errorJSON msg) ∨
    (∃ req resp, req ∈ upstreamRequests (p.HandleRequest net c).trace ∧
      net.clientDo req = some resp) := by
  unfold Proxy.HandleRequest
  simp only
  cases htu : p.targetURL (TrimPrefix c.request.path "/api/v1") with
  | none =>
    left
    have hf := JSON_error_facts c (c.trace ++ [Event.logWarn "Service not found"]) 404
      "service not found" hw hb (by decide) (by decide)
    exact ⟨404, "service not found", by simp [proxyErrors], hf.1, hf.2⟩
  | some u =>
    simp only
    unfold forwardTo
    cases hparse : net.urlParse (u ++ TrimPrefix c.request.path "/api/v1") with
    | none =>
      left
      have hf := JSON_error_facts c (c.trace ++ [Event.logError "Invalid target URL"]) 500
        "invalid target URL" hw hb (by decide) (by decide)
      exact ⟨500, "invalid target URL", by simp [proxyErrors], hf.1, hf.2⟩
    | some target =>
      simp only
      unfold proxyRequest
      cases hbody : c.request.body with
      | none =>
        left
        have hf := JSON_error_facts c c.trace 500 "failed to read request body" hw hb
          (by decide) (by decide)
        exact ⟨500, "failed to read request body", by simp [proxyErrors], hf.1, hf.2⟩
      | some body =>
        simp only
        cases hreq : net.newRequestURL c.request.method (net.urlString target) with
        | none =>
          left
          have hf := JSON_error_facts c c.trace 500 "failed to create request" hw hb
            (by decide) (by decide)
          exact ⟨500, "failed to create request", by simp [proxyErrors], hf.1, hf.2⟩
        | some v =>
          simp only
          cases hdo : net.clientDo
              { method := c.request.method, url := { v with rawQuery := c.request.rawQuery },
                header := copyHeader c.request.header [], body := body } with
          | none =>
            left
            have hf := JSON_error_facts c
              (c.trace ++ [Event.upstream
                { method := c.request.method,
                  url := { v with rawQuery := c.request.rawQuery },
                  header := copyHeader c.request.header [], body := body }]) 502
              "failed to forward request" hw hb (by decide) (by decide)
            exact ⟨502, "failed to forward request", by simp [proxyErrors], hf.1, hf.2⟩
          | some resp =>
            right
            refine ⟨_, resp, ?_, hdo⟩
            rw [DataFromReader_trace, WriteHeader_trace]
            simp [upstreamRequests_append, upstreamRequests]

/-- Whether the `switch` of `HandleRequest` finds a backend does not depend on the
configured base URLs. -/
theorem targetURL_isSome (p1 p2 : Proxy) (r : String) :
    (p1.targetURL r).isSome = (p2.targetURL r).isSome := by
  unfold Proxy.targetURL
  split_ifs <;> rfl

/-- The error response of `HandleRequest` when the target URL is accepted by `url.Parse`
and `http.NewRequest` and no backend answers: it is fixed by the path and the body of
the inbound request. -/
theorem HandleRequest_accepted (net : Net) (p : Proxy) (c : Context)
    (hw : c.written = false) (hb : c.respBody = "")
    (hacc : ∀ u, p.targetURL (TrimPrefix c.request.path "/api/v1") = some u →
      ∃ target v, net.urlParse (u ++ TrimPrefix c.request.path "/api/v1") = some target ∧
        net.newRequestURL c.request.method (net.urlString target) = some v)
    (hno : ∀ req ∈ upstreamRequests (p.HandleRequest net c).trace, net.clientDo req = none) :
    (p.HandleRequest net c).status =
        (if (p.targetURL (TrimPrefix c.request.path "/api/v1")).isSome = false then 404
        else if c.request.body = none then 500 else 502) ∧
      (p.HandleRequest net c).respBody =
        errorJSON
          (if (p.targetURL (TrimPrefix c.request.path "/api/v1")).isSome = false then
            "service not found"
          else if c.request.body = none then "failed to read request body"
          else "failed to forward request") := by
  revert hno
  unfold Proxy.HandleRequest
  simp only
  cases htu : p.targetURL (TrimPrefix c.request.path "/api/v1") with
  | none =>
    intro _
    have hf := JSON_error_facts c (c.trace ++ [Event.logWarn "Service not found"]) 404
      "service not found" hw hb (by decide) (by decide)
    simpa using hf
  | some u =>
    obtain ⟨target, v, hparse, hreq⟩ := hacc u htu
    simp only
    unfold forwardTo
    rw [hparse]
    simp only
    unfold proxyRequest
    cases hbody : c.request.body with
    | none =>
      intro _
      have hf := JSON_error_facts c c.trace 500 "failed to read request body" hw hb
        (by decide) (by decide)
      simpa using hf
    | some body =>
      simp only
      rw [hreq]
      simp only
      cases hdo : net.clientDo
          { method := c.request.method, url := { v with rawQuery := c.request.rawQuery },
            header := copyHeader c.request.header [], body := body } with
      | none =>
        intro _
        have hf := JSON_error_facts c
          (c.trace ++ [Event.upstream
            { method := c.request.method,
              url := { v with rawQuery := c.request.rawQuery },
              header := copyHeader c.request.header [], body := body }]) 502
          "failed to forward request" hw hb (by decide) (by decide)
        simpa using hf
      | some resp =>
        intro hno
        exfalso
        simp only at hno
        have := hno ⟨c.request.method, { v with rawQuery := c.request.rawQuery },
          copyHeader c.request.header [], body⟩
          (by
            rw [DataFromReader_trace, WriteHeader_trace]
            simp [upstreamRequests_append, upstreamRequests])
        rw [hdo] at this
        exact absurd this (by simp)

/-- C19, as stated, fails for the backend base URLs: with no backend answering, the
sample gateway answers `GET /api/v1/orders/1` with 502 `failed to forward request`,
and the same gateway whose order backend address is `:8087` answers the same request
with 500 `invalid target URL`. The two runs differ only in one base URL and both end in
an error response, with different bodies. -/
theorem C19_counterexample :
    (sampleProxy.HandleRequest deadNet (sampleContext "/api/v1/orders/1" [])).status = 502 ∧
      (sampleProxy.HandleRequest deadNet (sampleContext "/api/v1/orders/1" [])).respBody =
        "\x7b\"error\":\"failed to forward request\"\x7d" ∧
      (sampleProxyBadURL.HandleRequest deadNet
        (sampleContext "/api/v1/orders/1" [])).status = 500 ∧
      (sampleProxyBadURL.HandleRequest deadNet
        (sampleContext "/api/v1/orders/1" [])).respBody =
        "\x7b\"error\":\"invalid target URL\"\x7d" ∧
      (sampleProxy.HandleRequest deadNet (sampleContext "/api/v1/orders/1" [])).respBody ≠
        (sampleProxyBadURL.HandleRequest deadNet
          (sampleContext "/api/v1/orders/1" [])).respBody := by
  refine ⟨by decide, by decide, by decide, by decide, by decide⟩

/-- C19 (amended): on a response writer not yet used, every error response of the
authentication gate, of either limiter and of the proxy (route resolution included)
carries the body `{"error":msg}` with `(status, msg)` in the constant list of that
stage. Two rejections of the authentication gate for the same request have the same
status and body whatever the signing secrets and the token codecs are. Two error
responses of the proxy for the same request under two sets of base URLs have the same
status and body when both target URLs are accepted by `url.Parse` and
`http.NewRequest`. -/
theorem C19_error_bodies (codec codec2 : JWTCodec) (m m2 : AuthMiddleware)
    (rl : RateLimiter) (limit : Int) (window : Nat) (net : Net) (p p2 : Proxy)
    (c : Context) (ha : c.aborted = false) (hw : c.written = false)
    (hb : c.respBody = "") :
    ((m.Authenticate codec id c).aborted = true →
      ∃ e ∈ authRejections, (m.Authenticate codec id c).status = e.1 ∧
        (m.Authenticate codec id c).respBody = errorJSON e.2) ∧
    ((rl.RateLimit limit window id c).aborted = true →
      ∃ e ∈ addressRejections, (rl.RateLimit limit window id c).status = e.1 ∧
        (rl.RateLimit limit window id c).respBody = errorJSON e.2) ∧
    ((rl.UserRateLimit limit window id c).aborted = true →
      ∃ e ∈ identityRejections, (rl.UserRateLimit limit window id c).status = e.1 ∧
        (rl.UserRateLimit limit window id c).respBody = errorJSON e.2) ∧
    (net.Unanswered (p.HandleRequest net c).trace →
      ∃ e ∈ proxyErrors, (p.HandleRequest net c).status = e.1 ∧
        (p.HandleRequest net c).respBody = errorJSON e.2) ∧
    ((m.Authenticate codec id c).aborted = true →
      (m2.Authenticate codec2 id c).aborted = true →
      (m.Authenticate codec id c).status = (m2.Authenticate codec2 id c).status ∧
        (m.Authenticate codec id c).respBody = (m2.Authenticate codec2 id c).respBody) ∧
    (p.TargetAccepted net c → p2.TargetAccepted net c →
      net.Unanswered (p.HandleRequest net c).trace →
      net.Unanswered (p2.HandleRequest net c).trace →
      (p.HandleRequest net c).status = (p2.HandleRequest net c).status ∧
        (p.HandleRequest net c).respBody = (p2.HandleRequest net c).respBody) := by
  have hauth : ∀ q ∈ authRejections, 0 < q.1 ∧ bodyAllowedForStatus q.1 = true := by decide
  have haddr : ∀ q ∈ addressRejections, 0 < q.1 ∧ bodyAllowedForStatus q.1 = true := by
    decide
  have hident : ∀ q ∈ identityRejections, 0 < q.1 ∧ bodyAllowedForStatus q.1 = true := by
    decide
  refine ⟨?_, ?_, ?_, ?_, ?_, ?_⟩
  · intro hrej
    obtain ⟨status, msg, hmem, -, hs, hbody, -⟩ :=
      gate_rejects _ _ (Authenticate_isGate codec m) hauth c ha hw hb hrej
    exact ⟨(status, msg), hmem, hs, hbody⟩
  · intro hrej
    obtain ⟨status, msg, hmem, -, hs, hbody, -⟩ :=
      gate_rejects _ _ (RateLimit_isGate rl limit window) haddr c ha hw hb hrej
    exact ⟨(status, msg), hmem, hs, hbody⟩
  · intro hrej
    obtain ⟨status, msg, hmem, -, hs, hbody, -⟩ :=
      gate_rejects _ _ (UserRateLimit_isGate rl limit window) hident c ha hw hb hrej
    exact ⟨(status, msg), hmem, hs, hbody⟩
  · intro hno
    rcases HandleRequest_outcome net p c hw hb with ⟨status, msg, hmem, hs, hbody⟩ |
      ⟨req, resp, hmem, hdo⟩
    · exact ⟨(status, msg), hmem, hs, hbody⟩
    · rw [hno req hmem] at hdo
      exact absurd hdo (by simp)
  · intro h1 h2
    have e1 := Authenticate_reject_body codec m c ha hw hb h1
    have e2 := Authenticate_reject_body codec2 m2 c ha hw hb h2
    exact ⟨e1.1.trans e2.1.symm, e1.2.trans e2.2.symm⟩
  · intro hacc1 hacc2 hno1 hno2
    have e1 := HandleRequest_accepted net p c hw hb hacc1 hno1
    have e2 := HandleRequest_accepted net p2 c hw hb hacc2 hno2
    rw [targetURL_isSome p2 p] at e2
    exact ⟨e1.1.trans e2.1.symm, e1.2.trans e2.2.symm⟩

/-- C19 (amended) on the sample request with the token `bad.jws`: the gate rejects it
with `invalid token` under two different secrets, and with no backend answering the
proxy answers it with the same 502 body under two addresses of the order backend. -/
theorem C19_error_bodies_witness :
    (∃ e ∈ authRejections,
      ((NewAuthMiddleware "topsecret").Authenticate sampleCodec id
        (sampleContextAt "/api/v1/orders/1" [("Authorization", ["Bearer bad.jws"])])).status =
          e.1 ∧
      ((NewAuthMiddleware "topsecret").Authenticate sampleCodec id
        (sampleContextAt "/api/v1/orders/1" [("Authorization", ["Bearer bad.jws"])])).respBody =
          errorJSON e.2) ∧
    ((NewAuthMiddleware "topsecret").Authenticate sampleCodec id
        (sampleContextAt "/api/v1/orders/1" [("Authorization", ["Bearer bad.jws"])])).respBody =
      ((NewAuthMiddleware "another").Authenticate sampleCodec id
        (sampleContextAt "/api/v1/orders/1" [("Authorization", ["Bearer bad.jws"])])).respBody ∧
    (sampleProxy.HandleRequest deadNet
        (sampleContextAt "/api/v1/orders/1" [("Authorization", ["Bearer bad.jws"])])).respBody =
      (sampleProxyMoved.HandleRequest deadNet
        (sampleContextAt "/api/v1/orders/1" [("Authorization", ["Bearer bad.jws"])])).respBody :=
  have h := C19_error_bodies sampleCodec sampleCodec (NewAuthMiddleware "topsecret")
    (NewAuthMiddleware "another") sampleRateLimiter 100 Minute deadNet sampleProxy
    sampleProxyMoved
    (sampleContextAt "/api/v1/orders/1" [("Authorization", ["Bearer bad.jws"])]) rfl rfl rfl
  ⟨h.1 (by decide), (h.2.2.2.2.1 (by decide) (by decide)).2,
    (h.2.2.2.2.2
      (fun u hu => ⟨_, _, by
        have e : u = "http://localhost:8087" := by
          have h0 : sampleProxy.targetURL (TrimPrefix (sampleContextAt "/api/v1/orders/1"
              [("Authorization", ["Bearer bad.jws"])]).request.path "/api/v1") =
              some "http://localhost:8087" := by decide
          rw [h0] at hu
          exact (Option.some.inj hu).symm
        subst e
        exact ⟨by rfl, by rfl⟩⟩)
      (fun u hu => ⟨_, _, by
        have e : u = "http://orders.internal:9000" := by
          have h0 : sampleProxyMoved.targetURL (TrimPrefix (sampleContextAt "/api/v1/orders/1"
              [("Authorization", ["Bearer bad.jws"])]).request.path "/api/v1") =
              some "http://orders.internal:9000" := by decide
          rw [h0] at hu
          exact (Option.some.inj hu).symm
        subst e
        exact ⟨by rfl, by rfl⟩⟩)
      (fun _ _ => rfl) (fun _ _ => rfl)).2⟩

/-! ## The counter of one key over a sequence of limiter calls -/

/-- The entry of `K` alive at instant `now` is the first entry kept under `K` whose time
to live has not run out. -/
theorem live_eq_slot (r : Redis) (now : Nat) (K : String) :
    r.live now K =
      (r.slot K).find? (fun e => match e.deadline with
        | none => true
        | some d => decide (now < d)) := by
  unfold Redis.live Redis.slot
  induction r.entries with
  | nil => rfl
  | cons e rest ih =>
    by_cases hk : e.key = K
    · simp only [List.find?_cons, List.filter_cons, hk, decide_True, Bool.true_and, if_true]
      rw [ih]
    · simp only [List.find?_cons, List.filter_cons, hk, decide_False, Bool.false_and, if_false]
      exact ih

theorem slot_filter_same (l : List RedisEntry) (K : String) :
    (l.filter (fun x => decide (x.key ≠ K))).filter (fun e => decide (e.key = K)) = [] := by
  rw [List.filter_filter, List.filter_eq_nil_iff]
  intro e _
  by_cases hk : e.key = K <;> simp [hk]

theorem slot_filter_other (l : List RedisEntry) (K K2 : String) (hne : K2 ≠ K) :
    (l.filter (fun x => decide (x.key ≠ K2))).filter (fun e => decide (e.key = K)) =
      l.filter (fun e => decide (e.key = K)) := by
  rw [List.filter_filter]
  apply List.filter_congr
  intro e _
  by_cases hk : e.key = K
  · have : ¬ K = K2 := fun h => hne h.symm
    simp [hk, this]
  · simp [hk]

/-- An entry found alive under the key `K2` carries the key `K2`. -/
theorem live_key (r : Redis) (now : Nat) (K2 : String) (e : RedisEntry)
    (h : r.live now K2 = some e) : e.key = K2 := by
  unfold Redis.live at h
  have := List.find?_some h
  simp at this
  exact this.1

/-- Command `INCR` never puts a fault in the oracle and leaves the other keys alone. -/
theorem Incr_frame (r : Redis) (now : Nat) (K K2 : String) (hf : r.faults = [])
    (hne : K2 ≠ K) :
    (r.Incr now K2).2.faults = [] ∧ (r.Incr now K2).2.slot K = r.slot K := by
  unfold Redis.Incr
  simp only [hf, List.headD_nil, List.tail_nil, Bool.false_eq_true, if_false]
  cases hl : r.live now K2 with
  | none =>
    refine ⟨rfl, ?_⟩
    simp only [Redis.slot, List.filter_cons]
    have : ¬ K2 = K := hne
    simp only [this, decide_False, Bool.false_eq_true, if_false]
    exact slot_filter_other r.entries K K2 hne
  | some e =>
    have hk := live_key r now K2 e hl
    simp only
    split_ifs
    · exact ⟨rfl, rfl⟩
    · refine ⟨rfl, ?_⟩
      simp only [Redis.slot, List.filter_cons]
      have : ¬ e.key = K := fun h => hne (hk.symm.trans h)
      simp only [this, decide_False, Bool.false_eq_true, if_false]
      exact slot_filter_other r.entries K K2 hne

/-- Command `EXPIRE` never puts a fault in the oracle and leaves the other keys alone. -/
theorem Expire_frame (r : Redis) (now : Nat) (K K2 : String) (w : Nat) (hf : r.faults = [])
    (hne : K2 ≠ K) :
    (r.Expire now K2 w).2.faults = [] ∧ (r.Expire now K2 w).2.slot K = r.slot K := by
  unfold Redis.Expire
  simp only [hf, List.headD_nil, List.tail_nil, Bool.false_eq_true, if_false]
  cases hl : r.live now K2 with
  | none => exact ⟨rfl, rfl⟩
  | some e =>
    have hk := live_key r now K2 e hl
    refine ⟨rfl, ?_⟩
    simp only [Redis.slot, List.filter_cons]
    have : ¬ e.key = K := fun h => hne (hk.symm.trans h)
    simp only [this, decide_False, Bool.false_eq_true, if_false]
    exact slot_filter_other r.entries K K2 hne

/-- Command `INCR` on a key that is absent or expired: the count is 1 and the key has no
time to live. -/
theorem Incr_of_dead (r : Redis) (now : Nat) (K : String) (hf : r.faults = [])
    (hl : r.live now K = none) :
    (r.Incr now K).1 = some 1 ∧ (r.Incr now K).2.faults = [] ∧
      (r.Incr now K).2.slot K = [{ key := K, value := 1, deadline := none }] := by
  unfold Redis.Incr
  simp only [hf, List.headD_nil, List.tail_nil, Bool.false_eq_true, if_false, hl]
  refine ⟨trivial, trivial, ?_⟩
  simp only [Redis.slot, List.filter_cons, decide_True, if_true]
  rw [slot_filter_same]

/-- Command `INCR` on a key that is alive with the count `m`. -/
theorem Incr_of_alive (r : Redis) (now : Nat) (K : String) (m : Int) (d : Nat)
    (hf : r.faults = [])
    (hs : r.slot K = [{ key := K, value := m, deadline := some d }]) (hnow : now < d)
    (hm : m < 2 ^ 63 - 1) :
    (r.Incr now K).1 = some (m + 1) ∧ (r.Incr now K).2.faults = [] ∧
      (r.Incr now K).2.slot K = [{ key := K, value := m + 1, deadline := some d }] := by
  have hl : r.live now K = some { key := K, value := m, deadline := some d } := by
    rw [live_eq_slot, hs]
    simp [hnow]
  unfold Redis.Incr
  simp only [hf, List.headD_nil, List.tail_nil, Bool.false_eq_true, if_false, hl]
  have : ¬ m ≥ 2 ^ 63 - 1 := not_le.mpr hm
  simp only [this, if_false]
  refine ⟨trivial, trivial, ?_⟩
  simp only [Redis.slot, List.filter_cons, decide_True, if_true]
  rw [slot_filter_same]

/-- Command `EXPIRE` on a key just created by `INCR`. -/
theorem Expire_of_new (r : Redis) (now : Nat) (K : String) (w : Nat) (hf : r.faults = [])
    (hs : r.slot K = [{ key := K, value := 1, deadline := none }]) :
    (r.Expire now K w).2.faults = [] ∧
      (r.Expire now K w).2.slot K = [{ key := K, value := 1, deadline := some (now + w) }] := by
  have hl : r.live now K = some { key := K, value := 1, deadline := none } := by
    rw [live_eq_slot, hs]
    simp
  unfold Redis.Expire
  simp only [hf, List.headD_nil, List.tail_nil, Bool.false_eq_true, if_false, hl]
  refine ⟨trivial, ?_⟩
  simp only [Redis.slot, List.filter_cons, decide_True, if_true]
  rw [slot_filter_same]


theorem rejection_redis (c : Context) (status : Nat) (msg : String) :
    (rejection c status msg).redis = c.redis := by
  unfold rejection
  exact (show (c.JSON status (errorJSON msg)).Abort.redis =
    (c.JSON status (errorJSON msg)).redis from rfl).trans (JSON_redis _ _ _)

/-- The store that the common part of the limiters leaves. -/
theorem checkCounter_redis (key : String) (limit : Int) (window : Nat) (c : Context) :
    (checkCounter key limit window id c).redis =
      match (c.redis.Incr c.now key).1 with
      | none => (c.redis.Incr c.now key).2
      | some n =>
        if n = 1 then ((c.redis.Incr c.now key).2.Expire c.now key window).2
        else (c.redis.Incr c.now key).2 := by
  cases h : (c.redis.Incr c.now key).1 with
  | none =>
    rw [checkCounter_incr_failed key limit window id c h, rejection_redis]
  | some n =>
    rw [checkCounter_incr_ok key limit window id c n h]
    by_cases hgt : n > limit
    · rw [if_pos hgt, rejection_redis]
    · rw [if_neg hgt]
      rfl

/-- The outcome of the common part of the limiters when the increment returns `n`, on
a response writer not yet used. -/
theorem checkCounter_outcome (key : String) (limit : Int) (window : Nat) (c : Context)
    (n : Int) (hfresh : c.Fresh) (h : (c.redis.Incr c.now key).1 = some n) :
    ((checkCounter key limit window id c).aborted = false ↔ n ≤ limit) ∧
      ((checkCounter key limit window id c).status = 429 ↔ limit < n) ∧
      (limit < n →
        (checkCounter key limit window id c).aborted = true ∧
        (checkCounter key limit window id c).respBody = errorJSON "rate limit exceeded") ∧
      (checkCounter key limit window id c).trace =
        c.trace ++ Event.redisIncr key ::
          (if n = 1 then [Event.redisExpire key window] else []) := by
  obtain ⟨ha, hw, hb, hs⟩ := hfresh
  rw [checkCounter_incr_ok key limit window id c n h]
  by_cases hgt : n > limit
  · rw [if_pos hgt]
    have hf := rejection_facts
      { c with
        redis :=
          if n = 1 then ((c.redis.Incr c.now key).2.Expire c.now key window).2
          else (c.redis.Incr c.now key).2
        trace := c.trace ++ Event.redisIncr key ::
          (if n = 1 then [Event.redisExpire key window] else []) }
      429 "rate limit exceeded" hw hb (by decide) (by decide)
    refine ⟨?_, ?_, ?_, hf.2.2.2.1⟩
    · rw [hf.2.2.1]
      constructor
      · intro h0
        exact absurd h0 (by decide)
      · intro h0
        exact absurd hgt (not_lt.mpr h0)
    · rw [hf.1]
      exact ⟨fun _ => hgt, fun _ => rfl⟩
    · intro _
      exact ⟨hf.2.2.1, hf.2.1⟩
  · rw [if_neg hgt]
    refine ⟨?_, ?_, ?_, rfl⟩
    · exact ⟨fun _ => not_lt.mp hgt, fun _ => ha⟩
    · constructor
      · intro h0
        have h1 : c.status = 429 := h0
        rw [hs] at h1
        exact absurd h1 (by decide)
      · intro h0
        exact absurd h0 hgt
    · intro h0
      exact absurd h0 hgt

/-- A call with the counter key `K` runs the common part of the limiters on `K`. -/
theorem run_of_key (rl : RateLimiter) (call : LimiterCall) (r : Redis) (K : String)
    (hk : call.key = some K) :
    call.run rl r =
      checkCounter K call.limit call.window id { call.ctx with redis := r } := by
  unfold LimiterCall.key at hk
  unfold LimiterCall.run
  by_cases hi : call.identity = true
  · rw [if_pos hi] at hk
    rw [if_pos hi]
    cases hu : call.ctx.Get "userID" with
    | none =>
      rw [hu] at hk
      exact absurd hk (by simp)
    | some userID =>
      rw [hu] at hk
      have hK : "user_rate_limit:" ++ userID.format = K := Option.some.inj hk
      rw [← hK]
      exact UserRateLimit_eq_checkCounter rl call.limit call.window id
        { call.ctx with redis := r } userID hu
  · rw [if_neg hi] at hk
    rw [if_neg hi]
    have hK : "rate_limit:" ++ call.ctx.request.clientIP = K := Option.some.inj hk
    rw [← hK, RateLimit_eq_checkCounter]

/-- A call without a counter key leaves the store alone. -/
theorem run_no_key (rl : RateLimiter) (call : LimiterCall) (r : Redis)
    (hk : call.key = none) : (call.run rl r).redis = r := by
  unfold LimiterCall.key at hk
  unfold LimiterCall.run
  by_cases hi : call.identity = true
  · rw [if_pos hi] at hk
    rw [if_pos hi]
    cases hu : call.ctx.Get "userID" with
    | none =>
      rw [UserRateLimit_no_user rl call.limit call.window id { call.ctx with redis := r } hu,
        rejection_redis]
    | some userID =>
      rw [hu] at hk
      exact absurd hk (by simp)
  · rw [if_neg hi] at hk
    exact absurd hk (by simp)

/-- A call for another key leaves the counter of `K` alone. -/
theorem run_frame (rl : RateLimiter) (call : LimiterCall) (r : Redis) (K : String)
    (hf : r.faults = []) (hk : call.isFor K = false) :
    (call.run rl r).redis.faults = [] ∧ (call.run rl r).redis.slot K = r.slot K := by
  cases hkey : call.key with
  | none =>
    rw [run_no_key rl call r hkey]
    exact ⟨hf, rfl⟩
  | some K2 =>
    have hne : K2 ≠ K := by
      intro e
      unfold LimiterCall.isFor at hk
      rw [hkey, e] at hk
      simp at hk
    rw [run_of_key rl call r K2 hkey, checkCounter_redis]
    have h1 := Incr_frame r call.ctx.now K K2 hf hne
    cases hc : (Redis.Incr r call.ctx.now K2).1 with
    | none => exact h1
    | some n =>
      simp only
      split_ifs
      · have h2 := Expire_frame (r.Incr call.ctx.now K2).2 call.ctx.now K K2 call.window
          h1.1 hne
        exact ⟨h2.1, h2.2.trans h1.2⟩
      · exact h1

/-- The first call for `K` on a store in which `K` is absent or expired: the increment
returns 1 and the key gets the time to live of the call. -/
theorem run_first (rl : RateLimiter) (call : LimiterCall) (r : Redis) (K : String)
    (hf : r.faults = []) (hk : call.key = some K) (hl : r.live call.ctx.now K = none) :
    (r.Incr call.ctx.now K).1 = some 1 ∧ (call.run rl r).redis.faults = [] ∧
      (call.run rl r).redis.slot K =
        [{ key := K, value := 1, deadline := some (call.ctx.now + call.window) }] := by
  obtain ⟨h1, h2, h3⟩ := Incr_of_dead r call.ctx.now K hf hl
  refine ⟨h1, ?_⟩
  rw [run_of_key rl call r K hk, checkCounter_redis]
  have h1c : (Redis.Incr ({ call.ctx with redis := r } : Context).redis
      ({ call.ctx with redis := r } : Context).now K).1 = some 1 := h1
  rw [h1c]
  simp only [if_true]
  exact Expire_of_new _ call.ctx.now K call.window h2 h3

/-- A later call for `K` while the key is alive with the count `m`: the increment returns
`m + 1` and the time to live is kept. -/
theorem run_later (rl : RateLimiter) (call : LimiterCall) (r : Redis) (K : String)
    (m d : Nat) (hf : r.faults = []) (hk : call.key = some K)
    (hs : r.slot K = [{ key := K, value := (m : Int), deadline := some d }])
    (hm : 1 ≤ m) (hnow : call.ctx.now < d) (hb : m + 1 < 2 ^ 63) :
    (r.Incr call.ctx.now K).1 = some ((m + 1 : Nat) : Int) ∧
      (call.run rl r).redis.faults = [] ∧
      (call.run rl r).redis.slot K =
        [{ key := K, value := ((m + 1 : Nat) : Int), deadline := some d }] := by
  have hmi : (m : Int) < 2 ^ 63 - 1 := by
    have : ((m + 1 : Nat) : Int) < ((2 ^ 63 : Nat) : Int) := Int.ofNat_lt.mpr hb
    push_cast at this
    omega
  obtain ⟨h1, h2, h3⟩ := Incr_of_alive r call.ctx.now K (m : Int) d hf hs hnow hmi
  have hcast : ((m + 1 : Nat) : Int) = (m : Int) + 1 := by push_cast; rfl
  rw [hcast]
  refine ⟨h1, ?_⟩
  rw [run_of_key rl call r K hk, checkCounter_redis]
  have h1c : (Redis.Incr ({ call.ctx with redis := r } : Context).redis
      ({ call.ctx with redis := r } : Context).now K).1 = some ((m : Int) + 1) := h1
  rw [h1c]
  have hne : ¬ ((m : Int) + 1 = 1) := by omega
  simp only [hne, if_false]
  exact ⟨h2, h3⟩


theorem storeAfter_append (rl : RateLimiter) (pre post : List LimiterCall) :
    ∀ r : Redis, storeAfter rl r (pre ++ post) = storeAfter rl (storeAfter rl r pre) post := by
  induction pre with
  | nil => intro r; rfl
  | cons call rest ih =>
    intro r
    exact ih (call.run rl r).redis

theorem callsFor_append_one (K : String) (pre : List LimiterCall) (last : LimiterCall)
    (hk : last.isFor K = true) : callsFor K (pre ++ [last]) = callsFor K pre + 1 := by
  unfold callsFor
  rw [List.countP_append]
  simp [List.countP_cons, hk]

theorem withinOneWindow_iff (K : String) (calls : List LimiterCall) :
    withinOneWindow K calls = true ↔
      ∀ d, armedDeadline K calls = some d →
        ∀ call ∈ calls, call.isFor K = true → call.ctx.now < d := by
  unfold withinOneWindow
  cases h : armedDeadline K calls with
  | none => simp
  | some d =>
    simp only [List.all_eq_true, Bool.or_eq_true, Bool.not_eq_true', decide_eq_true_eq,
      Option.some.injEq]
    constructor
    · intro hall d2 hd call hc hk
      rw [← hd]
      rcases hall call hc with h0 | h0
      · rw [hk] at h0
        exact absurd h0 (by decide)
      · exact h0
    · intro hall call hc
      by_cases hk : call.isFor K = true
      · exact Or.inr (hall d rfl call hc hk)
      · left
        simpa using hk

/-- The store after calls made while the key `K` is alive with the count `m`: every call
for `K` adds one to the count and the time to live is kept. -/
theorem storeAfter_alive (rl : RateLimiter) (K : String) (d : Nat) :
    ∀ (calls : List LimiterCall) (r : Redis) (m : Nat), r.faults = [] →
      r.slot K = [{ key := K, value := (m : Int), deadline := some d }] → 1 ≤ m →
      (∀ call ∈ calls, call.isFor K = true → call.ctx.now < d) →
      m + callsFor K calls < 2 ^ 63 →
      (storeAfter rl r calls).faults = [] ∧
        (storeAfter rl r calls).slot K =
          [{ key := K, value := ((m + callsFor K calls : Nat) : Int), deadline := some d }] := by
  intro calls
  induction calls with
  | nil =>
    intro r m hf hs _ _ _
    exact ⟨hf, by simpa [callsFor, storeAfter] using hs⟩
  | cons call rest ih =>
    intro r m hf hs hm hnow hb
    by_cases hk : call.isFor K = true
    · have hc : callsFor K (call :: rest) = callsFor K rest + 1 := by
        unfold callsFor
        simp [List.countP_cons, hk]
      rw [hc] at hb
      have hkey : call.key = some K := of_decide_eq_true hk
      obtain ⟨-, h2, h3⟩ := run_later rl call r K m d hf hkey hs hm
        (hnow call (List.mem_cons_self _ _) hk) (by omega)
      have := ih (call.run rl r).redis (m + 1) h2 h3 (by omega)
        (fun x hx => hnow x (List.mem_cons_of_mem _ hx)) (by omega)
      rw [hc]
      have e : m + (callsFor K rest + 1) = m + 1 + callsFor K rest := by omega
      rw [e]
      exact this
    · have hk2 : call.isFor K = false := by simpa using hk
      have hc : callsFor K (call :: rest) = callsFor K rest := by
        unfold callsFor
        simp [List.countP_cons, hk2]
      rw [hc] at hb
      obtain ⟨h2, h3⟩ := run_frame rl call r K hf hk2
      have := ih (call.run rl r).redis m h2 (h3.trans hs) hm
        (fun x hx => hnow x (List.mem_cons_of_mem _ hx)) hb
      rw [hc]
      exact this

/-- The store after calls made within one window from a store that does not hold `K`:
the counter of `K` is absent when no call was for `K`, and otherwise it holds the number
of calls for `K` with the time to live that the first of them armed. -/
theorem storeAfter_absent (rl : RateLimiter) (K : String) :
    ∀ (calls : List LimiterCall) (r : Redis), r.faults = [] → r.slot K = [] →
      withinOneWindow K calls = true → callsFor K calls < 2 ^ 63 →
      (storeAfter rl r calls).faults = [] ∧
        ((callsFor K calls = 0 ∧ armedDeadline K calls = none ∧
            (storeAfter rl r calls).slot K = []) ∨
          (∃ d, armedDeadline K calls = some d ∧ 1 ≤ callsFor K calls ∧
            (storeAfter rl r calls).slot K =
              [{ key := K, value := (callsFor K calls : Int), deadline := some d }])) := by
  intro calls
  induction calls with
  | nil =>
    intro r hf hs _ _
    exact ⟨hf, Or.inl ⟨rfl, rfl, hs⟩⟩
  | cons call rest ih =>
    intro r hf hs hwin hb
    rw [withinOneWindow_iff] at hwin
    by_cases hk : call.isFor K = true
    · have hc : callsFor K (call :: rest) = callsFor K rest + 1 := by
        unfold callsFor
        simp [List.countP_cons, hk]
      have hd : armedDeadline K (call :: rest) = some (call.ctx.now + call.window) := by
        unfold armedDeadline
        simp [List.find?_cons, hk]
      have hkey : call.key = some K := of_decide_eq_true hk
      have hl : r.live call.ctx.now K = none := by
        rw [live_eq_slot, hs]
        rfl
      obtain ⟨-, h2, h3⟩ := run_first rl call r K hf hkey hl
      rw [hc] at hb
      have := storeAfter_alive rl K (call.ctx.now + call.window) rest (call.run rl r).redis 1
        h2 h3 (le_refl 1)
        (fun x hx hxk => hwin _ hd x (List.mem_cons_of_mem _ hx) hxk) (by omega)
      refine ⟨this.1, Or.inr ⟨_, hd, by omega, ?_⟩⟩
      rw [hc]
      have e : callsFor K rest + 1 = 1 + callsFor K rest := by omega
      rw [e]
      exact this.2
    · have hk2 : call.isFor K = false := by simpa using hk
      have hc : callsFor K (call :: rest) = callsFor K rest := by
        unfold callsFor
        simp [List.countP_cons, hk2]
      have hd : armedDeadline K (call :: rest) = armedDeadline K rest := by
        unfold armedDeadline
        simp [List.find?_cons, hk2]
      obtain ⟨h2, h3⟩ := run_frame rl call r K hf hk2
      rw [hc] at hb
      have hwin2 : withinOneWindow K rest = true := by
        rw [withinOneWindow_iff]
        intro d hd2 x hx hxk
        exact hwin d (hd.trans hd2) x (List.mem_cons_of_mem _ hx) hxk
      have := ih (call.run rl r).redis h2 (h3.trans hs) hwin2 hb
      rw [hc, hd]
      exact this

theorem armedDeadline_append (K : String) (pre post : List LimiterCall) (d : Nat)
    (h : armedDeadline K pre = some d) : armedDeadline K (pre ++ post) = some d := by
  unfold armedDeadline at h ⊢
  rw [List.find?_append]
  cases hf : pre.find? (fun call => call.isFor K) with
  | none =>
    rw [hf] at h
    exact absurd h (by simp)
  | some x =>
    rw [hf] at h
    simpa using h

theorem withinOneWindow_init (K : String) (pre post : List LimiterCall)
    (h : withinOneWindow K (pre ++ post) = true) : withinOneWindow K pre = true := by
  rw [withinOneWindow_iff] at h ⊢
  intro d hd call hc hk
  exact h d (armedDeadline_append K pre post d hd) call (List.mem_append_left _ hc) hk

/-- The increment of the last call for `K` of a sequence made within one window from a
store that does not hold `K` returns the number of calls for `K`, and the store then holds
that number under the time to live armed by the first call. -/
theorem last_call_count (rl : RateLimiter) (K : String) (r0 : Redis)
    (pre : List LimiterCall) (last : LimiterCall) (hf : r0.faults = [])
    (habs : ∀ e ∈ r0.entries, e.key ≠ K) (hkey : last.key = some K)
    (hwin : withinOneWindow K (pre ++ [last]) = true)
    (hb : callsFor K (pre ++ [last]) < 2 ^ 63) :
    ((storeAfter rl r0 pre).Incr last.ctx.now K).1 =
        some (callsFor K (pre ++ [last]) : Int) ∧
      (storeAfter rl r0 (pre ++ [last])).faults = [] ∧
      ∃ d, armedDeadline K (pre ++ [last]) = some d ∧
        (storeAfter rl r0 (pre ++ [last])).slot K =
          [{ key := K, value := (callsFor K (pre ++ [last]) : Int), deadline := some d }] := by
  have hs0 : r0.slot K = [] := by
    unfold Redis.slot
    rw [List.filter_eq_nil_iff]
    intro e he
    simpa using habs e he
  have hk : last.isFor K = true := by
    unfold LimiterCall.isFor
    simp [hkey]
  have hc := callsFor_append_one K pre last hk
  have hall := storeAfter_absent rl K (pre ++ [last]) r0 hf hs0 hwin hb
  have hpre := storeAfter_absent rl K pre r0 hf hs0 (withinOneWindow_init K pre [last] hwin)
    (by omega)
  refine ⟨?_, hall.1, ?_⟩
  · rcases hpre.2 with ⟨h0, -, hs⟩ | ⟨d, hd, h1, hs⟩
    · have hl : (storeAfter rl r0 pre).live last.ctx.now K = none := by
        rw [live_eq_slot, hs]
        rfl
      rw [(Incr_of_dead _ last.ctx.now K hpre.1 hl).1, hc, h0]
      rfl
    · have hnow : last.ctx.now < d :=
        (withinOneWindow_iff K (pre ++ [last])).mp hwin d
          (armedDeadline_append K pre [last] d hd) last (by simp) hk
      rw [(run_later rl last (storeAfter rl r0 pre) K (callsFor K pre) d hpre.1 hkey hs h1 hnow
        (by omega)).1, hc]
  · rcases hall.2 with ⟨h0, -, -⟩ | ⟨d, hd, -, hs⟩
    · omega
    · exact ⟨d, hd, hs⟩


/-! ## Fixed-window threshold -/

/-- C11, as stated, fails for a limit below 1: with the limit 0 the first call for an
address is made at instant 0 and arms the window of one minute; the next call for the
same address, two minutes later, finds the key expired and observes the count 1, and it
is rejected with 429. -/
theorem C11_counterexample :
    (sampleCall 0 0).key = some "rate_limit:10.0.0.1" ∧
      armedDeadline "rate_limit:10.0.0.1" [sampleCall 0 0] = some Minute ∧
      ((storeAfter sampleRateLimiter emptyStore [sampleCall 0 0]).Incr (2 * Minute)
        "rate_limit:10.0.0.1").1 = some 1 ∧
      ((sampleCall 0 (2 * Minute)).run sampleRateLimiter
        (storeAfter sampleRateLimiter emptyStore [sampleCall 0 0])).status = 429 ∧
      ((sampleCall 0 (2 * Minute)).run sampleRateLimiter
        (storeAfter sampleRateLimiter emptyStore [sampleCall 0 0])).aborted = true := by
  refine ⟨by decide, by decide, by decide, by decide, by decide⟩

/-- C11 (amended): take a store without faults that does not hold the key `K`, and a
sequence of limiter calls (of either limiter, for any keys) within one window of `K`
whose last call is for `K` and is the `n`-th call for `K`, with `n` below `2 ^ 63`. The
increment of that call returns `n`; the call is admitted iff `n` is at most its limit and
is rejected with 429 and the body `rate limit exceeded` iff `n` exceeds its limit; it
sets the time to live of the key to its window exactly when `n = 1`. A call for `K` made
at or after the expiry instant observes the count 1, sets the time to live again, and
is admitted iff its limit is at least 1. -/
theorem C11_fixed_window (rl : RateLimiter) (K : String) (r0 : Redis)
    (pre : List LimiterCall) (last next : LimiterCall) (d : Nat)
    (hf : r0.faults = []) (habs : ∀ e ∈ r0.entries, e.key ≠ K)
    (hkey : last.key = some K) (hfresh : last.ctx.Fresh)
    (hwin : withinOneWindow K (pre ++ [last]) = true)
    (hb : callsFor K (pre ++ [last]) < 2 ^ 63)
    (hkey2 : next.key = some K) (hfresh2 : next.ctx.Fresh)
    (hd : armedDeadline K (pre ++ [last]) = some d) (hexp : d ≤ next.ctx.now) :
    ((storeAfter rl r0 pre).Incr last.ctx.now K).1 =
        some (callsFor K (pre ++ [last]) : Int) ∧
      ((last.run rl (storeAfter rl r0 pre)).aborted = false ↔
        (callsFor K (pre ++ [last]) : Int) ≤ last.limit) ∧
      ((last.run rl (storeAfter rl r0 pre)).status = 429 ↔
        last.limit < (callsFor K (pre ++ [last]) : Int)) ∧
      (last.limit < (callsFor K (pre ++ [last]) : Int) →
        (last.run rl (storeAfter rl r0 pre)).aborted = true ∧
        (last.run rl (storeAfter rl r0 pre)).respBody = errorJSON "rate limit exceeded") ∧
      (last.run rl (storeAfter rl r0 pre)).trace =
        last.ctx.trace ++ Event.redisIncr K ::
          (if callsFor K (pre ++ [last]) = 1 then [Event.redisExpire K last.window]
          else []) ∧
      ((storeAfter rl r0 (pre ++ [last])).Incr next.ctx.now K).1 = some 1 ∧
      ((next.run rl (storeAfter rl r0 (pre ++ [last]))).aborted = false ↔
        1 ≤ next.limit) ∧
      ((next.run rl (storeAfter rl r0 (pre ++ [last]))).status = 429 ↔ next.limit < 1) ∧
      (next.run rl (storeAfter rl r0 (pre ++ [last]))).trace =
        next.ctx.trace ++ [Event.redisIncr K, Event.redisExpire K next.window] := by
  obtain ⟨hcount, hf2, d2, hd2, hs2⟩ := last_call_count rl K r0 pre last hf habs hkey hwin hb
  have hout := checkCounter_outcome K last.limit last.window
    { last.ctx with redis := storeAfter rl r0 pre } (callsFor K (pre ++ [last]) : Int)
    hfresh hcount
  rw [← run_of_key rl last (storeAfter rl r0 pre) K hkey] at hout
  have hdd : d2 = d := Option.some.inj (hd2.symm.trans hd)
  have hl : (storeAfter rl r0 (pre ++ [last])).live next.ctx.now K = none := by
    rw [live_eq_slot, hs2, hdd]
    have : ¬ next.ctx.now < d := not_lt.mpr hexp
    simp [this]
  have hcount2 := (Incr_of_dead (storeAfter rl r0 (pre ++ [last])) next.ctx.now K hf2 hl).1
  have hout2 := checkCounter_outcome K next.limit next.window
    { next.ctx with redis := storeAfter rl r0 (pre ++ [last]) } 1 hfresh2 hcount2
  rw [← run_of_key rl next (storeAfter rl r0 (pre ++ [last])) K hkey2] at hout2
  refine ⟨hcount, hout.1, hout.2.1, hout.2.2.1, ?_, hcount2, hout2.1, hout2.2.1, ?_⟩
  · rw [hout.2.2.2]
    by_cases h1 : callsFor K (pre ++ [last]) = 1
    · simp [h1]
    · have h2 : ¬ ((callsFor K (pre ++ [last]) : Int) = 1) := by omega
      simp [h1, h2]
  · rw [hout2.2.2.2]
    simp

/-- C11 (amended) with the limit 2 and the window of one minute: the third call for the
sample address within the window is rejected with 429, and a call after the expiry
instant is admitted. -/
theorem C11_fixed_window_witness :
    ((sampleCall 2 2).run sampleRateLimiter
        (storeAfter sampleRateLimiter emptyStore [sampleCall 2 0, sampleCall 2 1])).status =
        429 ∧
      ((sampleCall 2 (2 * Minute)).run sampleRateLimiter
        (storeAfter sampleRateLimiter emptyStore
          ([sampleCall 2 0, sampleCall 2 1] ++ [sampleCall 2 2]))).aborted = false :=
  have h := C11_fixed_window sampleRateLimiter "rate_limit:10.0.0.1" emptyStore
    [sampleCall 2 0, sampleCall 2 1] (sampleCall 2 2) (sampleCall 2 (2 * Minute)) Minute
    rfl (by decide) (by decide) ⟨rfl, rfl, rfl, rfl⟩ (by decide) (by decide) (by decide)
    ⟨rfl, rfl, rfl, rfl⟩ (by decide) (by decide)
  ⟨h.2.2.1.mpr (by decide), h.2.2.2.2.2.2.1.mpr (by decide)⟩

/-! ## Count held in the store -/

/-- C12, as stated, fails: with the limit 1, three calls for the sample address at the
same instant leave the count 3 in the store, above `limit + 1 = 2`; the second and the
third call are rejected and both are counted. -/
theorem C12_counterexample :
    withinOneWindow "rate_limit:10.0.0.1"
        [sampleCall 1 0, sampleCall 1 0, sampleCall 1 0] = true ∧
      (storeAfter sampleRateLimiter emptyStore
        [sampleCall 1 0, sampleCall 1 0, sampleCall 1 0]).count 0 "rate_limit:10.0.0.1" = 3 ∧
      ((sampleCall 1 0).run sampleRateLimiter
        (storeAfter sampleRateLimiter emptyStore [sampleCall 1 0])).status = 429 ∧
      ((sampleCall 1 0).run sampleRateLimiter
        (storeAfter sampleRateLimiter emptyStore [sampleCall 1 0, sampleCall 1 0])).status =
        429 := by
  refine ⟨by decide, by decide, by decide, by decide⟩

/-- C12 (amended): take a store without faults that does not hold the key `K`, and a
sequence of limiter calls within one window of `K` whose last call is for `K`, with fewer
than `2 ^ 63` calls for `K`. Before the expiry instant the count held for `K` equals the
number of calls made for `K`, rejected calls included. The count is at most the limit
of the last call when that call was admitted; when the last call is call number
`limit + 1` it is rejected with 429 and the count is `limit + 1`. -/
theorem C12_count_invariant (rl : RateLimiter) (K : String) (r0 : Redis)
    (pre : List LimiterCall) (last : LimiterCall) (d t : Nat)
    (hf : r0.faults = []) (habs : ∀ e ∈ r0.entries, e.key ≠ K)
    (hkey : last.key = some K) (hfresh : last.ctx.Fresh)
    (hwin : withinOneWindow K (pre ++ [last]) = true)
    (hb : callsFor K (pre ++ [last]) < 2 ^ 63)
    (hd : armedDeadline K (pre ++ [last]) = some d) (ht : t < d) :
    (storeAfter rl r0 (pre ++ [last])).count t K = (callsFor K (pre ++ [last]) : Int) ∧
      ((last.run rl (storeAfter rl r0 pre)).aborted = false →
        (storeAfter rl r0 (pre ++ [last])).count t K ≤ last.limit) ∧
      ((callsFor K (pre ++ [last]) : Int) = last.limit + 1 →
        (last.run rl (storeAfter rl r0 pre)).status = 429 ∧
        (last.run rl (storeAfter rl r0 pre)).aborted = true ∧
        (storeAfter rl r0 (pre ++ [last])).count t K = last.limit + 1) := by
  obtain ⟨hcount, -, d2, hd2, hs2⟩ := last_call_count rl K r0 pre last hf habs hkey hwin hb
  have hout := checkCounter_outcome K last.limit last.window
    { last.ctx with redis := storeAfter rl r0 pre } (callsFor K (pre ++ [last]) : Int)
    hfresh hcount
  rw [← run_of_key rl last (storeAfter rl r0 pre) K hkey] at hout
  have hdd : d2 = d := Option.some.inj (hd2.symm.trans hd)
  have hc : (storeAfter rl r0 (pre ++ [last])).count t K =
      (callsFor K (pre ++ [last]) : Int) := by
    unfold Redis.count
    rw [live_eq_slot, hs2, hdd]
    simp [ht]
  refine ⟨hc, ?_, ?_⟩
  · intro ha
    rw [hc]
    exact hout.1.mp ha
  · intro hn
    have hlt : last.limit < (callsFor K (pre ++ [last]) : Int) := by omega
    exact ⟨hout.2.1.mpr hlt, (hout.2.2.1 hlt).1, hc.trans hn⟩

/-- C12 (amended) with the limit 2: after three calls for the sample address within the
window the store holds the count 3, and the third call was rejected with 429. -/
theorem C12_count_invariant_witness :
    (storeAfter sampleRateLimiter emptyStore
        ([sampleCall 2 0, sampleCall 2 1] ++ [sampleCall 2 2])).count 3
        "rate_limit:10.0.0.1" = 3 ∧
      ((sampleCall 2 2).run sampleRateLimiter
        (storeAfter sampleRateLimiter emptyStore [sampleCall 2 0, sampleCall 2 1])).status =
        429 :=
  have h := C12_count_invariant sampleRateLimiter "rate_limit:10.0.0.1" emptyStore
    [sampleCall 2 0, sampleCall 2 1] (sampleCall 2 2) Minute 3
    rfl (by decide) (by decide) ⟨rfl, rfl, rfl, rfl⟩ (by decide) (by decide) (by decide)
    (by decide)
  ⟨h.1, (h.2.2 (by decide)).1⟩


/-! ## Metrics labels -/

/-- The table of `getStatusCategory` over all integers. -/
theorem getStatusCategory_table (s : Int) :
    (s < 100 → getStatusCategory s = "unknown") ∧
      (100 ≤ s → s ≤ 199 → getStatusCategory s = "informational") ∧
      (200 ≤ s → s ≤ 299 → getStatusCategory s = "success") ∧
      (300 ≤ s → s ≤ 399 → getStatusCategory s = "redirect") ∧
      (400 ≤ s → s ≤ 499 → getStatusCategory s = "client_error") ∧
      (500 ≤ s → getStatusCategory s = "server_error") := by
  unfold getStatusCategory
  refine ⟨?_, ?_, ?_, ?_, ?_, ?_⟩ <;> intros <;> split_ifs <;> first | rfl | omega

/-- From 400 on, `getErrorType` and `getStatusCategory` give the same label. -/
theorem getErrorType_eq (s : Int) (h : 400 ≤ s) : getErrorType s = getStatusCategory s := by
  unfold getErrorType getStatusCategory
  split_ifs <;> rfl

/-- The trace that `MetricsMiddleware` leaves: the trace of the rest of the chain followed
by its own records. -/
theorem MetricsMiddleware_trace (service : String) (next : Context → Context) (c : Context) :
    (MetricsMiddleware service next c).trace =
      (next c).trace ++
        [ Event.counterInc "http_requests_total"
            [service, (next c).request.method,
              if c.fullPath = "" then "undefined" else c.fullPath, toString (next c).status],
          Event.observe "http_request_duration_seconds"
            [service, (next c).request.method,
              if c.fullPath = "" then "undefined" else c.fullPath] ((next c).now - c.now),
          Event.counterInc "http_requests_by_method_total" [service, (next c).request.method],
          Event.counterInc "http_requests_by_status_total"
            [service, getStatusCategory (next c).status] ] ++
        (if (next c).status ≥ 400 then
          [Event.counterInc "http_request_errors_total"
            [service, getErrorType (next c).status]]
        else []) := rfl

/-- C21: for every status code `s`, `getStatusCategory s` is `informational` for 100-199,
`success` for 200-299, `redirect` for 300-399, `client_error` for 400-499, `server_error`
from 500 on and `unknown` below 100, and from 400 on `getErrorType s` is the same label.
`MetricsMiddleware` adds to the trace of the rest of the chain, for the final status `s`
of the response writer, exactly one increment of the status-category counter, with the
label `getStatusCategory s`, and an increment of the error counter exactly when
`s ≥ 400`, with the label `getErrorType s = getStatusCategory s`. -/
theorem C21_metrics_labels (service : String) (next : Context → Context) (c : Context)
    (s : Int) :
    ((s < 100 → getStatusCategory s = "unknown") ∧
      (100 ≤ s → s ≤ 199 → getStatusCategory s = "informational") ∧
      (200 ≤ s → s ≤ 299 → getStatusCategory s = "success") ∧
      (300 ≤ s → s ≤ 399 → getStatusCategory s = "redirect") ∧
      (400 ≤ s → s ≤ 499 → getStatusCategory s = "client_error") ∧
      (500 ≤ s → getStatusCategory s = "server_error") ∧
      (400 ≤ s → getErrorType s = getStatusCategory s)) ∧
    (∃ added : List Event,
      (MetricsMiddleware service next c).trace = (next c).trace ++ added ∧
      (MetricsMiddleware service next c).status = (next c).status ∧
      (∀ labels, added.count (Event.counterInc "http_requests_by_status_total" labels) =
        if labels = [service, getStatusCategory (next c).status] then 1 else 0) ∧
      (∀ labels, added.count (Event.counterInc "http_request_errors_total" labels) =
        if (next c).status ≥ 400 ∧ labels = [service, getStatusCategory (next c).status]
        then 1 else 0)) := by
  obtain ⟨h1, h2, h3, h4, h5, h6⟩ := getStatusCategory_table s
  refine ⟨⟨h1, h2, h3, h4, h5, h6, getErrorType_eq s⟩, ?_⟩
  refine ⟨_, by rw [MetricsMiddleware_trace, List.append_assoc], rfl, ?_, ?_⟩
  · intro labels
    by_cases hl : labels = [service, getStatusCategory (next c).status]
    · subst hl
      by_cases h400 : (next c).status ≥ 400 <;> simp [h400, List.count_cons]
    · have hl2 : ¬ [service, getStatusCategory (next c).status] = labels := fun e => hl e.symm
      by_cases h400 : (next c).status ≥ 400 <;> simp [h400, hl, hl2, List.count_cons]
  · intro labels
    by_cases h400 : (next c).status ≥ 400
    · have hi : (400 : Int) ≤ ((next c).status : Int) := by exact_mod_cast h400
      rw [getErrorType_eq _ hi]
      by_cases hl : labels = [service, getStatusCategory (next c).status]
      · subst hl
        simp [h400, List.count_cons]
      · have hl2 : ¬ [service, getStatusCategory (next c).status] = labels :=
          fun e => hl e.symm
        simp [h400, hl, hl2, List.count_cons]
    · simp [h400, List.count_cons]

/-- C21 for the sample gateway: a forwarded request ends with status 200 and is counted
under `success` with no error increment; a request that the proxy answers with 404 is
counted under `client_error` in both counters. -/
theorem C21_metrics_labels_witness :
    getStatusCategory 200 = "success" ∧ getStatusCategory 404 = "client_error" ∧
      getErrorType 404 = "client_error" ∧
      (MetricsMiddleware "api-gateway" (sampleProxy.HandleRequest sampleNet)
        (sampleContext "/api/v1/nothing" [])).trace.count
          (Event.counterInc "http_request_errors_total" ["api-gateway", "client_error"]) = 1 :=
  have h := C21_metrics_labels "api-gateway" (sampleProxy.HandleRequest sampleNet)
    (sampleContext "/api/v1/nothing" []) 404
  ⟨by decide, h.1.2.2.2.2.1 (by decide) (by decide), (h.1.2.2.2.2.2.2 (by decide)).trans
    (h.1.2.2.2.2.1 (by decide) (by decide)), by decide⟩

/-! ## Configuration -/

/-- The value of a variable, or the default when the variable is unset or empty. -/
theorem getEnvOrDefault_eq (env : Environ) (key dflt : String) :
    getEnvOrDefault env key dflt = if env key = "" then dflt else env key := by
  unfold getEnvOrDefault
  by_cases h : env key = "" <;> simp [h]

/-- C22, as stated, fails for the signing secret and the counter-store address: in the
environment that sets nothing `config.New` returns the error of `validate` for
`JWT_SECRET`, and with only `JWT_SECRET` missing it does too, so the defaults
`your-secret-key` and `redis://localhost:6379` are never the fields of a configuration
that `New` returns. -/
theorem C22_counterexample :
    Config.New emptyEnv =
        Except.error "required environment variable JWT_SECRET is not set" ∧
      Config.New sparseEnv =
        Except.error "required environment variable JWT_SECRET is not set" ∧
      Config.New (fun name => if name = "JWT_SECRET" then "topsecret" else "") =
        Except.error "required environment variable REDIS_URL is not set" := by
  refine ⟨by rfl, by rfl, by rfl⟩

/-- C22 (amended): `config.New` succeeds exactly when `JWT_SECRET` and `REDIS_URL` are
both set to a non-empty value; otherwise it returns the error naming the first of the two
that is missing. When it succeeds, the secret and the counter-store address are the
values of their variables, and the listen port and each of the eight service base URLs
hold the value of their variable when it is non-empty and their default (`8080`,
`http://localhost:8081` to `http://localhost:8088`) when it is unset or empty. -/
theorem C22_config_defaults (env : Environ) :
    (env "JWT_SECRET" = "" →
      Config.New env = Except.error "required environment variable JWT_SECRET is not set") ∧
    (env "JWT_SECRET" ≠ "" → env "REDIS_URL" = "" →
      Config.New env = Except.error "required environment variable REDIS_URL is not set") ∧
    (env "JWT_SECRET" ≠ "" → env "REDIS_URL" ≠ "" →
      Config.New env = Except.ok
        { Port := if env "PORT" = "" then "8080" else env "PORT"
          JWTSecret := env "JWT_SECRET"
          RedisURL := env "REDIS_URL"
          AuthServiceURL :=
            if env "AUTH_SERVICE_URL" = "" then "http://localhost:8081"
            else env "AUTH_SERVICE_URL"
          BusinessServiceURL :=
            if env "BUSINESS_SERVICE_URL" = "" then "http://localhost:8082"
            else env "BUSINESS_SERVICE_URL"
          InventoryServiceURL :=
            if env "INVENTORY_SERVICE_URL" = "" then "http://localhost:8083"
            else env "INVENTORY_SERVICE_URL"
          TransactionServiceURL :=
            if env "TRANSACTION_SERVICE_URL" = "" then "http://localhost:8084"
            else env "TRANSACTION_SERVICE_URL"
          FileServiceURL :=
            if env "FILE_SERVICE_URL" = "" then "http://localhost:8085"
            else env "FILE_SERVICE_URL"
          MenuServiceURL :=
            if env "MENU_SERVICE_URL" = "" then "http://localhost:8086"
            else env "MENU_SERVICE_URL"
          OrderServiceURL :=
            if env "ORDER_SERVICE_URL" = "" then "http://localhost:8087"
            else env "ORDER_SERVICE_URL"
          TableServiceURL :=
            if env "TABLE_SERVICE_URL" = "" then "http://localhost:8088"
            else env "TABLE_SERVICE_URL" }) := by
  refine ⟨?_, ?_, ?_⟩
  · intro h
    unfold Config.New Config.validate
    simp [h]
  · intro h1 h2
    unfold Config.New Config.validate
    simp [h1, h2]
  · intro h1 h2
    unfold Config.New Config.validate
    simp only [getEnvOrDefault_eq, h1, h2, if_false]
    simp [h1, h2]

/-- C22 (amended) for the sample environment, which sets the secret and the counter-store
address and nothing else: the port and the order backend hold their defaults. -/
theorem C22_config_defaults_witness :
    ∃ cfg, Config.New sampleEnv = Except.ok cfg ∧ cfg.JWTSecret = "topsecret" ∧
      cfg.RedisURL = "redis://localhost:6379" ∧ cfg.Port = "8080" ∧
      cfg.OrderServiceURL = "http://localhost:8087" :=
  ⟨_, (C22_config_defaults sampleEnv).2.2 (by decide) (by decide), by decide, by decide,
    by decide, by decide⟩

/-! ## Errors of the counter store -/

/-- When the increment returns 1 and the limit is at least 1, the common part of the
limiters hands the request to the rest of the chain whatever the outcome of the expire
it issued: the flag `(… .Expire …).1` is not read. -/
theorem checkCounter_admits_first (key : String) (limit : Int) (window : Nat)
    (next : Context → Context) (c : Context) (h : (c.redis.Incr c.now key).1 = some 1)
    (hl : 1 ≤ limit) :
    checkCounter key limit window next c =
      next { c with
        redis := ((c.redis.Incr c.now key).2.Expire c.now key window).2
        trace := c.trace ++ [Event.redisIncr key, Event.redisExpire key window] } := by
  rw [checkCounter_incr_ok key limit window next c 1 h]
  have hgt : ¬ (1 : Int) > limit := not_lt.mpr hl
  rw [if_neg hgt]
  rfl

/-- C23, evaluated: on a store whose `INCR` succeeds and whose `EXPIRE` then fails, both
limiters admit the request (no abort, status 200, empty body, the rest of the chain
runs) although the expire they issued has failed; the key is left with the count 1 and
no time to live, so the count is still held a day later. -/
theorem C23_expire_error_swallowed :
    (sampleExpireFailure.redis.Incr sampleExpireFailure.now "rate_limit:10.0.0.1").1 =
        some 1 ∧
      ((sampleExpireFailure.redis.Incr sampleExpireFailure.now "rate_limit:10.0.0.1").2.Expire
        sampleExpireFailure.now "rate_limit:10.0.0.1" Minute).1 = false ∧
      (sampleRateLimiter.RateLimit 100 Minute id sampleExpireFailure).aborted = false ∧
      (sampleRateLimiter.RateLimit 100 Minute id sampleExpireFailure).status = 200 ∧
      (sampleRateLimiter.RateLimit 100 Minute id sampleExpireFailure).respBody = "" ∧
      (sampleRateLimiter.RateLimit 100 Minute id sampleExpireFailure).trace =
        [Event.redisIncr "rate_limit:10.0.0.1",
          Event.redisExpire "rate_limit:10.0.0.1" Minute] ∧
      (sampleRateLimiter.RateLimit 100 Minute id sampleExpireFailure).redis.entries =
        [{ key := "rate_limit:10.0.0.1", value := 1, deadline := none }] ∧
      (sampleRateLimiter.RateLimit 100 Minute id sampleExpireFailure).redis.count (24 * Hour)
        "rate_limit:10.0.0.1" = 1 ∧
      (sampleRateLimiter.UserRateLimit 1000 Minute id sampleExpireFailure).aborted = false ∧
      (sampleRateLimiter.UserRateLimit 1000 Minute id sampleExpireFailure).status = 200 ∧
      (sampleRateLimiter.UserRateLimit 1000 Minute id sampleExpireFailure).redis.entries =
        [{ key := "user_rate_limit:u-1", value := 1, deadline := none }] := by
  refine ⟨by decide, by decide, by decide, by decide, by decide, by decide, by decide,
    by decide, by decide, by decide, by decide⟩

/-! ## Format of the header value -/

theorem splitOnSpaceAux_ne_nil (s cur : List Char) : splitOnSpaceAux s cur ≠ [] := by
  induction s generalizing cur with
  | nil => simp [splitOnSpaceAux]
  | cons a rest ih =>
    by_cases ha : a = ' '
    · simp [splitOnSpaceAux, ha]
    · simp [splitOnSpaceAux, ha, ih]

/-- A split with one part: the text holds no space. -/
theorem splitOnSpaceAux_singleton (s cur : List Char) (x : String)
    (h : splitOnSpaceAux s cur = [x]) : ' ' ∉ s ∧ x = String.mk (cur.reverse ++ s) := by
  induction s generalizing cur with
  | nil =>
    simp [splitOnSpaceAux] at h
    exact ⟨by simp, by simp [h]⟩
  | cons a rest ih =>
    by_cases ha : a = ' '
    · simp only [splitOnSpaceAux, ha, if_true] at h
      have h2 : splitOnSpaceAux rest [] = [] := (List.cons.inj h).2
      exact absurd h2 (splitOnSpaceAux_ne_nil rest [])
    · simp only [splitOnSpaceAux, ha, if_false] at h
      obtain ⟨h1, h2⟩ := ih (a :: cur) h
      refine ⟨?_, ?_⟩
      · intro hm
        rcases List.mem_cons.mp hm with e | e
        · exact ha e.symm
        · exact h1 e
      · simpa using h2

/-- A split with two parts: the text holds exactly one space, between the parts. -/
theorem splitOnSpaceAux_pair (s cur : List Char) (a b : String)
    (h : splitOnSpaceAux s cur = [a, b]) :
    ∃ pre post : List Char, s = pre ++ ' ' :: post ∧ ' ' ∉ pre ∧ ' ' ∉ post ∧
      a = String.mk (cur.reverse ++ pre) ∧ b = String.mk post := by
  induction s generalizing cur with
  | nil => simp [splitOnSpaceAux] at h
  | cons x rest ih =>
    by_cases hx : x = ' '
    · simp only [splitOnSpaceAux, hx, if_true] at h
      obtain ⟨h1, h2⟩ := List.cons.inj h
      obtain ⟨h3, h4⟩ := splitOnSpaceAux_singleton rest [] b h2
      exact ⟨[], rest, by simp [hx], by simp, h3, by simp [← h1], by simpa using h4⟩
    · simp only [splitOnSpaceAux, hx, if_false] at h
      obtain ⟨pre, post, h1, h2, h3, h4, h5⟩ := ih (x :: cur) h
      refine ⟨x :: pre, post, by simp [h1], ?_, h3, by simpa using h4, h5⟩
      intro hm
      rcases List.mem_cons.mp hm with e | e
      · exact hx e.symm
      · exact h2 e

/-- The format check of the gates, as a condition on the header text: splitting on single
spaces gives two parts with the first one `Bearer` exactly when the text is `Bearer `
followed by a string without a space. -/
theorem format_check_iff (h : String) :
    ((SplitOnSpace h).length = 2 ∧ (SplitOnSpace h).head? = some "Bearer") ↔
      ∃ t : String, h = "Bearer " ++ t ∧ ' ' ∉ t.data := by
  constructor
  · rintro ⟨hlen, hhead⟩
    obtain ⟨a, b, hab⟩ : ∃ a b, SplitOnSpace h = [a, b] := by
      match hs : SplitOnSpace h, hlen with
      | [a, b], _ => exact ⟨a, b, rfl⟩
    rw [hab] at hhead
    have ha : a = "Bearer" := by simpa using hhead
    unfold SplitOnSpace at hab
    obtain ⟨pre, post, h1, -, h3, h4, h5⟩ := splitOnSpaceAux_pair h.data [] a b hab
    refine ⟨b, ?_, by rw [h5]; exact h3⟩
    have hpre : pre = "Bearer".data := by
      rw [ha] at h4
      have := congrArg String.data h4
      simpa using this.symm
    apply String.ext
    rw [h1, String.data_append, hpre, h5]
    rfl
  · rintro ⟨t, rfl, ht⟩
    rw [SplitOnSpace_bearer t ht]
    exact ⟨rfl, rfl⟩

/-- The gate on a header value with the two parts `Bearer` and `t`: the validator is
called for `t` and decides. -/
theorem Authenticate_of_format (codec : JWTCodec) (m : AuthMiddleware)
    (next : Context → Context) (c : Context) (t : String)
    (hpub : ∀ e ∈ authPublicEndpoints, HasPrefix c.request.path e = false)
    (hfmt : SplitOnSpace (c.request.header.Get "Authorization") = ["Bearer", t]) :
    m.Authenticate codec next c =
      match jwtParse codec t m.jwtSecret c.now with
      | Except.error _ =>
        rejection
          { c with trace := c.trace ++ [Event.getHeader "Authorization", Event.jwtParse t] }
          401 "invalid token"
      | Except.ok token =>
        next (((({ c with trace := c.trace ++
            [Event.getHeader "Authorization", Event.jwtParse t] } : Context).Set "userID"
            (token.payload.index "user_id")).Set "businessID"
            (token.payload.index "business_id")).Set "userRole"
            (token.payload.index "role")) := by
  have hany := any_eq_false_of_forall authPublicEndpoints c.request.path hpub
  have hne : c.request.header.Get "Authorization" ≠ "" := by
    intro e
    have h0 : SplitOnSpace "" = [""] := by decide
    rw [e, h0] at hfmt
    simp at hfmt
  unfold AuthMiddleware.Authenticate AuthMiddleware.validateToken rejection
  simp only [hany, Context.GetHeader, hne, if_false, Bool.false_eq_true, hfmt]
  cases hp : jwtParse codec t m.jwtSecret c.now <;> simp [hp]

/-- The gate on a non-empty header value that fails the format check. -/
theorem Authenticate_bad_format (codec : JWTCodec) (m : AuthMiddleware)
    (next : Context → Context) (c : Context)
    (hpub : ∀ e ∈ authPublicEndpoints, HasPrefix c.request.path e = false)
    (hne : c.request.header.Get "Authorization" ≠ "")
    (hbad : ¬ ((SplitOnSpace (c.request.header.Get "Authorization")).length = 2 ∧
      (SplitOnSpace (c.request.header.Get "Authorization")).head? = some "Bearer")) :
    m.Authenticate codec next c =
      rejection { c with trace := c.trace ++ [Event.getHeader "Authorization"] } 401
        "invalid authorization header format" := by
  have hany := any_eq_false_of_forall authPublicEndpoints c.request.path hpub
  have hf : (SplitOnSpace (c.request.header.Get "Authorization")).length ≠ 2 ∨
      (SplitOnSpace (c.request.header.Get "Authorization")).head? ≠ some "Bearer" := by
    by_cases hl : (SplitOnSpace (c.request.header.Get "Authorization")).length = 2
    · exact Or.inr (fun hh => hbad ⟨hl, hh⟩)
    · exact Or.inl hl
  unfold AuthMiddleware.Authenticate rejection
  simp only [hany, Context.GetHeader, hne, if_false, Bool.false_eq_true]
  rw [if_pos hf]

theorem Set_trace (c : Context) (key : String) (value : JValue) :
    (c.Set key value).trace = c.trace := rfl

/-- C24: on a path that matches no allow-list prefix, with a non-empty `Authorization`
value `h` and a response writer not yet used, the gate calls the token validator
(gets past the format check) exactly when `h` is `Bearer ` followed by a string `t`
without a space, which is exactly when splitting `h` on single spaces gives two parts
with the first one equal to `Bearer`; the validator is then called for `t` and its
outcome decides. For every other `h` the gate answers 401 with body
`{"error":"invalid authorization header format"}` and aborts, whatever the rest of the
chain is, and the validator is not called. -/
theorem C24_format_check (codec : JWTCodec) (m : AuthMiddleware) (next : Context → Context)
    (c : Context)
    (hpub : ∀ e ∈ authPublicEndpoints, HasPrefix c.request.path e = false)
    (hne : c.request.header.Get "Authorization" ≠ "")
    (hw : c.written = false) (hb : c.respBody = "") :
    (((SplitOnSpace (c.request.header.Get "Authorization")).length = 2 ∧
        (SplitOnSpace (c.request.header.Get "Authorization")).head? = some "Bearer") ↔
      ∃ t : String, c.request.header.Get "Authorization" = "Bearer " ++ t ∧ ' ' ∉ t.data) ∧
    ((∃ t, Event.jwtParse t ∈ (m.Authenticate codec id c).trace.drop c.trace.length) ↔
      ∃ t : String, c.request.header.Get "Authorization" = "Bearer " ++ t ∧ ' ' ∉ t.data) ∧
    (∀ t : String, c.request.header.Get "Authorization" = "Bearer " ++ t → ' ' ∉ t.data →
      m.Authenticate codec next c =
        match jwtParse codec t m.jwtSecret c.now with
        | Except.error _ =>
          rejection
            { c with trace := c.trace ++ [Event.getHeader "Authorization", Event.jwtParse t] }
            401 "invalid token"
        | Except.ok token =>
          next (((({ c with trace := c.trace ++
              [Event.getHeader "Authorization", Event.jwtParse t] } : Context).Set "userID"
              (token.payload.index "user_id")).Set "businessID"
              (token.payload.index "business_id")).Set "userRole"
              (token.payload.index "role"))) ∧
    ((¬ ∃ t : String, c.request.header.Get "Authorization" = "Bearer " ++ t ∧
        ' ' ∉ t.data) →
      m.Authenticate codec next c = m.Authenticate codec id c ∧
      (m.Authenticate codec next c).status = 401 ∧
      (m.Authenticate codec next c).respBody =
        "\x7b\"error\":\"invalid authorization header format\"\x7d" ∧
      (m.Authenticate codec next c).aborted = true ∧
      (m.Authenticate codec next c).trace =
        c.trace ++ [Event.getHeader "Authorization"]) := by
  have hiff := format_check_iff (c.request.header.Get "Authorization")
  have hgood : ∀ (nx : Context → Context) (t : String),
      c.request.header.Get "Authorization" = "Bearer " ++ t → ' ' ∉ t.data →
      m.Authenticate codec nx c =
        match jwtParse codec t m.jwtSecret c.now with
        | Except.error _ =>
          rejection
            { c with trace := c.trace ++ [Event.getHeader "Authorization", Event.jwtParse t] }
            401 "invalid token"
        | Except.ok token =>
          nx (((({ c with trace := c.trace ++
              [Event.getHeader "Authorization", Event.jwtParse t] } : Context).Set "userID"
              (token.payload.index "user_id")).Set "businessID"
              (token.payload.index "business_id")).Set "userRole"
              (token.payload.index "role")) := by
    intro nx t ht hsp
    exact Authenticate_of_format codec m nx c t hpub (by rw [ht, SplitOnSpace_bearer t hsp])
  have hbad : ∀ nx : Context → Context,
      (¬ ∃ t : String, c.request.header.Get "Authorization" = "Bearer " ++ t ∧
        ' ' ∉ t.data) →
      m.Authenticate codec nx c =
        rejection { c with trace := c.trace ++ [Event.getHeader "Authorization"] } 401
          "invalid authorization header format" := by
    intro nx hno
    exact Authenticate_bad_format codec m nx c hpub hne (fun h => hno (hiff.mp h))
  refine ⟨hiff, ?_, hgood next, ?_⟩
  · constructor
    · rintro ⟨t, ht⟩
      by_contra hno
      rw [hbad id hno, rejection_trace] at ht
      simp at ht
    · rintro ⟨t, ht, hsp⟩
      refine ⟨t, ?_⟩
      rw [hgood id t ht hsp]
      cases jwtParse codec t m.jwtSecret c.now with
      | error e =>
        simp only [rejection_trace]
        simp
      | ok token =>
        simp only [id, Set_trace]
        simp
  · intro hno
    have hf := rejection_facts
      { c with trace := c.trace ++ [Event.getHeader "Authorization"] } 401
      "invalid authorization header format" hw hb (by decide) (by decide)
    rw [hbad next hno]
    exact ⟨(hbad id hno).symm, hf.1, hf.2.1, hf.2.2.1, hf.2.2.2.1⟩

/-- C24 on the sample route: the value `Token abc` fails the format check and is
answered with 401 `invalid authorization header format`. -/
theorem C24_format_check_witness :
    ((NewAuthMiddleware "topsecret").Authenticate sampleCodec id
        (sampleContextAt "/api/v1/orders/1" [("Authorization", ["Token abc"])])).status = 401 ∧
      ((NewAuthMiddleware "topsecret").Authenticate sampleCodec id
        (sampleContextAt "/api/v1/orders/1" [("Authorization", ["Token abc"])])).respBody =
        "\x7b\"error\":\"invalid authorization header format\"\x7d" :=
  have h := C24_format_check sampleCodec (NewAuthMiddleware "topsecret") id
    (sampleContextAt "/api/v1/orders/1" [("Authorization", ["Token abc"])])
    (by decide) (by decide) rfl rfl
  have hno : ¬ ∃ t : String,
      (sampleContextAt "/api/v1/orders/1"
        [("Authorization", ["Token abc"])]).request.header.Get "Authorization" =
          "Bearer " ++ t ∧ ' ' ∉ t.data := fun hex => by
    have := h.1.mpr hex
    revert this
    decide
  ⟨(h.2.2.2 hno).2.1, (h.2.2.2 hno).2.2.1⟩

/-! ## Order of the prefix rules -/

/-- Two rules that list a common prefix are the same rule. -/
theorem rules_disjoint (p : Proxy) :
    ∀ r1 ∈ p.rules, ∀ r2 ∈ p.rules, ∀ a, a ∈ r1.1 → a ∈ r2.1 → r1 = r2 := by
  intro r1 h1 r2 h2 a ha1 ha2
  simp only [Proxy.rules, List.mem_cons, List.mem_singleton, List.not_mem_nil, or_false]
    at h1 h2
  rcases h1 with rfl | rfl | rfl | rfl | rfl | rfl | rfl | rfl <;>
    rcases h2 with rfl | rfl | rfl | rfl | rfl | rfl | rfl | rfl <;>
    first
    | rfl
    | (exfalso
       simp only [List.mem_cons, List.mem_singleton, List.not_mem_nil, or_false] at ha1 ha2
       rcases ha1 with rfl | rfl | rfl <;> revert ha2 <;> decide)

/-- The prefixes listed by the rules are configured prefixes. -/
theorem rules_prefixes (p : Proxy) : ∀ r ∈ p.rules, ∀ a ∈ r.1, a ∈ routePrefixes := by
  intro r h a ha
  simp only [Proxy.rules, List.mem_cons, List.mem_singleton, List.not_mem_nil, or_false] at h
  rcases h with rfl | rfl | rfl | rfl | rfl | rfl | rfl | rfl <;>
    simp only [List.mem_cons, List.mem_singleton, List.not_mem_nil, or_false] at ha <;>
    (rcases ha with rfl | rfl | rfl <;> decide)

/-- At most one rule matches a path. -/
theorem rules_match_unique (p : Proxy) (r : String) :
    ∀ r1 ∈ p.rules, ∀ r2 ∈ p.rules, ruleMatches r r1 = true → ruleMatches r r2 = true →
      r1 = r2 := by
  intro r1 h1 r2 h2 hm1 hm2
  unfold ruleMatches at hm1 hm2
  rw [List.any_eq_true] at hm1 hm2
  obtain ⟨a, ha, hpa⟩ := hm1
  obtain ⟨b, hb, hpb⟩ := hm2
  have hab : b = a := by
    by_contra hne
    have := HasPrefix_unique r a hpa (rules_prefixes p r1 h1 a ha) b
      (rules_prefixes p r2 h2 b hb) hne
    rw [this] at hpb
    exact absurd hpb (by decide)
  subst hab
  exact rules_disjoint p r1 h1 r2 h2 b ha hb

/-- The first match of a scan does not depend on the order of a list in which at most
one element matches. -/
theorem find_perm_of_unique {α : Type} (q : α → Bool) (l l2 : List α) (hperm : l2.Perm l)
    (huniq : ∀ a ∈ l, ∀ b ∈ l, q a = true → q b = true → a = b) :
    l2.find? q = l.find? q := by
  cases hl : l.find? q with
  | none =>
    rw [List.find?_eq_none] at hl ⊢
    intro x hx
    exact hl x (hperm.mem_iff.mp hx)
  | some a =>
    have ha : q a = true := List.find?_some hl
    have hmem : a ∈ l := List.mem_of_find?_eq_some hl
    cases hl2 : l2.find? q with
    | none =>
      rw [List.find?_eq_none] at hl2
      exact absurd ha (hl2 a (hperm.mem_iff.mpr hmem))
    | some b =>
      have hb : q b = true := List.find?_some hl2
      have hmem2 : b ∈ l := hperm.mem_iff.mp (List.mem_of_find?_eq_some hl2)
      rw [huniq b hmem2 a hmem hb ha]

/-- C26: the twelve configured prefixes are pairwise incomparable, so a path starts with
at most one of them and at most one rule of the `switch` of `HandleRequest` matches it;
scanning the eight rules in any order gives the target that `HandleRequest` resolves. -/
theorem C26_order_independent (p : Proxy) (r : String) :
    routePrefixes.length = 12 ∧
    (∀ a ∈ routePrefixes, ∀ b ∈ routePrefixes, a ≠ b →
      HasPrefix a b = false ∧ HasPrefix b a = false) ∧
    (∀ a ∈ routePrefixes, ∀ b ∈ routePrefixes, HasPrefix r a = true → HasPrefix r b = true →
      a = b) ∧
    (∀ r1 ∈ p.rules, ∀ r2 ∈ p.rules, ruleMatches r r1 = true → ruleMatches r r2 = true →
      r1 = r2) ∧
    (∀ rules : List (List String × String), rules.Perm p.rules →
      resolveFirstMatch rules r = p.targetURL r) := by
  refine ⟨rfl, ?_, ?_, rules_match_unique p r, ?_⟩
  · intro a ha b hb hne
    exact ⟨routePrefixes_incomparable a ha b hb hne,
      routePrefixes_incomparable b hb a ha (fun e => hne e.symm)⟩
  · intro a ha b hb hpa hpb
    by_contra hne
    have := HasPrefix_unique r a hpa ha b hb (fun e => hne e.symm)
    rw [this] at hpb
    exact absurd hpb (by decide)
  · intro rules hperm
    rw [targetURL_eq_firstMatch]
    unfold resolveFirstMatch
    rw [find_perm_of_unique (ruleMatches r) p.rules rules hperm (rules_match_unique p r)]

/-- C26 for the sample proxy with the rules in reverse order: `/orders/42` still resolves
to the order backend. -/
theorem C26_order_independent_witness :
    resolveFirstMatch sampleProxy.rules.reverse "/orders/42" =
      some "http://localhost:8087" :=
  ((C26_order_independent sampleProxy "/orders/42").2.2.2.2 sampleProxy.rules.reverse
    (List.reverse_perm _)).trans (by decide)

/-! ## Metrics and the gates before them -/

theorem MetricsMiddleware_eq (service : String) (next : Context → Context) (c : Context) :
    MetricsMiddleware service next c =
      { next c with trace := (next c).trace ++ recordedMetrics service c (next c) } := by
  unfold MetricsMiddleware recordedMetrics
  simp only [List.append_assoc]

theorem LoggerMiddleware_eq (next : Context → Context) (c : Context) :
    LoggerMiddleware next c =
      { next c with trace := (next c).trace ++ [accessLogLine c (next c)] } := rfl

theorem metricRecords_recorded (service : String) (c out : Context) :
    metricRecords (recordedMetrics service c out) = recordedMetrics service c out := by
  unfold recordedMetrics
  by_cases h : out.status ≥ 400 <;> simp [metricRecords, h]

/-- `HandleRequest` writes no metric record. -/
theorem HandleRequest_metrics (net : Net) (p : Proxy) (c : Context) :
    metricRecords (p.HandleRequest net c).trace = metricRecords c.trace := by
  unfold Proxy.HandleRequest
  simp only
  cases p.targetURL (TrimPrefix c.request.path "/api/v1") with
  | none =>
    simp only
    rw [JSON_trace]
    simp [metricRecords_append, metricRecords]
  | some u =>
    simp only
    unfold forwardTo
    cases net.urlParse (u ++ TrimPrefix c.request.path "/api/v1") with
    | none =>
      simp only
      rw [JSON_trace]
      simp [metricRecords_append, metricRecords]
    | some target =>
      simp only
      unfold proxyRequest
      cases c.request.body with
      | none =>
        simp only
        rw [JSON_trace]
      | some body =>
        simp only
        cases net.newRequestURL c.request.method (net.urlString target) with
        | none =>
          simp only
          rw [JSON_trace]
        | some v =>
          simp only
          split
          · rw [JSON_trace]
            simp [metricRecords_append, metricRecords]
          · rw [DataFromReader_trace, WriteHeader_trace]
            simp [metricRecords_append, metricRecords]

theorem metricRecords_enter (t : List Event) (stage : Stage) :
    metricRecords (t ++ [Event.enter stage]) = metricRecords t := by
  simp [metricRecords_append, metricRecords]

/-- The handlers before `MetricsMiddleware`, with the rest of the chain `tail`: either
both gates hand the request on, and the rest of the chain runs on a context `c4` with the
response writer and the metric records of `c`; or one of them rejects, and the outcome
does not depend on `tail`, carries 401, 429 or 500 and holds no new metric record. -/
theorem gateChain_cases (app : App) (c : Context) (hw : c.written = false)
    (hb : c.respBody = "") :
    (∃ c4 : Context, c4.aborted = c.aborted ∧ c4.now = c.now ∧ c4.fullPath = c.fullPath ∧
        metricRecords c4.trace = metricRecords c.trace ∧
        ∀ tail, runChain (app.gateChain ++ tail) c =
          { runChain tail c4 with
            trace := (runChain tail c4).trace ++
              [accessLogLine
                { c with
                  respHeader := app.corsHeaders.foldl
                    (fun acc kv => Header.SetValues acc kv.1 [kv.2]) c.respHeader
                  trace := c.trace ++ [Event.enter Stage.cors] ++
                    [Event.enter Stage.accessLog] }
                (runChain tail c4)] }) ∨
      (∃ out : Context, (∀ tail, runChain (app.gateChain ++ tail) c = out) ∧
        out.aborted = true ∧ (out.status = 401 ∨ out.status = 429 ∨ out.status = 500) ∧
        metricRecords out.trace = metricRecords c.trace) := by
  have hexp : ∀ tail, runChain (app.gateChain ++ tail) c =
      LoggerMiddleware
        (fun c2 => app.authMiddleware.Authenticate app.codec
          (fun c3 => addressRateLimit app.rateLimiter (runChain tail)
            { c3 with trace := c3.trace ++ [Event.enter Stage.addressLimit] })
          { c2 with trace := c2.trace ++ [Event.enter Stage.authGate] })
        { c with
          respHeader := app.corsHeaders.foldl
            (fun acc kv => Header.SetValues acc kv.1 [kv.2]) c.respHeader
          trace := c.trace ++ [Event.enter Stage.cors] ++ [Event.enter Stage.accessLog] } :=
    fun tail => rfl
  obtain ⟨c0, hs0, h0⟩ := Authenticate_isGate app.codec app.authMiddleware
    { c with
      respHeader := app.corsHeaders.foldl
        (fun acc kv => Header.SetValues acc kv.1 [kv.2]) c.respHeader
      trace := c.trace ++ [Event.enter Stage.cors] ++ [Event.enter Stage.accessLog] ++
        [Event.enter Stage.authGate] }
  have hm0 : metricRecords c0.trace = metricRecords c.trace := by
    rw [hs0.metrics]
    simp [metricRecords_append, metricRecords]
  rcases h0 with h0 | ⟨status, msg, hmem, h0⟩
  · obtain ⟨c1, hs1, h1⟩ := addressRateLimit_isGate app.rateLimiter
      { c0 with trace := c0.trace ++ [Event.enter Stage.addressLimit] }
    have hm1 : metricRecords c1.trace = metricRecords c.trace := by
      rw [hs1.metrics]
      simp only [metricRecords_enter]
      exact hm0
    rcases h1 with h1 | ⟨status, msg, hmem, h1⟩
    · left
      refine ⟨c1, hs1.aborted.trans hs0.aborted, hs1.now.trans hs0.now,
        hs1.fullPath.trans hs0.fullPath, hm1, ?_⟩
      intro tail
      rw [hexp tail, LoggerMiddleware_eq]
      simp only [h0, h1]
    · right
      have hf := rejection_facts c1 status msg
        (hs1.written.trans (hs0.written.trans hw))
        (hs1.respBody.trans (hs0.respBody.trans hb))
        (by
          simp only [addressRejections, List.mem_cons, List.mem_singleton, List.not_mem_nil,
            or_false, Prod.mk.injEq] at hmem
          rcases hmem with ⟨e, -⟩ | ⟨e, -⟩ <;> rw [e] <;> decide)
        (by
          simp only [addressRejections, List.mem_cons, List.mem_singleton, List.not_mem_nil,
            or_false, Prod.mk.injEq] at hmem
          rcases hmem with ⟨e, -⟩ | ⟨e, -⟩ <;> rw [e] <;> decide)
      refine ⟨LoggerMiddleware (fun _ => rejection c1 status msg)
          { c with
            respHeader := app.corsHeaders.foldl
              (fun acc kv => Header.SetValues acc kv.1 [kv.2]) c.respHeader
            trace := c.trace ++ [Event.enter Stage.cors] ++ [Event.enter Stage.accessLog] },
        fun tail => ?_, ?_, ?_, ?_⟩
      · rw [hexp tail, LoggerMiddleware_eq, LoggerMiddleware_eq]
        simp only [h0, h1]
      · exact hf.2.2.1
      · have hst : ∀ x : Context,
            (LoggerMiddleware (fun _ => rejection c1 status msg) x).status = status :=
          fun _ => hf.1
        rw [hst]
        simp only [addressRejections, List.mem_cons, List.mem_singleton, List.not_mem_nil,
          or_false, Prod.mk.injEq] at hmem
        rcases hmem with ⟨e, -⟩ | ⟨e, -⟩
        · exact Or.inr (Or.inr e)
        · exact Or.inr (Or.inl e)
      · show metricRecords ((rejection c1 status msg).trace ++ _) = _
        rw [rejection_trace, metricRecords_append, hm1]
        simp [metricRecords, accessLogLine]
  · right
    have hf := rejection_facts c0 status msg (hs0.written.trans hw) (hs0.respBody.trans hb)
      (by
        simp only [authRejections, List.mem_cons, List.mem_singleton, List.not_mem_nil,
          or_false, Prod.mk.injEq] at hmem
        rcases hmem with ⟨e, -⟩ | ⟨e, -⟩ | ⟨e, -⟩ <;> rw [e] <;> decide)
      (by
        simp only [authRejections, List.mem_cons, List.mem_singleton, List.not_mem_nil,
          or_false, Prod.mk.injEq] at hmem
        rcases hmem with ⟨e, -⟩ | ⟨e, -⟩ | ⟨e, -⟩ <;> rw [e] <;> decide)
    refine ⟨LoggerMiddleware (fun _ => rejection c0 status msg)
        { c with
            respHeader := app.corsHeaders.foldl
              (fun acc kv => Header.SetValues acc kv.1 [kv.2]) c.respHeader
            trace := c.trace ++ [Event.enter Stage.cors] ++ [Event.enter Stage.accessLog] },
      fun tail => ?_, ?_, ?_, ?_⟩
    · rw [hexp tail, LoggerMiddleware_eq, LoggerMiddleware_eq]
      simp only [h0]
    · exact hf.2.2.1
    · have hst : ∀ x : Context,
          (LoggerMiddleware (fun _ => rejection c0 status msg) x).status = status :=
        fun _ => hf.1
      rw [hst]
      simp only [authRejections, List.mem_cons, List.mem_singleton, List.not_mem_nil,
        or_false, Prod.mk.injEq] at hmem
      rcases hmem with ⟨e, -⟩ | ⟨e, -⟩ | ⟨e, -⟩ <;> exact Or.inl e
    · show metricRecords ((rejection c0 status msg).trace ++ _) = _
      rw [rejection_trace, metricRecords_append, hm0]
      simp [metricRecords, accessLogLine]

theorem recordedMetrics_congr (service : String) (c c2 out out2 : Context)
    (h1 : c2.fullPath = c.fullPath) (h2 : c2.now = c.now) (h3 : out2.status = out.status)
    (h4 : out2.request = out.request) (h5 : out2.now = out.now) :
    recordedMetrics service c2 out2 = recordedMetrics service c out := by
  unfold recordedMetrics
  rw [h1, h2, h3, h4, h5]

/-- The handlers after `MetricsMiddleware` write no metric record: the identity-scope
limiter and the proxy on the protected routes, the proxy on the public ones. -/
theorem afterMetrics_quiet (app : App) (c : Context) :
    metricRecords (runChain (app.protectedTail.drop 1) c).trace = metricRecords c.trace ∧
      metricRecords (runChain (app.publicTail.drop 1) c).trace = metricRecords c.trace := by
  constructor
  · have hexp : runChain (app.protectedTail.drop 1) c =
        app.rateLimiter.UserRateLimit 1000 (1 * Minute)
          (fun c2 => app.proxy.HandleRequest app.net
            { c2 with trace := c2.trace ++ [Event.enter Stage.proxy] })
          { c with trace := c.trace ++ [Event.enter Stage.identityLimit] } := rfl
    obtain ⟨c0, hs0, h0⟩ := UserRateLimit_isGate app.rateLimiter 1000 (1 * Minute)
      { c with trace := c.trace ++ [Event.enter Stage.identityLimit] }
    have hm0 : metricRecords c0.trace = metricRecords c.trace := by
      rw [hs0.metrics]
      exact metricRecords_enter c.trace _
    rw [hexp]
    rcases h0 with h0 | ⟨status, msg, -, h0⟩
    · rw [h0, HandleRequest_metrics]
      exact (metricRecords_enter c0.trace _).trans hm0
    · rw [h0, rejection_trace]
      exact hm0
  · have hexp : runChain (app.publicTail.drop 1) c =
        app.proxy.HandleRequest app.net
          { c with trace := c.trace ++ [Event.enter Stage.proxy] } := rfl
    rw [hexp, HandleRequest_metrics]
    exact metricRecords_enter c.trace _

/-- From `MetricsMiddleware` on, the chain adds to the metric records exactly the records
of `MetricsMiddleware`, written for the status that the rest of the chain left. -/
theorem tail_metrics (app : App) (c : Context) :
    metricRecords (runChain app.protectedTail c).trace =
        metricRecords c.trace ++
          recordedMetrics "api-gateway" c (runChain app.protectedTail c) ∧
      metricRecords (runChain app.publicTail c).trace =
        metricRecords c.trace ++
          recordedMetrics "api-gateway" c (runChain app.publicTail c) := by
  constructor
  · have hexp : runChain app.protectedTail c =
        MetricsMiddleware "api-gateway" (runChain (app.protectedTail.drop 1))
          { c with trace := c.trace ++ [Event.enter Stage.metrics] } := rfl
    rw [hexp, MetricsMiddleware_eq]
    show metricRecords (_ ++ _) = _
    rw [metricRecords_append, metricRecords_recorded, (afterMetrics_quiet app _).1]
    simp only [metricRecords_enter]
    rfl
  · have hexp : runChain app.publicTail c =
        MetricsMiddleware "api-gateway" (runChain (app.publicTail.drop 1))
          { c with trace := c.trace ++ [Event.enter Stage.metrics] } := rfl
    rw [hexp, MetricsMiddleware_eq]
    show metricRecords (_ ++ _) = _
    rw [metricRecords_append, metricRecords_recorded, (afterMetrics_quiet app _).2]
    simp only [metricRecords_enter]
    rfl

/-- C27: take a request that reaches the chain with a response writer not yet used. If
the authentication gate or the address-scope limiter rejects it (the handlers registered
before `MetricsMiddleware`, run on their own, end with the abort flag), then the whole
chain of a protected or public route gives exactly that outcome, with status 401, 429 or
500: `MetricsMiddleware` is not reached and the trace holds no new metric record. If both
hand the request on, the chain adds exactly the records of `MetricsMiddleware`, written
for the final status of the response, whether the identity-scope limiter rejected the
request or the proxy answered it. The handlers before `MetricsMiddleware` end with the
abort flag exactly when the gate rejects the context it is called with, or hands on a
context that the address-scope limiter rejects. -/
theorem C27_metrics_after_gates (app : App) (c : Context) (ha : c.aborted = false)
    (hw : c.written = false) (hb : c.respBody = "") :
    ((runChain app.gateChain c).aborted = true →
      runChain app.protectedChain c = runChain app.gateChain c ∧
      runChain app.publicChain c = runChain app.gateChain c ∧
      ((runChain app.gateChain c).status = 401 ∨ (runChain app.gateChain c).status = 429 ∨
        (runChain app.gateChain c).status = 500) ∧
      metricRecords (runChain app.gateChain c).trace = metricRecords c.trace) ∧
    ((runChain app.gateChain c).aborted = false →
      metricRecords (runChain app.protectedChain c).trace =
        metricRecords c.trace ++
          recordedMetrics "api-gateway" c (runChain app.protectedChain c) ∧
      metricRecords (runChain app.publicChain c).trace =
        metricRecords c.trace ++
          recordedMetrics "api-gateway" c (runChain app.publicChain c)) ∧
    ((runChain app.gateChain c).aborted = true ↔
      (app.authMiddleware.Authenticate app.codec id
        { c with
          respHeader := app.corsHeaders.foldl
            (fun acc kv => Header.SetValues acc kv.1 [kv.2]) c.respHeader
          trace := c.trace ++ [Event.enter Stage.cors] ++ [Event.enter Stage.accessLog] ++
            [Event.enter Stage.authGate] }).aborted = true ∨
      (addressRateLimit app.rateLimiter id
        { app.authMiddleware.Authenticate app.codec id
            { c with
              respHeader := app.corsHeaders.foldl
                (fun acc kv => Header.SetValues acc kv.1 [kv.2]) c.respHeader
              trace := c.trace ++ [Event.enter Stage.cors] ++ [Event.enter Stage.accessLog] ++
                [Event.enter Stage.authGate] } with
          trace := (app.authMiddleware.Authenticate app.codec id
            { c with
              respHeader := app.corsHeaders.foldl
                (fun acc kv => Header.SetValues acc kv.1 [kv.2]) c.respHeader
              trace := c.trace ++ [Event.enter Stage.cors] ++ [Event.enter Stage.accessLog] ++
                [Event.enter Stage.authGate] }).trace ++
            [Event.enter Stage.addressLimit] }).aborted = true) := by
  have hprot : app.protectedChain = app.gateChain ++ app.protectedTail := rfl
  have hpub : app.publicChain = app.gateChain ++ app.publicTail := rfl
  have hnil : runChain app.gateChain c = runChain (app.gateChain ++ []) c := by
    rw [List.append_nil]
  refine ⟨?_, ?_, ?_⟩
  · intro hab
    rcases gateChain_cases app c hw hb with ⟨c4, ha4, -, -, -, h4⟩ | ⟨out, hout, -, hst, hm⟩
    · exfalso
      rw [hnil, h4 []] at hab
      have : c4.aborted = true := hab
      rw [ha4, ha] at this
      exact absurd this (by decide)
    · rw [hprot, hpub, hnil, hout, hout, hout]
      exact ⟨rfl, rfl, hst, hm⟩
  · intro hab
    rcases gateChain_cases app c hw hb with ⟨c4, -, hn4, hf4, hm4, h4⟩ | ⟨out, hout, ha2, -, -⟩
    · have ht := tail_metrics app c4
      constructor
      · rw [hprot, h4]
        show metricRecords ((runChain app.protectedTail c4).trace ++ _) = _
        rw [metricRecords_append, ht.1, hm4]
        have : metricRecords [accessLogLine
            { c with
              respHeader := app.corsHeaders.foldl
                (fun acc kv => Header.SetValues acc kv.1 [kv.2]) c.respHeader
              trace := c.trace ++ [Event.enter Stage.cors] ++ [Event.enter Stage.accessLog] }
            (runChain app.protectedTail c4)] = [] := rfl
        rw [this, List.append_nil]
        congr 1
        exact recordedMetrics_congr "api-gateway" c c4 _ _ hf4 hn4 rfl rfl rfl
      · rw [hpub, h4]
        show metricRecords ((runChain app.publicTail c4).trace ++ _) = _
        rw [metricRecords_append, ht.2, hm4]
        have : metricRecords [accessLogLine
            { c with
              respHeader := app.corsHeaders.foldl
                (fun acc kv => Header.SetValues acc kv.1 [kv.2]) c.respHeader
              trace := c.trace ++ [Event.enter Stage.cors] ++ [Event.enter Stage.accessLog] }
            (runChain app.publicTail c4)] = [] := rfl
        rw [this, List.append_nil]
        congr 1
        exact recordedMetrics_congr "api-gateway" c c4 _ _ hf4 hn4 rfl rfl rfl
    · exfalso
      rw [hnil, hout, ha2] at hab
      exact absurd hab (by decide)
  · have hexp : (runChain app.gateChain c).aborted =
        (app.authMiddleware.Authenticate app.codec
          (fun c3 => addressRateLimit app.rateLimiter id
            { c3 with trace := c3.trace ++ [Event.enter Stage.addressLimit] })
          { c with
            respHeader := app.corsHeaders.foldl
              (fun acc kv => Header.SetValues acc kv.1 [kv.2]) c.respHeader
            trace := c.trace ++ [Event.enter Stage.cors] ++ [Event.enter Stage.accessLog] ++
              [Event.enter Stage.authGate] }).aborted := rfl
    rw [hexp]
    obtain ⟨c0, hs0, h0⟩ := Authenticate_isGate app.codec app.authMiddleware
      { c with
        respHeader := app.corsHeaders.foldl
          (fun acc kv => Header.SetValues acc kv.1 [kv.2]) c.respHeader
        trace := c.trace ++ [Event.enter Stage.cors] ++ [Event.enter Stage.accessLog] ++
          [Event.enter Stage.authGate] }
    rcases h0 with h0 | ⟨status, msg, -, h0⟩
    · rw [h0, h0 id]
      have hc0 : c0.aborted = false := hs0.aborted.trans ha
      constructor
      · intro h
        exact Or.inr h
      · rintro (h | h)
        · rw [show (id c0).aborted = c0.aborted from rfl, hc0] at h
          exact absurd h (by decide)
        · exact h
    · rw [h0, h0 id]
      exact ⟨fun h => Or.inl h, fun _ => rejection_aborted c0 status msg⟩

/-- C27 for the sample gateway: a request without an `Authorization` header on a
protected route is rejected by the gate with 401 and leaves no metric record; the request
with the sample access token is forwarded and recorded with its final status 200. -/
theorem C27_metrics_after_gates_witness :
    (runChain sampleApp.protectedChain (sampleContextAt "/api/v1/orders/1" [])).status = 401 ∧
      metricRecords (runChain sampleApp.protectedChain
        (sampleContextAt "/api/v1/orders/1" [])).trace = [] ∧
      (runChain sampleApp.protectedChain sampleProtectedRequest).status = 200 ∧
      metricRecords (runChain sampleApp.protectedChain sampleProtectedRequest).trace =
        metricRecords sampleProtectedRequest.trace ++
          recordedMetrics "api-gateway" sampleProtectedRequest
            (runChain sampleApp.protectedChain sampleProtectedRequest) :=
  have h1 := (C27_metrics_after_gates sampleApp (sampleContextAt "/api/v1/orders/1" [])
    rfl rfl rfl).1 (by decide)
  have h2 := (C27_metrics_after_gates sampleApp sampleProtectedRequest rfl rfl rfl).2.1
    (by decide)
  ⟨by decide, (congrArg (fun x => metricRecords x.trace) h1.1).trans h1.2.2.2, by decide,
    h2.1⟩

/-! ## Shape of a run of a chain -/

theorem stagesEntered_recorded (service : String) (c out : Context) :
    stagesEntered (recordedMetrics service c out) = [] := by
  unfold recordedMetrics
  by_cases h : out.status ≥ 400 <;> simp [stagesEntered, h]

theorem upstreamRequests_recorded (service : String) (c out : Context) :
    upstreamRequests (recordedMetrics service c out) = [] := by
  unfold recordedMetrics
  by_cases h : out.status ≥ 400 <;> simp [upstreamRequests, h]

theorem stagesEntered_enter (t : List Event) (stage : Stage) :
    stagesEntered (t ++ [Event.enter stage]) = stagesEntered t ++ [stage] := by
  simp [stagesEntered_append, stagesEntered]

/-- The handlers before `MetricsMiddleware`, with the rest of the chain `tail`: either
both gates hand the request on, four handlers have been entered and the rest of the chain
runs on a context `c4`; or the gate rejects after three handlers, or the address-scope
limiter after four, and the outcome does not depend on `tail`. -/
theorem gateChain_shape (app : App) (c : Context) :
    (∃ c4 : Context, c4.aborted = c.aborted ∧ c4.now = c.now ∧ c4.fullPath = c.fullPath ∧
        metricRecords c4.trace = metricRecords c.trace ∧
        stagesEntered c4.trace =
          stagesEntered c.trace ++
            [Stage.cors, Stage.accessLog, Stage.authGate, Stage.addressLimit] ∧
        ∀ tail, runChain (app.gateChain ++ tail) c =
          { runChain tail c4 with
            trace := (runChain tail c4).trace ++ [accessLogLine c (runChain tail c4)] }) ∨
      (∃ (out : Context) (k : Nat), (k = 3 ∨ k = 4) ∧
        (∀ tail, runChain (app.gateChain ++ tail) c = out) ∧ out.aborted = true ∧
        metricRecords out.trace = metricRecords c.trace ∧
        stagesEntered out.trace =
          stagesEntered c.trace ++
            [Stage.cors, Stage.accessLog, Stage.authGate, Stage.addressLimit].take k) := by
  have hexp : ∀ tail, runChain (app.gateChain ++ tail) c =
      LoggerMiddleware
        (fun c2 => app.authMiddleware.Authenticate app.codec
          (fun c3 => addressRateLimit app.rateLimiter (runChain tail)
            { c3 with trace := c3.trace ++ [Event.enter Stage.addressLimit] })
          { c2 with trace := c2.trace ++ [Event.enter Stage.authGate] })
        { c with
          respHeader := app.corsHeaders.foldl
            (fun acc kv => Header.SetValues acc kv.1 [kv.2]) c.respHeader
          trace := c.trace ++ [Event.enter Stage.cors] ++ [Event.enter Stage.accessLog] } :=
    fun tail => rfl
  obtain ⟨c0, hs0, h0⟩ := Authenticate_isGate app.codec app.authMiddleware
    { c with
      respHeader := app.corsHeaders.foldl
        (fun acc kv => Header.SetValues acc kv.1 [kv.2]) c.respHeader
      trace := c.trace ++ [Event.enter Stage.cors] ++ [Event.enter Stage.accessLog] ++
        [Event.enter Stage.authGate] }
  have hm0 : metricRecords c0.trace = metricRecords c.trace := by
    rw [hs0.metrics]
    simp [metricRecords_append, metricRecords]
  have hst0 : stagesEntered c0.trace =
      stagesEntered c.trace ++ [Stage.cors, Stage.accessLog, Stage.authGate] := by
    rw [hs0.stages]
    simp [stagesEntered_append, stagesEntered]
  rcases h0 with h0 | ⟨status, msg, -, h0⟩
  · obtain ⟨c1, hs1, h1⟩ := addressRateLimit_isGate app.rateLimiter
      { c0 with trace := c0.trace ++ [Event.enter Stage.addressLimit] }
    have hm1 : metricRecords c1.trace = metricRecords c.trace := by
      rw [hs1.metrics]
      simp only [metricRecords_enter]
      exact hm0
    have hst1 : stagesEntered c1.trace =
        stagesEntered c.trace ++
          [Stage.cors, Stage.accessLog, Stage.authGate, Stage.addressLimit] := by
      rw [hs1.stages]
      simp only [stagesEntered_enter, hst0]
      simp
    rcases h1 with h1 | ⟨status, msg, -, h1⟩
    · left
      refine ⟨c1, hs1.aborted.trans hs0.aborted, hs1.now.trans hs0.now,
        hs1.fullPath.trans hs0.fullPath, hm1, hst1, ?_⟩
      intro tail
      rw [hexp tail, LoggerMiddleware_eq]
      simp only [h0, h1]
      rfl
    · right
      refine ⟨LoggerMiddleware (fun _ => rejection c1 status msg)
          { c with
            respHeader := app.corsHeaders.foldl
              (fun acc kv => Header.SetValues acc kv.1 [kv.2]) c.respHeader
            trace := c.trace ++ [Event.enter Stage.cors] ++ [Event.enter Stage.accessLog] },
        4, Or.inr rfl, fun tail => ?_, rejection_aborted c1 status msg, ?_, ?_⟩
      · rw [hexp tail, LoggerMiddleware_eq, LoggerMiddleware_eq]
        simp only [h0, h1]
      · show metricRecords ((rejection c1 status msg).trace ++ _) = _
        rw [rejection_trace, metricRecords_append, hm1]
        simp [metricRecords, accessLogLine]
      · show stagesEntered ((rejection c1 status msg).trace ++ _) = _
        rw [rejection_trace, stagesEntered_append, hst1]
        simp [stagesEntered, accessLogLine]
  · right
    refine ⟨LoggerMiddleware (fun _ => rejection c0 status msg)
        { c with
          respHeader := app.corsHeaders.foldl
            (fun acc kv => Header.SetValues acc kv.1 [kv.2]) c.respHeader
          trace := c.trace ++ [Event.enter Stage.cors] ++ [Event.enter Stage.accessLog] },
      3, Or.inl rfl, fun tail => ?_, rejection_aborted c0 status msg, ?_, ?_⟩
    · rw [hexp tail, LoggerMiddleware_eq, LoggerMiddleware_eq]
      simp only [h0]
    · show metricRecords ((rejection c0 status msg).trace ++ _) = _
      rw [rejection_trace, metricRecords_append, hm0]
      simp [metricRecords, accessLogLine]
    · show stagesEntered ((rejection c0 status msg).trace ++ _) = _
      rw [rejection_trace, stagesEntered_append, hst0]
      simp [stagesEntered, accessLogLine]

theorem routeTail_nil : RouteTail [] := by
  intro c
  exact ⟨0, le_refl 0, fun h => absurd rfl h, by simp [runChain], fun h => absurd h (by simp),
    fun _ => rfl, rfl⟩

/-- A route handler that does not call the rest of the chain, enters no handler, leaves
the abort flag alone and writes no metric record. -/
theorem routeTail_of_terminal (stage : Stage) (last : HandlerFunc) (ht : Terminal last)
    (hq : ∀ next c, metricRecords (last next c).trace = metricRecords c.trace) :
    RouteTail [(stage, last)] := by
  intro c
  obtain ⟨run, hrun, hframe⟩ := ht
  have hexp : runChain [(stage, last)] c =
      last (runChain []) { c with trace := c.trace ++ [Event.enter stage] } := rfl
  refine ⟨1, le_refl 1, fun _ => le_refl 1, ?_, fun h => absurd h (by simp), fun _ => ?_, ?_⟩
  · rw [hexp, hrun, (hframe _).1]
    exact stagesEntered_enter c.trace stage
  · rw [hexp, hrun, (hframe _).2]
  · rw [hexp, hq]
    exact metricRecords_enter c.trace stage

theorem routeTail_public (app : App) : RouteTail (app.publicTail.drop 1) :=
  routeTail_of_terminal Stage.proxy app.proxyHandler (proxyHandler_terminal app)
    (fun _ c => HandleRequest_metrics app.net app.proxy c)

theorem JSON_stagesEntered (c : Context) (code : Nat) (body : String) :
    stagesEntered (c.JSON code body).trace = stagesEntered c.trace := by
  rw [JSON_trace]

theorem routeTail_health (app : App) : RouteTail (app.healthChain.drop 5) :=
  routeTail_of_terminal Stage.health (fun _ c => c.JSON 200 "\x7b\"status\":\"ok\"\x7d")
    ⟨fun c => c.JSON 200 "\x7b\"status\":\"ok\"\x7d", fun _ _ => rfl,
      fun c => ⟨JSON_stagesEntered c _ _, JSON_aborted c _ _⟩⟩
    (fun _ c => by rw [JSON_trace])

theorem routeTail_protected (app : App) : RouteTail (app.protectedTail.drop 1) := by
  intro c
  have hexp : runChain (app.protectedTail.drop 1) c =
      app.rateLimiter.UserRateLimit 1000 (1 * Minute)
        (fun c2 => app.proxy.HandleRequest app.net
          { c2 with trace := c2.trace ++ [Event.enter Stage.proxy] })
        { c with trace := c.trace ++ [Event.enter Stage.identityLimit] } := rfl
  have hlen : (app.protectedTail.drop 1).length = 2 := rfl
  have hmap : (app.protectedTail.drop 1).map Prod.fst = [Stage.identityLimit, Stage.proxy] :=
    rfl
  obtain ⟨c0, hs0, h0⟩ := UserRateLimit_isGate app.rateLimiter 1000 (1 * Minute)
    { c with trace := c.trace ++ [Event.enter Stage.identityLimit] }
  have hst0 : stagesEntered c0.trace = stagesEntered c.trace ++ [Stage.identityLimit] := by
    rw [hs0.stages]
    exact stagesEntered_enter c.trace _
  rw [hlen, hmap, hexp]
  rcases h0 with h0 | ⟨status, msg, -, h0⟩
  · refine ⟨2, le_refl 2, fun _ => by omega, ?_, fun h => absurd h (by omega), fun _ => ?_,
      (afterMetrics_quiet app c).1⟩
    · rw [h0, (HandleRequest_frame app.net app.proxy _).1]
      show stagesEntered (c0.trace ++ [Event.enter Stage.proxy]) = _
      rw [stagesEntered_enter, hst0]
      simp
    · rw [h0, (HandleRequest_frame app.net app.proxy _).2]
      exact hs0.aborted
  · refine ⟨1, by omega, fun _ => le_refl 1, ?_, fun _ => ?_, fun h => absurd h (by omega),
      (afterMetrics_quiet app c).1⟩
    · rw [h0, rejection_trace, hst0]
      rfl
    · rw [h0]
      exact rejection_aborted c0 status msg

/-- The shape of a run of the global handlers followed by the handlers `rest` of a
route. -/
theorem globalChain_shape (app : App) (rest : List (Stage × HandlerFunc))
    (hrest : RouteTail rest) (c : Context) :
    ChainShape
      ([Stage.cors, Stage.accessLog, Stage.authGate, Stage.addressLimit, Stage.metrics] ++
        rest.map Prod.fst)
      c (runChain (app.globalChain ++ rest) c) := by
  have hsplit : app.globalChain ++ rest =
      app.gateChain ++ ((Stage.metrics, MetricsMiddleware "api-gateway") :: rest) := rfl
  rw [hsplit]
  rcases gateChain_shape app c with ⟨c4, ha4, hn4, hf4, hm4, hst4, h4⟩ |
    ⟨out, k, hk, hout, haout, hmout, hstout⟩
  · obtain ⟨j, hj1, hj0, hjs, hja, hjf, hjm⟩ :=
      hrest { c4 with trace := c4.trace ++ [Event.enter Stage.metrics] }
    have hrun : runChain ((Stage.metrics, MetricsMiddleware "api-gateway") :: rest) c4 =
        { runChain rest { c4 with trace := c4.trace ++ [Event.enter Stage.metrics] } with
          trace :=
            (runChain rest { c4 with trace := c4.trace ++ [Event.enter Stage.metrics] }).trace ++
              recordedMetrics "api-gateway" c
                (runChain rest
                  { c4 with trace := c4.trace ++ [Event.enter Stage.metrics] }) } := by
      have hc : ∀ out : Context,
          recordedMetrics "api-gateway"
            { c4 with trace := c4.trace ++ [Event.enter Stage.metrics] } out =
          recordedMetrics "api-gateway" c out :=
        fun out => recordedMetrics_congr "api-gateway" c
          { c4 with trace := c4.trace ++ [Event.enter Stage.metrics] } out out hf4 hn4 rfl rfl rfl
      rw [runChain_cons, MetricsMiddleware_eq, hc]
    have htrace : (runChain (app.gateChain ++
          ((Stage.metrics, MetricsMiddleware "api-gateway") :: rest)) c).trace =
        (runChain rest { c4 with trace := c4.trace ++ [Event.enter Stage.metrics] }).trace ++
          recordedMetrics "api-gateway" c
            (runChain (app.gateChain ++
              ((Stage.metrics, MetricsMiddleware "api-gateway") :: rest)) c) ++
          [accessLogLine c
            (runChain (app.gateChain ++
              ((Stage.metrics, MetricsMiddleware "api-gateway") :: rest)) c)] := by
      rw [h4, hrun]
      rfl
    have hab : (runChain (app.gateChain ++
          ((Stage.metrics, MetricsMiddleware "api-gateway") :: rest)) c).aborted =
        (runChain rest
          { c4 with trace := c4.trace ++ [Event.enter Stage.metrics] }).aborted := by
      rw [h4, hrun]
    have hstx : stagesEntered
          (runChain rest { c4 with trace := c4.trace ++ [Event.enter Stage.metrics] }).trace =
        stagesEntered c.trace ++
          ([Stage.cors, Stage.accessLog, Stage.authGate, Stage.addressLimit, Stage.metrics] ++
            (rest.map Prod.fst).take j) := by
      rw [hjs]
      show stagesEntered (c4.trace ++ [Event.enter Stage.metrics]) ++ _ = _
      rw [stagesEntered_enter, hst4]
      simp
    have hstout : stagesEntered (runChain (app.gateChain ++
          ((Stage.metrics, MetricsMiddleware "api-gateway") :: rest)) c).trace =
        stagesEntered
          (runChain rest { c4 with trace := c4.trace ++ [Event.enter Stage.metrics] }).trace := by
      rw [htrace, stagesEntered_append, stagesEntered_append, stagesEntered_recorded]
      simp [stagesEntered, accessLogLine]
    have huout : upstreamRequests
          (runChain rest { c4 with trace := c4.trace ++ [Event.enter Stage.metrics] }).trace =
        upstreamRequests (runChain (app.gateChain ++
          ((Stage.metrics, MetricsMiddleware "api-gateway") :: rest)) c).trace := by
      rw [htrace, upstreamRequests_append, upstreamRequests_append, upstreamRequests_recorded]
      simp [upstreamRequests, accessLogLine]
    have hlen : ([Stage.cors, Stage.accessLog, Stage.authGate, Stage.addressLimit,
        Stage.metrics] ++ rest.map Prod.fst).length = 5 + rest.length := by
      simp
      omega
    refine ⟨5 + j, by omega, by rw [hlen]; omega, ?_, ?_, ?_, fun h => absurd h (by omega),
      fun _ => ⟨?_, _, htrace, ?_, hstout.symm, huout⟩⟩
    · rw [hstout, hstx]
      have : ([Stage.cors, Stage.accessLog, Stage.authGate, Stage.addressLimit,
          Stage.metrics] ++ rest.map Prod.fst).take (5 + j) =
          [Stage.cors, Stage.accessLog, Stage.authGate, Stage.addressLimit, Stage.metrics] ++
            (rest.map Prod.fst).take j :=
        @List.take_append Stage [Stage.cors, Stage.accessLog, Stage.authGate,
          Stage.addressLimit, Stage.metrics] (rest.map Prod.fst) j
      rw [this]
    · intro hlt
      rw [hlen] at hlt
      rw [hab]
      exact hja (by omega)
    · intro heq
      rw [hlen] at heq
      rw [hab, hjf (by omega)]
      exact ha4
    · intro hlt
      rw [hlen] at hlt
      have hne : rest ≠ [] := by
        intro e
        rw [e] at hlt
        simp at hlt
      have := hj0 hne
      omega
    · rw [hjm]
      show metricRecords (c4.trace ++ [Event.enter Stage.metrics]) = _
      rw [metricRecords_enter, hm4]
  · have hlen : ([Stage.cors, Stage.accessLog, Stage.authGate, Stage.addressLimit,
        Stage.metrics] ++ rest.map Prod.fst).length = 5 + rest.length := by
      simp
      omega
    rw [hout]
    refine ⟨k, by omega, by rw [hlen]; omega, ?_, fun _ => haout,
      fun h => absurd h (by rw [hlen]; omega), fun _ => hmout, fun h => absurd h (by omega)⟩
    rw [hstout]
    rcases hk with rfl | rfl <;> rfl

/-- C14 (amended): every request that the router hands to a chain of handlers enters them
in the fixed order CORS, access logging, authentication gate, address-scope rate limiting,
metrics handler, and then the handlers of its route: identity-scope rate limiting and the
reverse proxy on a protected route, the proxy alone on a public route, the health handler
on the health route, nothing when no route matches, and one handler on any route whose
handler does not call the rest of the chain, enters no handler, leaves the abort flag
alone and writes no metric record (the role of the metrics exposition route). The chain
is entered up to the first handler that rejects, which is the authentication gate (three
handlers entered), the address-scope limiter (four) or the identity-scope limiter (six); the
abort flag is set exactly when the last handler is not reached. So the address-scope check
runs after the authentication gate and before the metrics handler, and the identity-scope
check after the metrics handler has been entered and before the proxy. The metrics handler
writes its records after the rest of the chain has returned: where it is entered the
trace ends with its records followed by the access log line, every handler entry and
every upstream request lies before them and no other metric record is written; where it
is not entered no metric record is written at all. -/
theorem C14_stage_order (app : App) (c : Context) :
    ChainShape
        [Stage.cors, Stage.accessLog, Stage.authGate, Stage.addressLimit, Stage.metrics,
          Stage.identityLimit, Stage.proxy]
        c (runChain app.protectedChain c) ∧
      ChainShape
        [Stage.cors, Stage.accessLog, Stage.authGate, Stage.addressLimit, Stage.metrics,
          Stage.proxy]
        c (runChain app.publicChain c) ∧
      ChainShape
        [Stage.cors, Stage.accessLog, Stage.authGate, Stage.addressLimit, Stage.metrics,
          Stage.health]
        c (runChain app.healthChain c) ∧
      ChainShape
        [Stage.cors, Stage.accessLog, Stage.authGate, Stage.addressLimit, Stage.metrics]
        c (runChain app.globalChain c) ∧
      ∀ (stage : Stage) (last : HandlerFunc), Terminal last →
        (∀ next c2, metricRecords (last next c2).trace = metricRecords c2.trace) →
        ChainShape
          [Stage.cors, Stage.accessLog, Stage.authGate, Stage.addressLimit, Stage.metrics,
            stage]
          c (runChain (app.globalChain ++ [(stage, last)]) c) := by
  refine ⟨globalChain_shape app _ (routeTail_protected app) c,
    globalChain_shape app _ (routeTail_public app) c,
    globalChain_shape app _ (routeTail_health app) c, ?_, fun stage last ht hq =>
      globalChain_shape app _ (routeTail_of_terminal stage last ht hq) c⟩
  have h := globalChain_shape app [] routeTail_nil c
  rw [List.append_nil] at h
  exact h

/-- C14 (amended) for the sample gateway and a request with the sample access token on a
protected route. -/
theorem C14_stage_order_witness :
    ChainShape
      [Stage.cors, Stage.accessLog, Stage.authGate, Stage.addressLimit, Stage.metrics,
        Stage.identityLimit, Stage.proxy]
      sampleProtectedRequest (runChain sampleApp.protectedChain sampleProtectedRequest) :=
  (C14_stage_order sampleApp sampleProtectedRequest).1

end Gateway

namespace AuthService

open Gateway

/-! ## Models of the auth service -/

/-- The map literal gives every role the rank of the hierarchy in words. -/
theorem roleRank_eq_claimed (role : UserRole) : roleRank role = claimedRank role := by
  by_cases h1 : role = "admin"
  · subst h1; decide
  by_cases h2 : role = "manager"
  · subst h2; decide
  by_cases h3 : role = "teamlead"
  · subst h3; decide
  by_cases h4 : role = "financeclerk"
  · subst h4; decide
  by_cases h5 : role = "clerk"
  · subst h5; decide
  by_cases h6 : role = "staff"
  · subst h6; decide
  by_cases h7 : role = "customer"
  · subst h7; decide
  have e1 : (role == "admin") = false := beq_eq_false_iff_ne.mpr h1
  have e2 : (role == "manager") = false := beq_eq_false_iff_ne.mpr h2
  have e3 : (role == "teamlead") = false := beq_eq_false_iff_ne.mpr h3
  have e4 : (role == "financeclerk") = false := beq_eq_false_iff_ne.mpr h4
  have e5 : (role == "clerk") = false := beq_eq_false_iff_ne.mpr h5
  have e6 : (role == "staff") = false := beq_eq_false_iff_ne.mpr h6
  have e7 : (role == "customer") = false := beq_eq_false_iff_ne.mpr h7
  simp [roleRank, claimedRank, roleHierarchy, List.lookup, RoleAdmin, RoleManager,
    RoleTeamLead, RoleFinanceClerk, RoleClerk, RoleStaff, RoleCustomer, h1, h2, h3, h4, h5,
    h6, h7, e1, e2, e3, e4, e5, e6, e7]

/-- A role outside the seven known ones has rank 0. -/
theorem claimedRank_unknown (role : UserRole) (h : role ∉ knownRoles) :
    claimedRank role = 0 := by
  unfold knownRoles at h
  simp only [List.mem_cons, List.mem_singleton, List.not_mem_nil, or_false, not_or] at h
  unfold claimedRank
  simp [h]

theorem claimedRank_nonneg (role : UserRole) : 0 ≤ claimedRank role := by
  unfold claimedRank
  split_ifs <;> decide

/-- C28: `User.HasPermission` compares the ranks admin 7, manager 6, teamlead 5,
financeclerk 4, clerk 3, staff 2, customer 1, every other role having rank 0: it returns
true exactly when the rank of the role of the user is at least the rank of the required
role; for a required role that is not one of the seven it returns true for every user,
whatever the role of the user is. -/
theorem C28_role_hierarchy (u : User) (requiredRole : UserRole) :
    (∀ role, roleRank role = claimedRank role) ∧
    (u.HasPermission requiredRole = true ↔
      claimedRank u.Role ≥ claimedRank requiredRole) ∧
    (requiredRole ∉ knownRoles → u.HasPermission requiredRole = true) ∧
    (u.Role ∉ knownRoles → requiredRole ∈ knownRoles → u.HasPermission requiredRole = false) := by
  refine ⟨roleRank_eq_claimed, ?_, ?_, ?_⟩
  · unfold User.HasPermission
    rw [roleRank_eq_claimed, roleRank_eq_claimed]
    simp
  · intro h
    unfold User.HasPermission
    rw [roleRank_eq_claimed, roleRank_eq_claimed, claimedRank_unknown _ h]
    simpa using claimedRank_nonneg u.Role
  · intro hu hr
    unfold User.HasPermission
    rw [roleRank_eq_claimed, roleRank_eq_claimed, claimedRank_unknown _ hu]
    unfold knownRoles at hr
    simp only [List.mem_cons, List.mem_singleton, List.not_mem_nil, or_false] at hr
    rcases hr with h | h | h | h | h | h | h <;> subst h <;> decide

/-- C28 for a manager and for a user with the unknown role `guest`: the manager passes a
check for `clerk` and fails one for `admin`; a check for the unknown role `auditor` passes
for both. -/
theorem C28_role_hierarchy_witness :
    sampleManager.HasPermission "clerk" = true ∧ sampleManager.HasPermission "admin" = false ∧
      sampleManager.HasPermission "auditor" = true ∧
      sampleGuest.HasPermission "auditor" = true :=
  ⟨(C28_role_hierarchy sampleManager "clerk").2.1.mpr (by decide), by decide,
    (C28_role_hierarchy sampleManager "auditor").2.2.1 (by decide),
    (C28_role_hierarchy sampleGuest "auditor").2.2.1 (by decide)⟩

/-! ## Permissions of a role -/

theorem HasPermission_iff (r : Role) (p : Permission) :
    r.HasPermission p = true ↔ p ∈ r.Permissions := by
  unfold Role.HasPermission
  simp [List.any_eq_true]

theorem AddPermission_of_has (r : Role) (p : Permission) (h : r.HasPermission p = true) :
    r.AddPermission p = r := by
  unfold Role.AddPermission
  simp [h]

/-- Removing the element at the first index that holds `p` is erasing `p`. -/
theorem removeFirst_eq_erase (l : List Permission) (p : Permission) :
    (match l.findIdx? (fun x => decide (x = p)) with
      | some i => l.take i ++ l.drop (i + 1)
      | none => l) = l.erase p := by
  induction l with
  | nil => rfl
  | cons a rest ih =>
    by_cases ha : a = p
    · subst ha
      simp [List.findIdx?_cons]
    · have hne : (a == p) = false := by simpa using ha
      rw [List.findIdx?_cons]
      simp only [ha, decide_False, Bool.false_eq_true, if_false]
      rw [List.erase_cons, hne]
      simp only [Bool.false_eq_true, if_false]
      rw [← ih]
      cases hf : rest.findIdx? (fun x => decide (x = p)) with
      | none => simp [hf]
      | some i => simp [hf]

theorem RemovePermission_permissions (r : Role) (p : Permission) :
    (r.RemovePermission p).Permissions = r.Permissions.erase p := by
  rw [← removeFirst_eq_erase]
  unfold Role.RemovePermission
  cases r.Permissions.findIdx? (fun x => decide (x = p)) <;> rfl

/-- C29: when the permissions of a role hold no duplicate, they hold none after
`AddPermission` and after `RemovePermission`; after `AddPermission(p)` the role has `p`
and adding `p` again changes nothing; after `RemovePermission(p)` the role does not have
`p`, and it has every `q` other than `p` exactly when it had it before. -/
theorem C29_permissions_invariant (r : Role) (p q : Permission)
    (hnd : r.Permissions.Nodup) :
    (r.AddPermission p).Permissions.Nodup ∧
      (r.RemovePermission p).Permissions.Nodup ∧
      (r.AddPermission p).HasPermission p = true ∧
      (r.AddPermission p).AddPermission p = r.AddPermission p ∧
      (r.RemovePermission p).HasPermission p = false ∧
      (q ≠ p → (r.RemovePermission p).HasPermission q = r.HasPermission q) ∧
      (q ≠ p → (r.AddPermission p).HasPermission q = r.HasPermission q) := by
  have hadd : (r.AddPermission p).HasPermission p = true := by
    unfold Role.AddPermission
    by_cases h : r.HasPermission p = true
    · simp [h]
    · have h2 : r.HasPermission p = false := by simpa using h
      simp only [h2, Bool.not_false, if_true]
      rw [HasPermission_iff]
      simp
  refine ⟨?_, ?_, hadd, ?_, ?_, ?_, ?_⟩
  · unfold Role.AddPermission
    by_cases h : r.HasPermission p = true
    · simpa [h] using hnd
    · have h2 : r.HasPermission p = false := by simpa using h
      have hmem : p ∉ r.Permissions := fun hm => h ((HasPermission_iff r p).mpr hm)
      simp only [h2, Bool.not_false, if_true]
      rw [List.nodup_append]
      refine ⟨hnd, List.nodup_singleton p, ?_⟩
      intro a ha hb
      rw [List.mem_singleton] at hb
      exact hmem (hb ▸ ha)
  · rw [RemovePermission_permissions]
    exact hnd.erase p
  · exact AddPermission_of_has _ _ hadd
  · have : ¬ (r.RemovePermission p).HasPermission p = true := by
      rw [HasPermission_iff, RemovePermission_permissions]
      exact fun hm => (List.Nodup.mem_erase_iff hnd).mp hm |>.1 rfl
    simpa using this
  · intro hne
    have hiff : (r.RemovePermission p).HasPermission q = true ↔ r.HasPermission q = true := by
      rw [HasPermission_iff, HasPermission_iff, RemovePermission_permissions]
      exact List.mem_erase_of_ne hne
    cases h1 : (r.RemovePermission p).HasPermission q <;>
      cases h2 : r.HasPermission q <;> simp_all
  · intro hne
    have hiff : (r.AddPermission p).HasPermission q = true ↔ r.HasPermission q = true := by
      rw [HasPermission_iff, HasPermission_iff]
      unfold Role.AddPermission
      by_cases h : r.HasPermission p = true
      · simp [h]
      · have h2 : r.HasPermission p = false := by simpa using h
        simp [h2, hne]
    cases h1 : (r.AddPermission p).HasPermission q <;>
      cases h2 : r.HasPermission q <;> simp_all

/-- C29 for the sample role: removing `view_order` leaves `create_order` and `view_item`,
and adding `view_table` twice adds it once. -/
theorem C29_permissions_invariant_witness :
    (sampleRole.RemovePermission "view_order").HasPermission "view_order" = false ∧
      (sampleRole.RemovePermission "view_order").Permissions = ["create_order", "view_item"] ∧
      ((sampleRole.AddPermission "view_table").AddPermission "view_table").Permissions =
        ["create_order", "view_order", "view_item", "view_table"] :=
  have h := C29_permissions_invariant sampleRole "view_order" "view_item" (by decide)
  have h2 := C29_permissions_invariant sampleRole "view_table" "view_item" (by decide)
  ⟨h.2.2.2.2.1, by decide, (congrArg Role.Permissions h2.2.2.2.1).trans (by decide)⟩

/-! ## Password reset requests -/

/-- The two bodies that `RequestPasswordReset` writes with status 200 differ, whatever the
token is. -/
theorem reset_bodies_differ (token : String) :
    messageJSON "if the email exists, a reset link will be sent" ≠
      messageTokenJSON "reset token generated" token := by
  intro h
  have h2 := congrArg (fun x : String => x.data.take 13) h
  simp only [messageJSON, messageTokenJSON, String.data_append] at h2
  simp at h2

/-- The answers of `RequestPasswordReset` to a request whose body binds to `email`, on a
response writer not yet used: the fixed message when the lookup fails, the generated
token when the user is found and the reset row is stored. -/
theorem RequestPasswordReset_outcomes (lib : Lib) (newUUID : UUID) (h : AuthHandler)
    (s : State) (email : String) (hw : s.ctx.written = false) (hb : s.ctx.respBody = "")
    (hbind : lib.bindEmail s.ctx.request.body = Except.ok email) :
    (∀ e, (s.db.GetUserByEmail email).1 = Except.error e →
      (h.RequestPasswordReset lib newUUID s).ctx.status = 200 ∧
      (h.RequestPasswordReset lib newUUID s).ctx.respBody =
        messageJSON "if the email exists, a reset link will be sent") ∧
    (∀ user, (s.db.GetUserByEmail email).1 = Except.ok user →
      ((s.db.GetUserByEmail email).2.CreatePasswordReset
        { UserID := user.ID, Token := newUUID.text, ExpiresAt := s.ctx.now + 24 * Hour,
          Used := false }).1 = none →
      (h.RequestPasswordReset lib newUUID s).ctx.status = 200 ∧
      (h.RequestPasswordReset lib newUUID s).ctx.respBody =
        messageTokenJSON "reset token generated" (lib.jsonText newUUID.text)) := by
  constructor
  · intro e he
    unfold AuthHandler.RequestPasswordReset
    simp only [hbind]
    rcases hg : s.db.GetUserByEmail email with ⟨res, db1⟩
    rw [hg] at he
    simp only at he
    subst he
    simp only
    refine ⟨JSON_status _ _ _ hw (by decide), ?_⟩
    rw [JSON_respBody _ _ _ (by decide)]
    simp [hb]
  · intro user hu hc
    unfold AuthHandler.RequestPasswordReset
    simp only [hbind]
    rcases hg : s.db.GetUserByEmail email with ⟨res, db1⟩
    rw [hg] at hu hc
    simp only at hu hc
    subst hu
    simp only
    rcases hcr : db1.CreatePasswordReset
        { UserID := user.ID, Token := newUUID.text, ExpiresAt := s.ctx.now + 24 * Hour,
          Used := false } with ⟨err, db2⟩
    rw [hcr] at hc
    simp only at hc
    subst hc
    simp only
    refine ⟨JSON_status _ _ _ hw (by decide), ?_⟩
    rw [JSON_respBody _ _ _ (by decide)]
    simp [hb]

/-- C25, evaluated: the same reset request for `alice@example.com` is answered with
status 200 on both databases, but with the body
`{"message":"if the email exists, a reset link will be sent"}` when no such user is
stored and with `{"message":"reset token generated","token":…}` when the user is
stored; the two databases differ only in that user. The second body also hands the
reset token to the requester. -/
theorem C25_reset_reveals_account :
    repoWith = { repoWithout with users := [sampleManager] } ∧
      sampleManager.Email = "alice@example.com" ∧
      sampleLib.bindEmail sampleResetRequest.request.body = Except.ok "alice@example.com" ∧
      ((NewAuthHandler (Config.New sampleEnv)).RequestPasswordReset sampleLib sampleResetToken
        { ctx := sampleResetRequest, db := repoWithout }).ctx.status = 200 ∧
      ((NewAuthHandler (Config.New sampleEnv)).RequestPasswordReset sampleLib sampleResetToken
        { ctx := sampleResetRequest, db := repoWithout }).ctx.respBody =
        "\x7b\"message\":\"if the email exists, a reset link will be sent\"\x7d" ∧
      ((NewAuthHandler (Config.New sampleEnv)).RequestPasswordReset sampleLib sampleResetToken
        { ctx := sampleResetRequest, db := repoWith }).ctx.status = 200 ∧
      ((NewAuthHandler (Config.New sampleEnv)).RequestPasswordReset sampleLib sampleResetToken
        { ctx := sampleResetRequest, db := repoWith }).ctx.respBody =
        "\x7b\"message\":\"reset token generated\",\"token\":\"22222222-2222-2222-2222-222222222222\"\x7d" := by
  refine ⟨by rfl, by rfl, by rfl, by decide, by decide, by decide, by decide⟩

/-! ## Logout behind the authentication middleware -/

/-- A string that holds a space is no token: validation fails at parsing. -/
theorem ValidateToken_of_space (codec : JWTCodec) (hc : codec.Compact) (tm : TokenManager)
    (now : Nat) (tokenString : String) (tokenType : TokenType)
    (hs : ' ' ∈ tokenString.data) :
    tm.ValidateToken codec now tokenString tokenType = Except.error "token is malformed" := by
  unfold TokenManager.ValidateToken jwtParseWithClaims
  simp only [hc tokenString hs]

/-- The middleware of the auth service on a header value with the two parts `Bearer`
and `t`: the token `t` decides. -/
theorem AuthMiddleware_of_format (codec : JWTCodec) (tm : TokenManager) (next : Handler)
    (s : State) (t : String)
    (hfmt : SplitOnSpace (s.ctx.request.header.Get "Authorization") = ["Bearer", t]) :
    AuthMiddleware codec tm next s =
      match tm.ValidateToken codec s.ctx.now t AccessToken with
      | Except.error _ =>
        { s with ctx :=
            (({ s.ctx with trace := s.ctx.trace ++ [Event.getHeader "Authorization"] }
              : Context).JSON 401 (errorJSON "Invalid token")).Abort }
      | Except.ok claims =>
        next { s with ctx :=
          ((({ s.ctx with trace := s.ctx.trace ++ [Event.getHeader "Authorization"] }
            : Context).Set "user_id" (JValue.str claims.UserID.text)).Set "business_id"
            (JValue.str claims.BusinessID.text)).Set "role" (JValue.str claims.Role) } := by
  have hne : s.ctx.request.header.Get "Authorization" ≠ "" := by
    intro e
    have h0 : SplitOnSpace "" = [""] := by decide
    rw [e, h0] at hfmt
    simp at hfmt
  unfold AuthMiddleware
  simp only [Context.GetHeader, hne, if_false, hfmt]
  cases hv : tm.ValidateToken codec s.ctx.now t AccessToken <;> simp [hv]

/-- A request that the middleware of the auth service hands on carries a header value
`Bearer ` followed by a token without a space that validates as an access token. -/
theorem AuthMiddleware_passes (codec : JWTCodec) (tm : TokenManager) (s : State)
    (hpass : (AuthMiddleware codec tm id s).ctx.aborted = false) :
    ∃ (t : String) (claims : TokenClaims),
      s.ctx.request.header.Get "Authorization" = "Bearer " ++ t ∧ ' ' ∉ t.data ∧
      tm.ValidateToken codec s.ctx.now t AccessToken = Except.ok claims ∧
      ∀ next, AuthMiddleware codec tm next s =
        next { s with ctx :=
          ((({ s.ctx with trace := s.ctx.trace ++ [Event.getHeader "Authorization"] }
            : Context).Set "user_id" (JValue.str claims.UserID.text)).Set "business_id"
            (JValue.str claims.BusinessID.text)).Set "role" (JValue.str claims.Role) } := by
  by_cases hne : s.ctx.request.header.Get "Authorization" = ""
  · exfalso
    unfold AuthMiddleware at hpass
    simp only [Context.GetHeader, hne, if_true] at hpass
    exact absurd hpass (by simp [Context.Abort])
  · by_cases hf : (SplitOnSpace (s.ctx.request.header.Get "Authorization")).length = 2 ∧
        (SplitOnSpace (s.ctx.request.header.Get "Authorization")).head? = some "Bearer"
    · obtain ⟨t, ht, hsp⟩ := (format_check_iff _).mp hf
      have hfmt : SplitOnSpace (s.ctx.request.header.Get "Authorization") = ["Bearer", t] := by
        rw [ht, SplitOnSpace_bearer t hsp]
      cases hv : tm.ValidateToken codec s.ctx.now t AccessToken with
      | error e =>
        exfalso
        rw [AuthMiddleware_of_format codec tm id s t hfmt] at hpass
        simp only [hv] at hpass
        exact absurd hpass (by simp [Context.Abort])
      | ok claims =>
        refine ⟨t, claims, ht, hsp, hv, fun next => ?_⟩
        rw [AuthMiddleware_of_format codec tm next s t hfmt]
        simp only [hv]
    · exfalso
      have hf2 : (SplitOnSpace (s.ctx.request.header.Get "Authorization")).length ≠ 2 ∨
          (SplitOnSpace (s.ctx.request.header.Get "Authorization")).head? ≠ some "Bearer" := by
        by_cases hl : (SplitOnSpace (s.ctx.request.header.Get "Authorization")).length = 2
        · exact Or.inr (fun hh => hf ⟨hl, hh⟩)
        · exact Or.inl hl
      unfold AuthMiddleware at hpass
      simp only [Context.GetHeader, hne, if_false] at hpass
      rw [if_pos hf2] at hpass
      exact absurd hpass (by simp [Context.Abort])

/-- `Logout` on a header value that holds a space: 401 `Invalid token`, and the database
is not consulted. -/
theorem Logout_of_space (codec : JWTCodec) (hc : codec.Compact) (lib : Lib) (h : AuthHandler)
    (s : State) (hw : s.ctx.written = false) (hb : s.ctx.respBody = "")
    (hs : ' ' ∈ (s.ctx.request.header.Get "Authorization").data) :
    (h.Logout codec lib s).ctx.status = 401 ∧
      (h.Logout codec lib s).ctx.respBody = errorJSON "Invalid token" ∧
      (h.Logout codec lib s).db = s.db ∧
      (h.Logout codec lib s).ctx.aborted = s.ctx.aborted := by
  have hne : s.ctx.request.header.Get "Authorization" ≠ "" := by
    intro e
    rw [e] at hs
    simp at hs
  have hv := ValidateToken_of_space codec hc h.tokenManager s.ctx.now
    (s.ctx.request.header.Get "Authorization") AccessToken hs
  unfold AuthHandler.Logout
  simp only [Context.GetHeader, hne, if_false, hv]
  refine ⟨JSON_status _ _ _ hw (by decide), ?_, trivial, JSON_aborted _ _ _⟩
  rw [JSON_respBody _ _ _ (by decide)]
  simp [hb]

/-- C30: for every request that the middleware of the auth service hands on (no abort),
the `Authorization` value is `Bearer ` followed by a token `t` without a space that
validates as an access token; `Logout` then validates the whole header value, which holds
a space and is refused by the token parser, so the route answers 401 with body
`{"error":"Invalid token"}` and leaves the database as it was: no session is
deleted. -/
theorem C30_logout_rejects (codec : JWTCodec) (lib : Lib) (tm : TokenManager)
    (h : AuthHandler) (s : State) (hc : codec.Compact)
    (hw : s.ctx.written = false) (hb : s.ctx.respBody = "")
    (hpass : (AuthMiddleware codec tm id s).ctx.aborted = false) :
    (∃ (t : String) (claims : TokenClaims),
      s.ctx.request.header.Get "Authorization" = "Bearer " ++ t ∧ ' ' ∉ t.data ∧
      tm.ValidateToken codec s.ctx.now t AccessToken = Except.ok claims) ∧
    h.tokenManager.ValidateToken codec s.ctx.now (s.ctx.request.header.Get "Authorization")
      AccessToken = Except.error "token is malformed" ∧
    (logoutRoute codec lib tm h s).ctx.status = 401 ∧
    (logoutRoute codec lib tm h s).ctx.respBody = "\x7b\"error\":\"Invalid token\"\x7d" ∧
    (logoutRoute codec lib tm h s).db = s.db ∧
    (logoutRoute codec lib tm h s).db.sessions = s.db.sessions := by
  obtain ⟨t, claims, ht, hsp, hval, hnext⟩ := AuthMiddleware_passes codec tm s hpass
  have hs : ' ' ∈ (s.ctx.request.header.Get "Authorization").data := by
    rw [ht, String.data_append]
    have hbd : ("Bearer " : String).data = ['B', 'e', 'a', 'r', 'e', 'r', ' '] := rfl
    rw [hbd]
    simp
  have hl := Logout_of_space codec hc lib h
    { s with ctx :=
      ((({ s.ctx with trace := s.ctx.trace ++ [Event.getHeader "Authorization"] }
        : Context).Set "user_id" (JValue.str claims.UserID.text)).Set "business_id"
        (JValue.str claims.BusinessID.text)).Set "role" (JValue.str claims.Role) }
    hw hb hs
  refine ⟨⟨t, claims, ht, hsp, hval⟩,
    ValidateToken_of_space codec hc h.tokenManager s.ctx.now _ AccessToken hs, ?_, ?_, ?_, ?_⟩
  · unfold logoutRoute
    rw [hnext]
    exact hl.1
  · unfold logoutRoute
    rw [hnext]
    exact hl.2.1
  · unfold logoutRoute
    rw [hnext]
    exact hl.2.2.1
  · unfold logoutRoute
    rw [hnext]
    exact congrArg Repo.sessions hl.2.2.1

theorem sampleCodec_compact : sampleCodec.Compact := by
  intro s hs
  have h1 : s ≠ "access.jws" := by
    intro e
    subst e
    revert hs
    decide
  have h2 : s ≠ "refresh.jws" := by
    intro e
    subst e
    revert hs
    decide
  simp [sampleCodec, h1, h2]

/-- C30 for the request `Bearer access.jws` with the sample access token, whose session
is stored: the middleware hands the request on, `Logout` answers 401 and the session is
still stored. -/
theorem C30_logout_rejects_witness :
    (AuthMiddleware sampleCodec (mainTokenManager (Config.New sampleEnv)) id
        { ctx := sampleContextAt "/auth/logout" [("Authorization", ["Bearer access.jws"])],
          db := repoSession }).ctx.aborted = false ∧
      (logoutRoute sampleCodec sampleLib (mainTokenManager (Config.New sampleEnv))
        (NewAuthHandler (Config.New sampleEnv))
        { ctx := sampleContextAt "/auth/logout" [("Authorization", ["Bearer access.jws"])],
          db := repoSession }).ctx.status = 401 ∧
      (logoutRoute sampleCodec sampleLib (mainTokenManager (Config.New sampleEnv))
        (NewAuthHandler (Config.New sampleEnv))
        { ctx := sampleContextAt "/auth/logout" [("Authorization", ["Bearer access.jws"])],
          db := repoSession }).db.sessions = repoSession.sessions :=
  have h := C30_logout_rejects sampleCodec sampleLib (mainTokenManager (Config.New sampleEnv))
    (NewAuthHandler (Config.New sampleEnv))
    { ctx := sampleContextAt "/auth/logout" [("Authorization", ["Bearer access.jws"])],
      db := repoSession }
    sampleCodec_compact rfl rfl (by decide)
  ⟨by decide, h.2.2.1, h.2.2.2.2.2⟩

end AuthService
